import Mathlib

/-
  Verification development for the worksheet engine of the XlsxWriter
  repository (src/xlsxwriter/worksheet.py).

  The Python code is shallowly embedded: Python `str` values are modelled as
  `List Char` (`PyStr`), Python floats as `ℚ` (all arithmetic exercised by the
  claims is exact), the sparse two-level cell store (`defaultdict(dict)`) as
  association lists, and the XML stream written through the XMLwriter as a
  list of structured events.  Functions keep the names of the Python methods
  they embed.  External collaborators that are consumed but not part of
  src/ (the shared string table, the A1 coordinate helpers, the close-time
  drain of the streaming spill) are modelled from the specification and are
  marked as such in their doc comments.
-/

set_option maxHeartbeats 1000000
set_option maxRecDepth 8000

/-- Python `str` is modelled as a list of characters; `len`, slicing and
`str.replace` then have exact counterparts. -/
abbrev PyStr := List Char

/-- Python `str.replace(pat, rep)`: replace all non-overlapping occurrences,
scanning left to right.  Structural recursion on a fuel that the wrapper sets
to the scanned length (each step consumes at least one character, so the fuel
never runs out).  All call sites in the source use a fixed non-empty pattern;
an empty pattern is a no-op here. -/
def pyReplaceAux (pat rep : PyStr) : Nat → PyStr → PyStr
  | 0, l => l
  | _ + 1, [] => []
  | fuel + 1, c :: rest =>
    if pat ≠ [] ∧ pat.isPrefixOf (c :: rest)
    then rep ++ pyReplaceAux pat rep fuel (rest.drop (pat.length - 1))
    else c :: pyReplaceAux pat rep fuel rest

def pyReplace (pat rep l : PyStr) : PyStr := pyReplaceAux pat rep l.length l

/-- Whether `sub` occurs as a contiguous substring (used to state facts about
synthesized formulas; Python `in` on str). -/
def pyContains (l sub : PyStr) : Bool :=
  (List.range (l.length + 1)).any (fun i => sub.isPrefixOf (l.drop i))

/-- Python regex `[0-9a-fA-F]` character class. -/
def isHexDigit (c : Char) : Bool :=
  (('0' ≤ c && c ≤ '9') || ('a' ≤ c && c ≤ 'f') || ('A' ≤ c && c ≤ 'F'))

/-- Python regex `\s` on the characters the source can meet (ASCII whitespace). -/
def isPySpace (c : Char) : Bool :=
  (c == ' ' || c == '\t' || c == '\n' || c == '\r' || c == '\x0b' || c == '\x0c')

/-- Upper-case hexadecimal digit, for Python `"%04X" % ord(c)`. -/
def hexDigitUpper (n : Nat) : Char :=
  if n < 10 then Char.ofNat (48 + n) else Char.ofNat (55 + n)

/-- Python `"%04X" % n` for `n < 0x10000`. -/
def hex4 (n : Nat) : PyStr :=
  [hexDigitUpper (n / 4096 % 16), hexDigitUpper (n / 256 % 16),
   hexDigitUpper (n / 16 % 16), hexDigitUpper (n % 16)]

/-- Characters matched by the source's control-character class
`[\x00-\x08\x0B-\x1F]` (worksheet.py line 4269). -/
def isCtrlEscape (c : Char) : Bool :=
  (c.toNat ≤ 8 || (11 ≤ c.toNat && c.toNat ≤ 31))

/-- First substitution of `Worksheet._write_cell` for inline strings:
`re.sub('(_x[0-9a-fA-F]{4}_)', r'_x005F\1', string)` — prefix every literal
`_xHHHH_` with `_x005F`, scanning left to right, non-overlapping. -/
def escapeXPatternAux : Nat → PyStr → PyStr
  | 0, l => l
  | _ + 1, [] => []
  | fuel + 1, '_' :: 'x' :: a :: b :: c :: d :: '_' :: rest =>
    if isHexDigit a && isHexDigit b && isHexDigit c && isHexDigit d then
      '_' :: 'x' :: '0' :: '0' :: '5' :: 'F' ::
        '_' :: 'x' :: a :: b :: c :: d :: '_' :: escapeXPatternAux fuel rest
    else
      '_' :: escapeXPatternAux fuel ('x' :: a :: b :: c :: d :: '_' :: rest)
  | fuel + 1, ch :: rest => ch :: escapeXPatternAux fuel rest

def escapeXPattern (l : PyStr) : PyStr := escapeXPatternAux l.length l

/-- Second substitution of `Worksheet._write_cell` for inline strings:
control characters become `_xHHHH_` (worksheet.py lines 4269-4271). -/
def escapeControlChars (l : PyStr) : PyStr :=
  (l.map (fun c =>
    if isCtrlEscape c then '_' :: 'x' :: (hex4 c.toNat ++ ['_']) else [c])).flatten

/-- Full inline-string escaping applied by `_write_cell` in streaming mode. -/
def escapeInline (l : PyStr) : PyStr :=
  escapeControlChars (escapeXPattern l)

/-- Python decimal rendering of a natural number (`str(n)`, `"%d" % n`). -/
def natToDec (n : Nat) : PyStr := Nat.toDigits 10 n

/-- Modelled from the spec: external Coordinate Helper that converts a
zero-indexed column number to spreadsheet column letters (A, B, ..., Z, AA,
...); `utility.xl_col_to_name` is consumed, not owned, by the worksheet. -/
def xlColNameAux : Nat → Nat → PyStr → PyStr
  | 0, _, acc => acc
  | _ + 1, 0, acc => acc
  | fuel + 1, n + 1, acc =>
    let rem := (n + 1) % 26
    if rem = 0 then xlColNameAux fuel ((n + 1) / 26 - 1) ('Z' :: acc)
    else xlColNameAux fuel ((n + 1) / 26) (Char.ofNat (64 + rem) :: acc)

/-- Modelled from the spec: external Coordinate Helper
`utility.xl_rowcol_to_cell` — zero-indexed (row, col) to an A1 cell string.
The fuel `col + 2` always suffices: the working value strictly decreases. -/
def xl_rowcol_to_cell (row col : Nat) : PyStr :=
  xlColNameAux (col + 2) (col + 1) [] ++ natToDec (row + 1)

/-
  Date model (`Worksheet._convert_date_time`, worksheet.py lines 2883-2911,
  with the epochs fixed at lines 304-305 and 2746-2747).
-/

/-- Proleptic Gregorian leap-year test, as used by Python's datetime. -/
def isLeapYear (y : Nat) : Bool :=
  ((y % 4 == 0 && y % 100 != 0) || y % 400 == 0)

/-- Days before the first day of month `m` (1-indexed) in a year. -/
def daysBeforeMonth (leap : Bool) (m : Nat) : Nat :=
  [0, 0, 31, 59, 90, 120, 151, 181, 212, 243, 273, 304, 334].getD m 334
    + (if leap && m > 2 then 1 else 0)

/-- Proleptic Gregorian ordinal of a calendar date (0001-01-01 is day 1),
mirroring `datetime.date.toordinal`. -/
def dateOrdinal (y m d : Nat) : Int :=
  ((365 * (y - 1) + (y - 1) / 4 + (y - 1) / 400
      + daysBeforeMonth (isLeapYear y) m + d : Nat) : Int)
    - (((y - 1) / 100 : Nat) : Int)

/-- Python `datetime.datetime` field tuple. -/
structure PyDateTime where
  year : Nat
  month : Nat
  day : Nat
  hour : Nat
  minute : Nat
  second : Nat
  microsecond : Nat
deriving DecidableEq

/-- Argument of `_convert_date_time`: a `datetime.datetime`, `datetime.date`
or `datetime.time` (the only types `_is_supported_datetime` accepts). -/
inductive DTObj where
  | dtime (d : PyDateTime)
  | ddate (y m d : Nat)
  | dclock (h mi s us : Nat)
deriving DecidableEq

/-- The worksheet epoch: `datetime(1899, 12, 31)` by default (line 305) or
`datetime(1904, 1, 1)` when the 1904 date system is set (line 2747). -/
def epochDate (date_1904 : Bool) : Nat × Nat × Nat :=
  if date_1904 then (1904, 1, 1) else (1899, 12, 31)

/-- Normalization at the head of `_convert_date_time`: dates get a zero time,
times are combined with the epoch date (`datetime.datetime.combine`). -/
def normalizeDT (date_1904 : Bool) : DTObj → PyDateTime
  | .dtime d => d
  | .ddate y m d => ⟨y, m, d, 0, 0, 0, 0⟩
  | .dclock h mi s us =>
    let e := epochDate date_1904
    ⟨e.1, e.2.1, e.2.2, h, mi, s, us⟩

/-- Embedding of `Worksheet._convert_date_time` (lines 2883-2911).  The float
arithmetic is carried out exactly in `ℚ`.  The Python guard
`dt_obj.isocalendar() == (1900, 1, 1)` is the date-part test for 1900-01-01:
`isocalendar` is injective on dates and `(1900, 1, 1)` is the ISO triple of
1900-01-01 (a Monday in week 1 of ISO year 1900). -/
def convert_date_time (date_1904 : Bool) (o : DTObj) : ℚ :=
  let dt := normalizeDT date_1904 o
  let e := epochDate date_1904
  let days : Int := dateOrdinal dt.year dt.month dt.day - dateOrdinal e.1 e.2.1 e.2.2
  let excel1 : ℚ := (days : ℚ) +
    (((dt.hour * 3600 + dt.minute * 60 + dt.second : Nat) : ℚ)
      + (dt.microsecond : ℚ) / 1000000) / (60 * 60 * 24)
  let excel2 : ℚ :=
    if dt.year = 1900 ∧ dt.month = 1 ∧ dt.day = 1 then excel1 - 1 else excel1
  if date_1904 = false ∧ excel2 > 59 then excel2 + 1 else excel2

/-
  Cell variants (the named tuples of worksheet.py lines 123-128) and the
  worksheet state (the fields of `Worksheet.__init__` / `_initialize` that the
  claims touch).
-/

/-- The `string` field of a String cell: a shared-string index in buffered
mode, the raw text in streaming mode (worksheet.py lines 394-398). -/
inductive StrIdx where
  | shared (i : Nat)
  | inline (s : PyStr)
deriving DecidableEq

/-- A Python value as stored in a formula cell's `value` slot. -/
inductive PyVal where
  | num (q : ℚ)
  | str (s : PyStr)
deriving DecidableEq

/-- Cell variants: `cell_string_tuple`, `cell_number_tuple`,
`cell_blank_tuple`, `cell_formula_tuple`, `cell_arformula_tuple`.  A format
object is identified by the style index the external registry resolves it to
(`Format._get_xf_index`), `none` standing for Python `None`. -/
inductive Cell where
  | CString (string : StrIdx) (format : Option Nat)
  | CNumber (number : ℚ) (format : Option Nat)
  | CBlank (format : Option Nat)
  | CFormula (formula : PyStr) (format : Option Nat) (value : PyVal)
  | CArrayFormula (formula : PyStr) (format : Option Nat) (value : PyVal)
      (cellRange : PyStr)
deriving DecidableEq

/-- The `format` slot shared by all cell variants. -/
def cellFormat : Cell → Option Nat
  | .CString _ f => f
  | .CNumber _ f => f
  | .CBlank f => f
  | .CFormula _ f _ => f
  | .CArrayFormula _ f _ _ => f

/-- Lookup in an association list keyed by naturals (a Python dict whose
iteration order the embedded code never relies on). -/
def alistGet {α : Type} (l : List (Nat × α)) (k : Nat) : Option α :=
  (l.find? (fun p => p.1 == k)).map (fun p => p.2)

/-- Insert-or-replace for the association list. -/
def alistSet {α : Type} : List (Nat × α) → Nat → α → List (Nat × α)
  | [], k, v => [(k, v)]
  | (k0, v0) :: rest, k, v =>
    if k0 = k then (k, v) :: rest else (k0, v0) :: alistSet rest k v

/-- One row of the sparse cell store: column -> cell. -/
abbrev ColMap := List (Nat × Cell)

/-- The sparse two-level cell store `self.table` (`defaultdict(dict)`). -/
abbrev Table := List (Nat × ColMap)

def colGet (m : ColMap) (c : Nat) : Option Cell := alistGet m c

def colSet (m : ColMap) (c : Nat) (v : Cell) : ColMap := alistSet m c v

/-- Reading `self.table[row]`; a missing row reads as the empty dict. -/
def tableGet (t : Table) (r : Nat) : ColMap := (alistGet t r).getD []

/-- The store `self.table[row][col] = cell`. -/
def tableSet : Table → Nat → Nat → Cell → Table
  | [], r, c, v => [(r, [(c, v)])]
  | (k, m) :: rest, r, c, v =>
    if k = r then (r, colSet m c v) :: rest else (k, m) :: tableSet rest r c v

/-- Per-row override stored by `set_row`: height, format, hidden, outline
level, collapsed. -/
structure RowProps where
  height : Option ℚ
  format : Option Nat
  hidden : Bool
  level : Nat
  collapsed : Bool
deriving DecidableEq

/-- Hyperlink side record stored by `write_url` (lines 743-747). -/
structure Hyperlink where
  link_type : Nat
  url : PyStr
  location : Option PyStr
  tip : Option PyStr
deriving DecidableEq

/-- Payload of an emitted `<c>` element (`_write_cell`, lines 4231-4310). -/
inductive CellXml where
  | xmlNumber (v : ℚ)
  | xmlSharedString (i : Nat)
  | xmlInlineString (t : PyStr) (preserve : Bool)
  | xmlRichInline (t : PyStr)
  | xmlFormula (f : PyStr) (v : PyVal) (strTag : Bool)
  | xmlArrayFormula (f : PyStr) (cellRange : PyStr) (v : PyVal) (strTag : Bool)
  | xmlBlank
deriving DecidableEq

/-- Structured view of the XML the serializer writes inside `<sheetData>`:
`<row>` open/empty tags with their attributes, `</row>` close tags, and one
event per `<c>` element. -/
inductive XmlEvent where
  | rowStart (r : Nat) (spans : Option (Nat × Nat)) (props : Option RowProps)
  | rowEnd
  | emptyRow (r : Nat) (spans : Option (Nat × Nat)) (props : Option RowProps)
  | cellEvent (ref : PyStr) (style : Option Nat) (x : CellXml)
deriving DecidableEq

def xls_rowmax : Nat := 1048576

def xls_colmax : Nat := 16384

def xls_strmax : Nat := 32767

/-- The worksheet state: exactly the `__init__`/`_initialize` fields the
embedded methods read or write.  `streamOut` stands for the temp-file spill
that streaming mode appends row XML to. -/
structure Worksheet where
  optimization : Bool
  table : Table
  dim_rowmin : Option Nat
  dim_rowmax : Option Nat
  dim_colmin : Option Nat
  dim_colmax : Option Nat
  previous_row : Nat
  strTable : List PyStr
  merge : List (Nat × Nat × Nat × Nat)
  hlink_count : Nat
  hyperlinks : List ((Nat × Nat) × Hyperlink)
  set_rows : List (Nat × RowProps)
  col_formats : List (Nat × Nat)
  comments : List (Nat × List Nat)
  streamOut : List XmlEvent
  date_1904 : Bool
deriving DecidableEq

/-- A fresh worksheet as `__init__` plus `_initialize` leave it (the shared
string table handle is external and may already hold strings). -/
def initWorksheet (optimization date_1904 : Bool) (strTable : List PyStr) :
    Worksheet :=
  { optimization := optimization
    table := []
    dim_rowmin := none
    dim_rowmax := none
    dim_colmin := none
    dim_colmax := none
    previous_row := 0
    strTable := strTable
    merge := []
    hlink_count := 0
    hyperlinks := []
    set_rows := []
    col_formats := []
    comments := []
    streamOut := []
    date_1904 := date_1904 }

def dimLower (cur : Option Nat) (v : Nat) : Option Nat :=
  match cur with
  | none => some v
  | some w => if v < w then some v else some w

def dimUpper (cur : Option Nat) (v : Nat) : Option Nat :=
  match cur with
  | none => some v
  | some w => if v > w then some v else some w

/-- Embedding of `Worksheet._check_dimensions` (lines 2852-2881): `-1` means
the coordinate was rejected and nothing was stored; `0` means the dimension
bounding box was widened to cover the coordinate. -/
def _check_dimensions (ws : Worksheet) (row col : Nat)
    (ignore_row ignore_col : Bool) : Int × Worksheet :=
  if row ≥ xls_rowmax ∨ col ≥ xls_colmax then (-1, ws)
  else if ignore_row = false ∧ ignore_col = false ∧ ws.optimization = true ∧
      row < ws.previous_row then (-1, ws)
  else
    let ws1 := if ignore_row then ws else
      { ws with dim_rowmin := dimLower ws.dim_rowmin row
                dim_rowmax := dimUpper ws.dim_rowmax row }
    let ws2 := if ignore_col then ws1 else
      { ws1 with dim_colmin := dimLower ws1.dim_colmin col
                 dim_colmax := dimUpper ws1.dim_colmax col }
    (0, ws2)

/-- Modelled from the spec: the external Shared String Table "interns text to
integer indices" (`SharedStringTable._get_shared_string_index`, consumed in
buffered mode only): an already-present string keeps its index, a new string
is appended at the next free index. -/
def getSharedStringIndex (tbl : List PyStr) (s : PyStr) : Nat × List PyStr :=
  match tbl.findIdx? (fun t => t == s) with
  | some i => (i, tbl)
  | none => (tbl.length, tbl ++ [s])

/-
  Serializer (`_write_cell`, `_calculate_spans`, `_write_rows`,
  `_write_single_row`, worksheet.py lines 4057-4326).
-/

/-- Splitting a string at its leading run of decimal digits. -/
def splitDigits (l : PyStr) : PyStr × PyStr :=
  (l.takeWhile Char.isDigit, l.dropWhile Char.isDigit)

def splitAtExp : PyStr → PyStr × Option PyStr
  | [] => ([], none)
  | c :: rest =>
    if c == 'e' || c == 'E' then ([], some rest)
    else
      let p := splitAtExp rest
      (c :: p.1, p.2)

def signStrip : PyStr → PyStr
  | '+' :: r => r
  | '-' :: r => r
  | r => r

def mantissaOk (l : PyStr) : Bool :=
  let p := splitDigits l
  match p.2 with
  | [] => p.1 ≠ []
  | '.' :: r2 =>
    let q := splitDigits r2
    (q.2 = [] ∧ (p.1 ≠ [] ∨ q.1 ≠ []))
  | _ => false

/-- Whether Python `float(s)` succeeds, for the decimal-literal grammar
(sign, digits with an optional point, optional exponent, surrounding
whitespace); the exotic `inf`/`nan` spellings never reach this check in the
embedded paths. -/
def pyFloatAccepts (s : PyStr) : Bool :=
  let t := ((s.dropWhile isPySpace).reverse.dropWhile isPySpace).reverse
  if t = [] then false
  else
    let t := signStrip t
    let p := splitAtExp t
    mantissaOk p.1 &&
      (match p.2 with
       | none => true
       | some ex =>
         let ex := signStrip ex
         (ex ≠ [] ∧ ex.all Char.isDigit))

/-- Whether `float(cell.value)` succeeds on a stored formula value
(`_write_cell` lines 4286-4289). -/
def pyFloatable : PyVal → Bool
  | .num _ => true
  | .str s => pyFloatAccepts s

/-- Python `int(digits)` / float mantissa value. -/
def digitsToNat (l : PyStr) : Nat :=
  l.foldl (fun n c => 10 * n + (c.toNat - 48)) 0

/-- Exact value of a decimal float literal accepted by `pyFloatAccepts`.
(Python rounds to binary double; the embedded claims never feed numeric
strings through this path.) -/
def pyStrToRat (s : PyStr) : ℚ :=
  let t := ((s.dropWhile isPySpace).reverse.dropWhile isPySpace).reverse
  let neg := t.head? = some '-'
  let t := signStrip t
  let p := splitAtExp t
  let d := splitDigits p.1
  let frac : PyStr :=
    match d.2 with
    | '.' :: r => (splitDigits r).1
    | _ => []
  let mant : ℚ := (digitsToNat d.1 : ℚ) + (digitsToNat frac : ℚ) / ((10 : ℚ) ^ frac.length)
  let ev : Int :=
    match p.2 with
    | none => 0
    | some ex =>
      let en := ex.head? = some '-'
      let exd := signStrip ex
      if en then -(digitsToNat exd : Int) else (digitsToNat exd : Int)
  (if neg then -mant else mant) * (10 : ℚ) ^ ev

/-- Leading/trailing-whitespace test deciding the `xml:space` preserve
attribute (lines 4278-4280). -/
def needsPreserve (l : PyStr) : Bool :=
  match l with
  | [] => false
  | c :: _ => isPySpace c || (match l.getLast? with
    | some d => isPySpace d
    | none => false)

/-- Rich-string detection on an inline string:
`re.search('^<r>', s) and re.search('</r>$', s)` (line 4274). -/
def isRichInline (l : PyStr) : Bool :=
  (("<r>").data.isPrefixOf l && ("</r>").data.isSuffixOf l)

/-- Embedding of `Worksheet._write_cell` (lines 4231-4310) as one structured
event.  Style precedence: the cell's own format, else the owning row's
format, else the owning column's format.  The source branches on
`self.optimization` to decide whether the stored `string` field is a shared
index or inline text; by construction those coincide with the `StrIdx`
constructor, on which we dispatch. -/
def _write_cell (ws : Worksheet) (row col : Nat) (cell : Cell) : XmlEvent :=
  let ref := xl_rowcol_to_cell row col
  let style : Option Nat :=
    match cellFormat cell with
    | some f => some f
    | none =>
      match (alistGet ws.set_rows row).bind (fun p => p.format) with
      | some rf => some rf
      | none => alistGet ws.col_formats col
  let x : CellXml :=
    match cell with
    | .CNumber n _ => .xmlNumber n
    | .CString si _ =>
      match si with
      | .shared i => .xmlSharedString i
      | .inline s =>
        let es := escapeInline s
        if isRichInline es then .xmlRichInline es
        else .xmlInlineString es (needsPreserve es)
    | .CFormula f _ v => .xmlFormula f v (!pyFloatable v)
    | .CArrayFormula f _ v rng => .xmlArrayFormula f rng v (!pyFloatable v)
    | .CBlank _ => .xmlBlank
  .cellEvent ref style x

/-- The `<c>` events of one row: the column loop
`for col_num in range(dim_colmin, dim_colmax + 1)` of `_write_rows` /
`_write_single_row`.  A row with content implies the column dimensions are
set; the defensive `[]` mirrors the fact that Python would have no columns
to iterate. -/
def emitRowCells (ws : Worksheet) (row : Nat) : List XmlEvent :=
  match ws.dim_colmin, ws.dim_colmax with
  | some cmin, some cmax =>
    (List.range' cmin (cmax + 1 - cmin)).filterMap (fun c =>
      (colGet (tableGet ws.table row) c).map (fun cell => _write_cell ws row c cell))
  | _, _ => []

/-- The `<row>` open/empty tag written by `_write_row` / `_write_empty_row`
(lines 4184-4229), carrying the attribute sources. -/
def _write_row_event (row : Nat) (spans : Option (Nat × Nat))
    (props : Option RowProps) (empty_row : Bool) : XmlEvent :=
  if empty_row then .emptyRow row spans props else .rowStart row spans props

/-- Column scan of one row for `_calculate_spans`, over the cells present in
the row's column map. -/
def spanScanCols (cmin cmax : Nat) (m : ColMap) (st : Option (Nat × Nat)) :
    Option (Nat × Nat) :=
  (List.range' cmin (cmax + 1 - cmin)).foldl (fun st c =>
    if (colGet m c).isSome then
      match st with
      | none => some (c, c)
      | some (a, b) => some ((if c < a then c else a), (if c > b then c else b))
    else st) st

/-- Column scan of one row's comment columns for `_calculate_spans`. -/
def spanScanComments (cmin cmax : Nat) (cols : List Nat)
    (st : Option (Nat × Nat)) : Option (Nat × Nat) :=
  (List.range' cmin (cmax + 1 - cmin)).foldl (fun st c =>
    if cols.contains c then
      match st with
      | none => some (c, c)
      | some (a, b) => some ((if c < a then c else a), (if c > b then c else b))
    else st) st

/-- Embedding of `Worksheet._calculate_spans` (lines 4135-4182): the
1-indexed min:max occupied column per 16-row block, keyed by `row / 16`. -/
def _calculate_spans (ws : Worksheet) : List (Nat × (Nat × Nat)) :=
  match ws.dim_rowmin, ws.dim_rowmax, ws.dim_colmin, ws.dim_colmax with
  | some rmin, some rmax, some cmin, some cmax =>
    ((List.range' rmin (rmax + 1 - rmin)).foldl
      (fun (acc : List (Nat × (Nat × Nat)) × Option (Nat × Nat)) row =>
        let st := acc.2
        let st := if tableGet ws.table row ≠ [] then
            spanScanCols cmin cmax (tableGet ws.table row) st else st
        let st := match alistGet ws.comments row with
          | some cols => spanScanComments cmin cmax cols st
          | none => st
        if (row + 1) % 16 = 0 ∨ row = rmax then
          match st with
          | some ab => (acc.1 ++ [(row / 16, (ab.1 + 1, ab.2 + 1))], none)
          | none => (acc.1, none)
        else (acc.1, st))
      ([], none)).1
  | _, _, _, _ => []

/-- Events for one row as emitted by the buffered row loop `_write_rows`
(lines 4057-4095): skip content-free rows, open a `<row>` with the block's
spans, emit the occupied cells in ascending column order, close. -/
def rowEventsBuffered (ws : Worksheet) (spans : List (Nat × (Nat × Nat)))
    (row : Nat) : List XmlEvent :=
  if (alistGet ws.set_rows row).isSome ∨ (alistGet ws.comments row).isSome ∨
      tableGet ws.table row ≠ [] then
    let span := alistGet spans (row / 16)
    if tableGet ws.table row ≠ [] then
      _write_row_event row span (alistGet ws.set_rows row) false ::
        emitRowCells ws row ++ [XmlEvent.rowEnd]
    else
      [_write_row_event row span (alistGet ws.set_rows row) true]
  else []

/-- Embedding of `Worksheet._write_rows` (buffered serialization). -/
def _write_rows (ws : Worksheet) : List XmlEvent :=
  match ws.dim_rowmin, ws.dim_rowmax with
  | some rmin, some rmax =>
    let spans := _calculate_spans ws
    ((List.range' rmin (rmax + 1 - rmin)).map (rowEventsBuffered ws spans)).flatten
  | _, _ => []

/-- The `<row>`/`<c>` events inside `<sheetData>` in buffered mode
(`_write_sheet_data`, lines 3906-3915: nothing if the dimensions are unset). -/
def sheetDataEvents (ws : Worksheet) : List XmlEvent :=
  if ws.dim_rowmin.isNone then [] else _write_rows ws

/-- The events one row contributes when flushed without a spans attribute:
the shared body of `_write_single_row` (lines 4102-4130) — an open tag, the
cells and a close tag when the row has cells, an empty-row tag when it only
has row properties or comments, nothing when it has no content. -/
def flushRowEvents (ws : Worksheet) (row : Nat) : List XmlEvent :=
  if (alistGet ws.set_rows row).isSome ∨ (alistGet ws.comments row).isSome ∨
      tableGet ws.table row ≠ [] then
    if tableGet ws.table row ≠ [] then
      _write_row_event row none (alistGet ws.set_rows row) false ::
        emitRowCells ws row ++ [XmlEvent.rowEnd]
    else
      [_write_row_event row none (alistGet ws.set_rows row) true]
  else []

/-- Embedding of `Worksheet._write_single_row` (lines 4097-4133): flush the
buffered row (no spans attribute), advance `previous_row`, clear the table. -/
def _write_single_row (ws : Worksheet) (current_row_num : Nat) : Worksheet :=
  let row := ws.previous_row
  let ws1 := { ws with previous_row := current_row_num }
  { ws1 with streamOut := ws1.streamOut ++ flushRowEvents ws1 row, table := [] }

/-- Modelled from the spec: in streaming mode the spill is "fully drained and
removed exactly once at close", i.e. the still-buffered row is flushed by a
final parameterless `_write_single_row()` call (the workbook close path,
outside this file) before `_write_optimized_sheet_data` copies the spill. -/
def closeStreamEvents (ws : Worksheet) : List XmlEvent :=
  (_write_single_row ws 0).streamOut

/-
  Write Dispatch (worksheet.py lines 308-749).
-/

/-- Embedding of `Worksheet.write_string` (lines 366-407). -/
def write_string (ws : Worksheet) (row col : Nat) (s : PyStr)
    (fmt : Option Nat) : Int × Worksheet :=
  let chk := _check_dimensions ws row col false false
  if chk.1 ≠ 0 then (-1, ws)
  else
    let ws1 := chk.2
    let str_error : Int := if s.length > xls_strmax then -2 else 0
    let s := if s.length > xls_strmax then s.take xls_strmax else s
    let r :=
      if ws1.optimization = false then
        let g := getSharedStringIndex ws1.strTable s
        (StrIdx.shared g.1, { ws1 with strTable := g.2 })
      else (StrIdx.inline s, ws1)
    let ws2 := r.2
    let ws3 := if ws2.optimization = true ∧ row > ws2.previous_row
      then _write_single_row ws2 row else ws2
    (str_error, { ws3 with table := tableSet ws3.table row col (Cell.CString r.1 fmt) })

/-- Embedding of `Worksheet.write_number` (lines 409-439). -/
def write_number (ws : Worksheet) (row col : Nat) (number : ℚ)
    (fmt : Option Nat) : Int × Worksheet :=
  let chk := _check_dimensions ws row col false false
  if chk.1 ≠ 0 then (-1, ws)
  else
    let ws1 := chk.2
    let ws2 := if ws1.optimization = true ∧ row > ws1.previous_row
      then _write_single_row ws1 row else ws1
    (0, { ws2 with table := tableSet ws2.table row col (Cell.CNumber number fmt) })

/-- Embedding of `Worksheet.write_blank` (lines 441-473): without a format
the call returns success before the bounds check and stores nothing. -/
def write_blank (ws : Worksheet) (row col : Nat) (fmt : Option Nat) :
    Int × Worksheet :=
  match fmt with
  | none => (0, ws)
  | some f =>
    let chk := _check_dimensions ws row col false false
    if chk.1 ≠ 0 then (-1, ws)
    else
      let ws1 := chk.2
      let ws2 := if ws1.optimization = true ∧ row > ws1.previous_row
        then _write_single_row ws1 row else ws1
      (0, { ws2 with table := tableSet ws2.table row col (Cell.CBlank (some f)) })

/-- The row-major range loop of `write_array_formula` / `merge_range`. -/
def rangePairs (fr fc lr lc : Nat) : List (Nat × Nat) :=
  ((List.range' fr (lr + 1 - fr)).map (fun r =>
    (List.range' fc (lc + 1 - fc)).map (fun c => (r, c)))).flatten

/-- Embedding of `Worksheet.write_array_formula` (lines 514-577).  The brace
strips mirror `formula[0] == '{'` etc.; outside streaming mode every
non-anchor cell of the range is back-filled with a zero carrying the same
format via `write_number`. -/
def write_array_formula (ws : Worksheet)
    (first_row first_col last_row last_col : Nat) (formula : PyStr)
    (fmt : Option Nat) (value : PyVal) : Int × Worksheet :=
  let rr := if first_row > last_row then (last_row, first_row) else (first_row, last_row)
  let cc := if first_col > last_col then (last_col, first_col) else (first_col, last_col)
  let fr := rr.1
  let lr := rr.2
  let fc := cc.1
  let lc := cc.2
  let chk := _check_dimensions ws lr lc false false
  if chk.1 ≠ 0 then (-1, ws)
  else
    let ws1 := chk.2
    let cell_range : PyStr :=
      if fr = lr ∧ fc = lc then xl_rowcol_to_cell fr fc
      else xl_rowcol_to_cell fr fc ++ ':' :: xl_rowcol_to_cell lr lc
    let f1 := if formula.head? = some '\x7b' then formula.drop 1 else formula
    let f2 := if f1.head? = some '=' then f1.drop 1 else f1
    let f3 := if f2.getLast? = some '\x7d' then f2.dropLast else f2
    let ws2 := if ws1.optimization = true ∧ fr > ws1.previous_row
      then _write_single_row ws1 fr else ws1
    let ws3 := { ws2 with
      table := tableSet ws2.table fr fc (Cell.CArrayFormula f3 fmt value cell_range) }
    let ws4 :=
      if ws3.optimization = false then
        (rangePairs fr fc lr lc).foldl (fun w rc =>
          if rc.1 ≠ fr ∨ rc.2 ≠ fc then (write_number w rc.1 rc.2 0 fmt).2 else w) ws3
      else ws3
    (0, ws4)

/-- Embedding of `Worksheet.write_formula` (lines 475-512): brace-delimited
text is handed off to `write_array_formula` on the single cell, a leading
`=` run is stripped (`lstrip('=')`). -/
def write_formula (ws : Worksheet) (row col : Nat) (formula : PyStr)
    (fmt : Option Nat) (value : PyVal) : Int × Worksheet :=
  let chk := _check_dimensions ws row col false false
  if chk.1 ≠ 0 then (-1, ws)
  else
    let ws1 := chk.2
    if formula.head? = some '\x7b' ∧ formula.getLast? = some '\x7d' then
      write_array_formula ws1 row col row col formula fmt value
    else
      let formula := if formula.head? = some '=' then
        formula.dropWhile (fun c => c == '=') else formula
      let ws2 := if ws1.optimization = true ∧ row > ws1.previous_row
        then _write_single_row ws1 row else ws1
      (0, { ws2 with table := tableSet ws2.table row col (Cell.CFormula formula fmt value) })

/-- Embedding of `Worksheet.write_datetime` (lines 579-609). -/
def write_datetime (ws : Worksheet) (row col : Nat) (date : DTObj)
    (fmt : Option Nat) : Int × Worksheet :=
  let chk := _check_dimensions ws row col false false
  if chk.1 ≠ 0 then (-1, ws)
  else
    let ws1 := chk.2
    let ws2 := if ws1.optimization = true ∧ row > ws1.previous_row
      then _write_single_row ws1 row else ws1
    let number := convert_date_time ws2.date_1904 date
    (0, { ws2 with table := tableSet ws2.table row col (Cell.CNumber number fmt) })

/-- Python `re.search('%[0-9a-fA-F]{2}', url)`: the URL already looks
percent-escaped. -/
def looksEscaped (l : PyStr) : Bool :=
  (List.range l.length).any (fun i =>
    match l.drop i with
    | '%' :: a :: b :: _ => isHexDigit a && isHexDigit b
    | _ => false)

/-- The percent-escape chain of `write_url` for default links
(lines 682-694), applied in source order. -/
def urlEscape (u : PyStr) : PyStr :=
  let u := pyReplace ['%'] (("%25").data) u
  let u := pyReplace ['\"'] (("%22").data) u
  let u := pyReplace [' '] (("%20").data) u
  let u := pyReplace ['<'] (("%3c").data) u
  let u := pyReplace ['>'] (("%3e").data) u
  let u := pyReplace ['['] (("%5b").data) u
  let u := pyReplace [']'] (("%5d").data) u
  let u := pyReplace ['^'] (("%5e").data) u
  let u := pyReplace ['\x60'] (("%60").data) u
  let u := pyReplace ['\x7b'] (("%7b").data) u
  pyReplace ['\x7d'] (("%7d").data) u

/-- Split an external-workbook URL at its first `#` into URL and location
(Python `url.split('#')` unpacked into two names; more than one `#` raises
in Python and is unreachable from the embedded claims). -/
def splitHash (l : PyStr) : PyStr × Option PyStr :=
  match l.findIdx? (fun c => c == '#') with
  | none => (l, none)
  | some i => (l.take i, some (l.drop (i + 1)))

/-- Python `re.match('\w:', url) or re.match(r'\\', url)`: a Windows drive
or network-share path. -/
def isDriveOrShare (l : PyStr) : Bool :=
  match l with
  | a :: ':' :: _ => (a.isAlphanum || a == '_')
  | '\\' :: _ => true
  | _ => false

/-- First stage of `write_url` (lines 639-662): URI-scheme detection and
stripping, display-string defaulting, the Unix-to-Dos separator flip for
external links, and the mailto strip.  Returns (url, link_type, display
string). -/
def urlMunge (url0 : PyStr) (string0 : Option PyStr) : PyStr × Nat × PyStr :=
  let lt0 : Nat := 1
  let p1 := if ("internal:").data.isPrefixOf url0
    then (pyReplace (("internal:").data) [] url0, 2) else (url0, lt0)
  let p2 := if ("external:").data.isPrefixOf p1.1
    then (pyReplace (("external:").data) [] p1.1, 3) else p1
  let str1 := match string0 with
    | none => p2.1
    | some s => s
  let q := if p2.2 = 3
    then (pyReplace ['/'] ['\\'] p2.1, pyReplace ['/'] ['\\'] str1)
    else (p2.1, str1)
  (q.1, p2.2, pyReplace (("mailto:").data) [] q.2)

/-- Second stage of `write_url` (lines 678-719): percent-escaping for web
links, hash split plus drive/share normalization for external-workbook
links (which are then treated as default links).  Returns (final url,
location string, final link_type). -/
def urlFinalize (lt1 : Nat) (u : PyStr) (display : PyStr) :
    PyStr × Option PyStr × Nat :=
  if lt1 = 1 then
    ((if looksEscaped u then u else urlEscape u : PyStr), (none : Option PyStr), 1)
  else if lt1 = 3 then
    let h := splitHash u
    let u2 := if isDriveOrShare h.1 then ("file:///").data ++ h.1 else h.1
    let u3 := if (['.', '\\'] : PyStr).isPrefixOf u2 then u2.drop 2 else u2
    (u3, h.2, 1)
  else (u, some display, lt1)

/-- Embedding of `Worksheet.write_url` (lines 619-749), staged through
`urlMunge` and `urlFinalize` in source order.  Note that the bounds check
widens the dimensions before the string/URL length checks can fail, and the
URL counter is advanced before the per-sheet limit check fails with `-5`. -/
def write_url (ws : Worksheet) (row col : Nat) (url0 : PyStr)
    (fmt : Option Nat) (string0 : Option PyStr) (tip : Option PyStr) :
    Int × Worksheet :=
  let m := urlMunge url0 string0
  let chk := _check_dimensions ws row col false false
  if chk.1 ≠ 0 then (-1, ws)
  else
    let ws1 := chk.2
    if m.2.2.length > xls_strmax then (-2, ws1)
    else
      let r := urlFinalize m.2.1 m.1 m.2.2
      if r.1.length > 255 then (-3, ws1)
      else
        let ws2 := { ws1 with hlink_count := ws1.hlink_count + 1 }
        if ws2.hlink_count > 65530 then (-5, ws2)
        else
          let ws3 := if ws2.optimization = true ∧ row > ws2.previous_row
            then _write_single_row ws2 row else ws2
          let ws4 := (write_string ws3 row col m.2.2 fmt).2
          (0, { ws4 with hyperlinks :=
            (ws4.hyperlinks.filter (fun e => e.1 ≠ (row, col))) ++
              [((row, col), ⟨r.2.2, r.1, r.2.1, tip⟩)] })

/-- Payload of the generic `write` dispatcher: a number or a string (the
datetime branch is reached through `write_datetime` directly). -/
inductive Token where
  | tnum (q : ℚ)
  | tstr (s : PyStr)
deriving DecidableEq

/-- Embedding of the generic `Worksheet.write` dispatcher (lines 308-364):
numeric first (`float(token)` succeeds on numeric strings), then empty
string, formulas, the URL schemes, default string. -/
def write (ws : Worksheet) (row col : Nat) (tok : Token) (fmt : Option Nat) :
    Int × Worksheet :=
  match tok with
  | .tnum q => write_number ws row col q fmt
  | .tstr s =>
    if pyFloatAccepts s then write_number ws row col (pyStrToRat s) fmt
    else if s = [] then write_blank ws row col fmt
    else if s.head? = some '=' then write_formula ws row col s fmt (.num 0)
    else if s.head? = some '\x7b' ∧ s.getLast? = some '\x7d' then
      write_formula ws row col s fmt (.num 0)
    else if [("ftp://"), ("ftps://"), ("fttp://"), ("fttps://"), ("htp://"),
        ("htps://"), ("http://"), ("https://")].any
        (fun p => p.data.isPrefixOf s) then
      write_url ws row col s fmt none none
    else if ("mailto:").data.isPrefixOf s then
      write_url ws row col s fmt none none
    else if ("internal:").data.isPrefixOf s ∨ ("external:").data.isPrefixOf s then
      write_url ws row col s fmt none none
    else write_string ws row col s fmt

/-- The pad-out loop of `merge_range` (lines 1271-1276): blank every cell of
the range except the anchor, in row-major order. -/
def mergeBlankLoop (a b : Nat) (fmt : Option Nat) :
    List (Nat × Nat) → Worksheet → Worksheet
  | [], w => w
  | rc :: L, w =>
    mergeBlankLoop a b fmt L
      (if rc.1 = a ∧ rc.2 = b then w else (write_blank w rc.1 rc.2 fmt).2)

/-- Embedding of `Worksheet.merge_range` (lines 1222-1276): a single-cell
merge is rejected outright; otherwise the range is recorded, the payload
written at the anchor, and every other cell blanked with the format. -/
def merge_range (ws : Worksheet) (first_row first_col last_row last_col : Nat)
    (data : Token) (fmt : Option Nat) : Worksheet :=
  if first_row = last_row ∧ first_col = last_col then ws
  else
    let rr := if first_row > last_row then (last_row, first_row) else (first_row, last_row)
    let cc := if first_col > last_col then (last_col, first_col) else (first_col, last_col)
    let fr := rr.1
    let lr := rr.2
    let fc := cc.1
    let lc := cc.2
    let chk := _check_dimensions ws lr fc false false
    if chk.1 ≠ 0 then ws
    else
      let ws1 := { chk.2 with merge := chk.2.merge ++ [(fr, fc, lr, lc)] }
      let ws2 := (write ws1 fr fc data fmt).2
      mergeBlankLoop fr fc fmt (rangePairs fr fc lr lc) ws2

/-
  A small closed vocabulary of typed cell-level write calls, used to state
  the claims that quantify over "write operations".  (Rich strings and
  multi-cell array formulas are separate range-level calls and are outside
  this vocabulary; multi-cell array formulas are documented by the spec as
  intentionally asymmetric between the two serialization modes.)
-/
inductive WriteOp where
  | wstring (row col : Nat) (s : PyStr) (fmt : Option Nat)
  | wnumber (row col : Nat) (n : ℚ) (fmt : Option Nat)
  | wblank (row col : Nat) (fmt : Option Nat)
  | wformula (row col : Nat) (f : PyStr) (fmt : Option Nat) (v : PyVal)
  | wdatetime (row col : Nat) (d : DTObj) (fmt : Option Nat)
  | wurl (row col : Nat) (url : PyStr) (fmt : Option Nat) (s : Option PyStr)
      (tip : Option PyStr)
deriving DecidableEq

/-- Target row of a write operation. -/
def WriteOp.row : WriteOp → Nat
  | .wstring r _ _ _ => r
  | .wnumber r _ _ _ => r
  | .wblank r _ _ => r
  | .wformula r _ _ _ _ => r
  | .wdatetime r _ _ _ => r
  | .wurl r _ _ _ _ _ => r

/-- Target column of a write operation. -/
def WriteOp.col : WriteOp → Nat
  | .wstring _ c _ _ => c
  | .wnumber _ c _ _ => c
  | .wblank _ c _ => c
  | .wformula _ c _ _ _ => c
  | .wdatetime _ c _ _ => c
  | .wurl _ c _ _ _ _ => c

/-- The `write_blank(..., cell_format=None)` calls, which short-circuit. -/
def WriteOp.isBlankNone : WriteOp → Bool
  | .wblank _ _ none => true
  | _ => false

/-- The hyperlink write calls (which have their own early-error paths). -/
def WriteOp.isUrl : WriteOp → Bool
  | .wurl _ _ _ _ _ _ => true
  | _ => false

/-- Dispatch of one typed write call. -/
def applyWrite (ws : Worksheet) : WriteOp → Int × Worksheet
  | .wstring r c s f => write_string ws r c s f
  | .wnumber r c n f => write_number ws r c n f
  | .wblank r c f => write_blank ws r c f
  | .wformula r c fl f v => write_formula ws r c fl f v
  | .wdatetime r c d f => write_datetime ws r c d f
  | .wurl r c u f s t => write_url ws r c u f s t

/-- Running a sequence of write calls (return codes are reported to the
caller per call and do not affect the run). -/
def runOps (ws : Worksheet) (ops : List WriteOp) : Worksheet :=
  ops.foldl (fun w op => (applyWrite w op).2) ws

/-
  Autofilter criteria parsing (`_extract_filter_tokens`,
  `_parse_filter_expression`, `_parse_filter_tokens`, lines 3038-3179).
-/

/-- Scanner for the quoted alternative of the token regex
`"(?:[^"]|"")*"` after its opening quote: doubled quotes are escapes, a
single quote closes; `none` when no closing quote exists (the regex
alternative fails and `\S+` takes over). -/
def scanQuoted : PyStr → Option (PyStr × PyStr)
  | [] => none
  | '"' :: '"' :: rest => (scanQuoted rest).map (fun p => ('"' :: '"' :: p.1, p.2))
  | '"' :: rest => some (['"'], rest)
  | c :: rest => (scanQuoted rest).map (fun p => (c :: p.1, p.2))

/-- The `findall` loop of the token regex `"(?:[^"]|"")*"|\S+`: skip
whitespace, try the quoted alternative at a quote, otherwise take a maximal
non-whitespace run.  Fuel-indexed; the callers pass `length + 1` which always
suffices since every step consumes at least one character. -/
def extractTokensAux : Nat → PyStr → List PyStr
  | 0, _ => []
  | _ + 1, [] => []
  | fuel + 1, c :: rest =>
    if isPySpace c then extractTokensAux fuel rest
    else if c = '"' then
      match scanQuoted rest with
      | some p => ('"' :: p.1) :: extractTokensAux fuel p.2
      | none =>
        ((c :: rest).takeWhile (fun d => !isPySpace d)) ::
          extractTokensAux fuel ((c :: rest).dropWhile (fun d => !isPySpace d))
    else
      ((c :: rest).takeWhile (fun d => !isPySpace d)) ::
        extractTokensAux fuel ((c :: rest).dropWhile (fun d => !isPySpace d))

/-- Post-processing of one raw token (lines 3058-3067): strip one leading and
one trailing quote, un-escape doubled quotes. -/
def stripQuotesUnescape (tok : PyStr) : PyStr :=
  let t := if tok.head? = some '"' then tok.drop 1 else tok
  let t := if t.getLast? = some '"' then t.dropLast else t
  pyReplace ['"', '"'] ['"'] t

/-- Embedding of `Worksheet._extract_filter_tokens` (lines 3038-3069). -/
def _extract_filter_tokens (expression : PyStr) : List PyStr :=
  if expression = [] then []
  else (extractTokensAux (expression.length + 1) expression).map stripQuotesUnescape

/-- An element of the parsed filter-criteria list: a legacy numeric operator
code (`None` for an unrecognized operator) or a value/glue string. -/
inductive FilterTok where
  | opTok (code : Option Nat)
  | strTok (s : PyStr)
deriving DecidableEq

/-- The operator vocabulary of `_parse_filter_tokens` (lines 3103-3118). -/
def operatorCode (t : PyStr) : Option Nat :=
  if t = ("==").data ∨ t = ("=").data ∨ t = ("=~").data ∨ t = ("eq").data then some 2
  else if t = ("!=").data ∨ t = ("!~").data ∨ t = ("ne").data ∨ t = ("<>").data then some 5
  else if t = ("<").data then some 1
  else if t = ("<=").data then some 3
  else if t = (">").data then some 4
  else if t = (">=").data then some 6
  else none

def pyToLower (l : PyStr) : PyStr := l.map Char.toLower

/-- Python `int(s)` on the `top N` count; a non-numeric token raises (the
embedding returns `none`). -/
def parseIntStrict (l : PyStr) : Option Nat :=
  if l ≠ [] ∧ l.all Char.isDigit then some (digitsToNat l) else none

/-- The Blanks/NonBlanks folding and the wildcard upgrade at the tail of
`_parse_filter_tokens` (lines 3151-3177). -/
def filterBlanksWildcard (operator : Option Nat) (token : PyStr) :
    Option Nat × PyStr :=
  let tl := pyToLower token
  let p :=
    if ("blanks").data.isPrefixOf tl ∨ ("nonblanks").data.isPrefixOf tl then
      if tl = ("blanks").data then
        (operator, if operator = some 5 then ([' '] : PyStr) else tl)
      else
        if operator = some 5 then ((some 2 : Option Nat), ("blanks").data)
        else ((some 5 : Option Nat), ([' '] : PyStr))
    else (operator, token)
  if p.1 = some 2 ∧ p.2.any (fun c => c == '*' || c == '?') then (some 22, p.2)
  else p

/-- Embedding of `Worksheet._parse_filter_tokens` (lines 3099-3179); `none`
when Python would raise (wrong token count, non-integer `top`/`bottom`
count). -/
def _parse_filter_tokens (_expression : PyStr) (tokens : List PyStr) :
    Option (List FilterTok) :=
  match tokens with
  | [t0, t1, t2] =>
    if ("top").data.isPrefixOf (pyToLower t0) ∨
        ("bottom").data.isPrefixOf (pyToLower t0) then
      match parseIntStrict t1 with
      | none => none
      | some value =>
        let op2 : Nat := if pyToLower t0 = ("top").data then 30 else 32
        let op3 : Nat := if t2 = ("%").data then op2 + 1 else op2
        let r := filterBlanksWildcard (some op3) (natToDec value)
        some [.opTok r.1, .strTok r.2]
    else
      let r := filterBlanksWildcard (operatorCode t1) t2
      some [.opTok r.1, .strTok r.2]
  | _ => none

/-- Embedding of `Worksheet._parse_filter_expression` (lines 3071-3097): one
3-token comparison, or two joined by an and/or glue token (7 tokens); an
unrecognized glue token stays in place as a string (after a warning). -/
def _parse_filter_expression (expression : PyStr) (tokens : List PyStr) :
    Option (List FilterTok) :=
  if tokens.length = 7 then
    let conditional := tokens.getD 3 []
    let glue : FilterTok :=
      if ("and").data.isPrefixOf conditional ∨ ("&&").data.isPrefixOf conditional
        then .opTok (some 0)
      else if ("or").data.isPrefixOf conditional ∨
          ("||").data.isPrefixOf conditional then .opTok (some 1)
      else .strTok conditional
    match _parse_filter_tokens expression (tokens.take 3),
        _parse_filter_tokens expression (tokens.drop 4) with
    | some e1, some e2 => some (e1 ++ [glue] ++ e2)
    | _, _ => none
  else _parse_filter_tokens expression tokens

/-- Tokenize-then-parse pipeline of `filter_column` (lines 1344-1349). -/
def parseFilterCriteria (criteria : PyStr) : Option (List FilterTok) :=
  _parse_filter_expression criteria (_extract_filter_tokens criteria)

/-
  Conditional-format formula synthesis (`conditional_format`,
  worksheet.py lines 1791-1885).
-/

/-- The synthesized condition formula of `conditional_format` for the
criteria kinds that build one, anchored at `start_cell`, with the normalized
(type, criteria) vocabulary of lines 1664-1724; `none` when the rule keeps a
user formula instead.  The string interpolations reproduce lines 1791-1885
literally — including the fixed `A1` inside the `lastMonth` template. -/
def condFormatFormula (typ criteria value start_cell : PyStr) : Option PyStr :=
  if typ = ("text").data then
    if criteria = ("containsText").data then
      some (("NOT(ISERROR(SEARCH(\"").data ++ value ++ ("\",").data ++
        start_cell ++ (")))").data)
    else if criteria = ("notContains").data then
      some (("ISERROR(SEARCH(\"").data ++ value ++ ("\",").data ++
        start_cell ++ ("))").data)
    else if criteria = ("beginsWith").data then
      some (("LEFT(").data ++ start_cell ++ (",").data ++
        natToDec value.length ++ (")=\"").data ++ value ++ ("\"").data)
    else if criteria = ("endsWith").data then
      some (("RIGHT(").data ++ start_cell ++ (",").data ++
        natToDec value.length ++ (")=\"").data ++ value ++ ("\"").data)
    else none
  else if typ = ("timePeriod").data then
    if criteria = ("yesterday").data then
      some (("FLOOR(").data ++ start_cell ++ (",1)=TODAY()-1").data)
    else if criteria = ("today").data then
      some (("FLOOR(").data ++ start_cell ++ (",1)=TODAY()").data)
    else if criteria = ("tomorrow").data then
      some (("FLOOR(").data ++ start_cell ++ (",1)=TODAY()+1").data)
    else if criteria = ("last7Days").data then
      some (("AND(TODAY()-FLOOR(").data ++ start_cell ++
        (",1)<=6,FLOOR(").data ++ start_cell ++ (",1)<=TODAY())").data)
    else if criteria = ("lastWeek").data then
      some (("AND(TODAY()-ROUNDDOWN(").data ++ start_cell ++
        (",0)>=(WEEKDAY(TODAY())),TODAY()-ROUNDDOWN(").data ++ start_cell ++
        (",0)<(WEEKDAY(TODAY())+7))").data)
    else if criteria = ("thisWeek").data then
      some (("AND(TODAY()-ROUNDDOWN(").data ++ start_cell ++
        (",0)<=WEEKDAY(TODAY())-1,ROUNDDOWN(").data ++ start_cell ++
        (",0)-TODAY()<=7-WEEKDAY(TODAY()))").data)
    else if criteria = ("continueWeek").data then
      some (("AND(ROUNDDOWN(").data ++ start_cell ++
        (",0)-TODAY()>(7-WEEKDAY(TODAY())),ROUNDDOWN(").data ++ start_cell ++
        (",0)-TODAY()<(15-WEEKDAY(TODAY())))").data)
    else if criteria = ("lastMonth").data then
      some (("AND(MONTH(").data ++ start_cell ++
        (")=MONTH(TODAY())-1,OR(YEAR(").data ++ start_cell ++
        (")=YEAR(TODAY()),AND(MONTH(").data ++ start_cell ++
        (")=1,YEAR(A1)=YEAR(TODAY())-1)))").data)
    else if criteria = ("thisMonth").data then
      some (("AND(MONTH(").data ++ start_cell ++
        (")=MONTH(TODAY()),YEAR(").data ++ start_cell ++
        (")=YEAR(TODAY()))").data)
    else if criteria = ("continueMonth").data then
      some (("AND(MONTH(").data ++ start_cell ++
        (")=MONTH(TODAY())+1,OR(YEAR(").data ++ start_cell ++
        (")=YEAR(TODAY()),AND(MONTH(").data ++ start_cell ++
        (")=12,YEAR(").data ++ start_cell ++ (")=YEAR(TODAY())+1)))").data)
    else none
  else if typ = ("containsBlanks").data then
    some (("LEN(TRIM(").data ++ start_cell ++ ("))=0").data)
  else if typ = ("notContainsBlanks").data then
    some (("LEN(TRIM(").data ++ start_cell ++ ("))>0").data)
  else if typ = ("containsErrors").data then
    some (("ISERROR(").data ++ start_cell ++ (")").data)
  else if typ = ("notContainsErrors").data then
    some (("NOT(ISERROR(").data ++ start_cell ++ ("))").data)
  else none

/-
  Structural output equivalence: the comparison the spec demands between the
  buffered and the streaming `<row>`/`<c>` sequences — same rows in the same
  order, same cells with the same values, types and resolved style indices,
  differing only in string encoding (shared-string index vs. escaped inline
  string).  The spans attribute is not part of the comparison: streaming mode
  computes none by design.
-/

/-- The reading of a cell's stored coordinates and payload. -/
def cellAt (ws : Worksheet) (row col : Nat) : Option Cell :=
  colGet (tableGet ws.table row) col

/-- The streaming-mode encoding `_write_cell` gives to raw text. -/
def inlineEncodingOf (s : PyStr) : CellXml :=
  let es := escapeInline s
  if isRichInline es then .xmlRichInline es else .xmlInlineString es (needsPreserve es)

/-- Cell payloads equal up to string encoding: a shared-string index on the
buffered side is equivalent to the streaming inline encoding of the interned
text; every other payload must be identical. -/
def cellXmlEquivB (tbl : List PyStr) : CellXml → CellXml → Bool
  | .xmlSharedString i, y =>
    match tbl[i]? with
    | some s => inlineEncodingOf s == y
    | none => false
  | x, y => x == y

/-- Event comparison: identical row numbers, row properties, cell references
and style indices; cell payloads compared by `cellXmlEquivB`; the spans
attribute ignored. -/
def eventEquivB (tbl : List PyStr) : XmlEvent → XmlEvent → Bool
  | .rowStart r _ p, .rowStart r2 _ p2 => r == r2 && p == p2
  | .rowEnd, .rowEnd => true
  | .emptyRow r _ p, .emptyRow r2 _ p2 => r == r2 && p == p2
  | .cellEvent ref st x, .cellEvent ref2 st2 y =>
    ref == ref2 && st == st2 && cellXmlEquivB tbl x y
  | _, _ => false

/-- Pointwise equivalence of two event sequences (same length). -/
def eventsEquivB (tbl : List PyStr) : List XmlEvent → List XmlEvent → Bool
  | [], [] => true
  | x :: xs, y :: ys => eventEquivB tbl x y && eventsEquivB tbl xs ys
  | _, _ => false

/-- A long test string: `n` copies of the letter a (kept as a definition so
that statements about over-long strings stay symbolic). -/
def longA (n : Nat) : PyStr := List.replicate n 'a'

/-- Row-ordered input: the target rows of the write sequence never
decrease. -/
def rowsMonotone (ops : List WriteOp) : Prop :=
  List.Chain' (fun a b => a ≤ b) (ops.map WriteOp.row)

/-- Row lower bound threaded through a write sequence: every target row is
at least `M`, and the rows never decrease (the recursive form of
`rowsMonotone` used for the simulation induction). -/
def rowsLB (M : Nat) : List WriteOp → Prop
  | [] => True
  | op :: rest => M ≤ op.row ∧ rowsLB op.row rest

/-- The payload a `<c>` element carries for a stored cell, as `_write_cell`
computes it (a pure function of the cell). -/
def cellPayloadXml : Cell → CellXml
  | .CNumber n _ => .xmlNumber n
  | .CString (.shared i) _ => .xmlSharedString i
  | .CString (.inline s) _ => inlineEncodingOf s
  | .CFormula f _ v => .xmlFormula f v (!pyFloatable v)
  | .CArrayFormula f _ v rng => .xmlArrayFormula f rng v (!pyFloatable v)
  | .CBlank _ => .xmlBlank

/-- How the same write is stored by the two modes: identically, except that
a buffered shared-string cell corresponds to the streaming inline-string
cell holding the interned text. -/
def cellRel (tbl : List PyStr) : Cell → Cell → Prop
  | .CString (.shared i) f, .CString (.inline s) f2 => tbl[i]? = some s ∧ f = f2
  | .CString _ _, .CString _ _ => False
  | cb, ct => cb = ct

/-- Entry-wise relation on the sparse row maps: same column key, related
cell. -/
def entryRel (tbl : List PyStr) (p q : Nat × Cell) : Prop :=
  p.1 = q.1 ∧ cellRel tbl p.2 q.2

/-- Option-level form of `cellRel` for lookups. -/
def cellOptRel (tbl : List PyStr) : Option Cell → Option Cell → Prop
  | none, none => True
  | some cb, some ct => cellRel tbl cb ct
  | _, _ => False

/-- The dimension bounding box covers every occupied cell of the store. -/
def dimsCover (ws : Worksheet) : Prop :=
  match ws.dim_rowmin, ws.dim_rowmax, ws.dim_colmin, ws.dim_colmax with
  | some rmin, some rmax, some cmin, some cmax =>
    ∀ r c, (colGet (tableGet ws.table r) c).isSome →
      rmin ≤ r ∧ r ≤ rmax ∧ cmin ≤ c ∧ c ≤ cmax
  | _, _, _, _ => ws.table = []

/-- The buffered-side events of the rows strictly below `P`, spans-free:
what the streaming run must already have spilled once its buffer pointer
reached `P`. -/
def flushedEvents (ws : Worksheet) (P : Nat) : List XmlEvent :=
  match ws.dim_rowmin with
  | none => []
  | some rmin => ((List.range' rmin (P - rmin)).map (flushRowEvents ws)).flatten

/-- The dimension-box widening `_check_dimensions` performs on an accepted
coordinate. -/
def widenW (w : Worksheet) (r c : Nat) : Worksheet :=
  { w with dim_rowmin := dimLower w.dim_rowmin r
           dim_rowmax := dimUpper w.dim_rowmax r
           dim_colmin := dimLower w.dim_colmin c
           dim_colmax := dimUpper w.dim_colmax c }

/-- The state change of one accepted buffered-mode cell store: widen the
dimension box, extend the shared-string table, store the cell. -/
def buffStore (w : Worksheet) (r c : Nat) (ext : List PyStr) (cell : Cell) :
    Worksheet :=
  { w with dim_rowmin := dimLower w.dim_rowmin r
           dim_rowmax := dimUpper w.dim_rowmax r
           dim_colmin := dimLower w.dim_colmin c
           dim_colmax := dimUpper w.dim_colmax c
           strTable := w.strTable ++ ext
           table := tableSet w.table r c cell }

/-- The state change of one accepted streaming-mode cell store: widen the
dimension box, flush the buffered row if the target row is new, store the
cell. -/
def streamStore (w : Worksheet) (r c : Nat) (cell : Cell) : Worksheet :=
  let w1 := { w with dim_rowmin := dimLower w.dim_rowmin r
                     dim_rowmax := dimUpper w.dim_rowmax r
                     dim_colmin := dimLower w.dim_colmin c
                     dim_colmax := dimUpper w.dim_colmax c }
  let w2 := if w.previous_row < r then _write_single_row w1 r else w1
  { w2 with table := tableSet w2.table r c cell }

/-- The simulation invariant tying the buffered run `B` to the streaming
run `T` of the same row-ordered write prefix.  `P` is the streaming buffer
pointer (`previous_row`), `M` an upper bound on every target row seen so
far.  The streaming spill holds exactly the buffered-side events of the
rows strictly below `P`; the rows at or above `P` agree cell-for-cell up to
string encoding; the dimension boxes coincide. -/
structure SimInv (B T : Worksheet) (P M : Nat) : Prop where
  bopt : B.optimization = false
  topt : T.optimization = true
  d19 : B.date_1904 = T.date_1904
  drmin : B.dim_rowmin = T.dim_rowmin
  drmax : B.dim_rowmax = T.dim_rowmax
  dcmin : B.dim_colmin = T.dim_colmin
  dcmax : B.dim_colmax = T.dim_colmax
  bsr : B.set_rows = []
  tsr : T.set_rows = []
  bcm : B.comments = []
  tcm : T.comments = []
  bcf : B.col_formats = []
  tcf : T.col_formats = []
  hcnt : B.hlink_count = T.hlink_count
  bso : B.streamOut = []
  prev : T.previous_row = P
  pm : P ≤ M
  rminM : ∀ x, B.dim_rowmin = some x → x ≤ M
  rmaxM : ∀ x, B.dim_rowmax = some x → x ≤ M
  live : ∀ r, P ≤ r →
    List.Forall₂ (entryRel B.strTable) (tableGet B.table r) (tableGet T.table r)
  tflushed : ∀ r, r < P → tableGet T.table r = []
  bfuture : ∀ r, P < r → tableGet B.table r = []
  cover : dimsCover B
  flux : eventsEquivB B.strTable (flushedEvents B P) T.streamOut = true

/-
  Helper lemmas about the association-list store.
-/
theorem alistGet_nil {α : Type} (k : Nat) : alistGet ([] : List (Nat × α)) k = none := rfl

theorem alistGet_cons {α : Type} (k0 : Nat) (v0 : α) (l : List (Nat × α)) (k : Nat) :
    alistGet ((k0, v0) :: l) k = if k0 = k then some v0 else alistGet l k := by
  by_cases h : k0 = k
  · simp [alistGet, List.find?_cons_of_pos, h]
  · have hb : (((k0, v0)).1 == k) = false := by simpa using h
    simp [alistGet, List.find?_cons_of_neg, hb, h]

theorem alistGet_set_self {α : Type} (l : List (Nat × α)) (k : Nat) (v : α) :
    alistGet (alistSet l k v) k = some v := by
  induction l with
  | nil => simp [alistSet, alistGet_cons]
  | cons p rest ih =>
    obtain ⟨k0, v0⟩ := p
    by_cases h : k0 = k
    · simp [alistSet, h, alistGet_cons]
    · simp [alistSet, h, alistGet_cons, ih]

theorem alistGet_set_ne {α : Type} (l : List (Nat × α)) (k k' : Nat) (v : α)
    (h : k' ≠ k) : alistGet (alistSet l k v) k' = alistGet l k' := by
  induction l with
  | nil => simp [alistSet, alistGet_cons, alistGet_nil, Ne.symm h]
  | cons p rest ih =>
    obtain ⟨k0, v0⟩ := p
    by_cases hp : k0 = k
    · subst hp
      simp [alistSet, alistGet_cons, Ne.symm h]
    · simp [alistSet, hp, alistGet_cons, ih]

theorem tableGet_set_self (t : Table) (r c : Nat) (v : Cell) :
    tableGet (tableSet t r c v) r = colSet (tableGet t r) c v := by
  induction t with
  | nil => simp [tableSet, tableGet, alistGet_cons, alistGet_nil, colSet, alistSet]
  | cons p rest ih =>
    obtain ⟨k0, m0⟩ := p
    by_cases h : k0 = r
    · simp [tableSet, h, tableGet, alistGet_cons]
    · simp only [tableSet, if_neg h]
      simpa [tableGet, alistGet_cons, h] using ih

theorem tableGet_set_ne (t : Table) (r r' c : Nat) (v : Cell) (h : r' ≠ r) :
    tableGet (tableSet t r c v) r' = tableGet t r' := by
  induction t with
  | nil => simp [tableSet, tableGet, alistGet_cons, alistGet_nil, Ne.symm h]
  | cons p rest ih =>
    obtain ⟨k0, m0⟩ := p
    by_cases hp : k0 = r
    · subst hp
      simp [tableSet, tableGet, alistGet_cons, Ne.symm h]
    · simp only [tableSet, if_neg hp]
      by_cases hk : k0 = r'
      · simp [tableGet, alistGet_cons, hk]
      · simp only [tableGet, alistGet_cons, if_neg hk]
        exact ih

theorem colGet_set_self (m : ColMap) (c : Nat) (v : Cell) :
    colGet (colSet m c v) c = some v := alistGet_set_self m c v

theorem colGet_set_ne (m : ColMap) (c c' : Nat) (v : Cell) (h : c' ≠ c) :
    colGet (colSet m c v) c' = colGet m c' := alistGet_set_ne m c c' v h

theorem cellAt_set_self (t : Table) (r c : Nat) (v : Cell) :
    colGet (tableGet (tableSet t r c v) r) c = some v := by
  rw [tableGet_set_self]
  exact colGet_set_self _ c v

theorem pyReplaceAux_no_head (pat rep : PyStr) (c0 : Char)
    (hpat : pat.head? = some c0) :
    ∀ (fuel : Nat) (l : PyStr), (∀ c ∈ l, c ≠ c0) →
      pyReplaceAux pat rep fuel l = l := by
  intro fuel
  induction fuel with
  | zero => intro l _; rfl
  | succ fuel ih =>
    intro l hl
    cases l with
    | nil => rfl
    | cons c rest =>
      have hne : ¬ pat.isPrefixOf (c :: rest) = true := by
        cases pat with
        | nil => simp at hpat
        | cons p0 pr =>
          simp only [List.head?_cons, Option.some.injEq] at hpat
          subst hpat
          simp only [List.isPrefixOf, Bool.and_eq_true, beq_iff_eq]
          intro hpre
          exact hl c (List.mem_cons_self c rest) hpre.1.symm
      rw [pyReplaceAux]
      rw [if_neg (by simp [hne])]
      simp only [List.cons.injEq, true_and]
      exact ih rest (fun d hd => hl d (List.mem_cons_of_mem c hd))

theorem pyReplace_no_head (pat rep l : PyStr) (c0 : Char)
    (hpat : pat.head? = some c0) (hl : ∀ c ∈ l, c ≠ c0) :
    pyReplace pat rep l = l :=
  pyReplaceAux_no_head pat rep c0 hpat l.length l hl
theorem check_dimensions_oob (ws : Worksheet) (row col : Nat)
    (ir ic : Bool) (h : xls_rowmax ≤ row ∨ xls_colmax ≤ col) :
    _check_dimensions ws row col ir ic = (-1, ws) := by
  unfold _check_dimensions
  rw [if_pos h]

theorem check_dimensions_ok (ws : Worksheet) (row col : Nat)
    (hr : row < xls_rowmax) (hc : col < xls_colmax)
    (hprev : ws.optimization = false ∨ ws.previous_row ≤ row) :
    _check_dimensions ws row col false false =
      (0, { ws with dim_rowmin := dimLower ws.dim_rowmin row
                    dim_rowmax := dimUpper ws.dim_rowmax row
                    dim_colmin := dimLower ws.dim_colmin col
                    dim_colmax := dimUpper ws.dim_colmax col }) := by
  unfold _check_dimensions
  rw [if_neg (by omega)]
  rw [if_neg]
  · simp
  · rcases hprev with h | h
    · simp [h]
    · simp only [not_and]
      intro _ _ _
      omega

theorem check_dimensions_out_of_order (ws : Worksheet) (row col : Nat)
    (hr : row < xls_rowmax) (hc : col < xls_colmax)
    (hopt : ws.optimization = true) (hlt : row < ws.previous_row) :
    _check_dimensions ws row col false false = (-1, ws) := by
  unfold _check_dimensions
  rw [if_neg (by omega)]
  rw [if_pos ⟨rfl, rfl, hopt, hlt⟩]

/-- Claim C8: the autofilter criteria parser maps `x == 2000` to
`[equal(2), "2000"]`, maps `x > 2000 and x < 5000` to
`[greater-than(4), "2000", and-glue(0), less-than(1), "5000"]`, and maps
`top 10 items` to the top-rank operator (30) with value `"10"`. -/
theorem filter_parse_examples_c8 :
    parseFilterCriteria (("x == 2000").data) =
      some [.opTok (some 2), .strTok (("2000").data)] ∧
    parseFilterCriteria (("x > 2000 and x < 5000").data) =
      some [.opTok (some 4), .strTok (("2000").data), .opTok (some 0),
        .opTok (some 1), .strTok (("5000").data)] ∧
    parseFilterCriteria (("top 10 items").data) =
      some [.opTok (some 30), .strTok (("10").data)] := by
  refine ⟨?_, ?_, ?_⟩ <;> decide

/-- Claim C9 (failing input): the `lastMonth` time-period template anchored
at B3 interpolates the anchor into three of its four cell references but
keeps the literal fixed cell name `A1` in the fourth (`YEAR(A1)`,
worksheet.py line 1856), so not every cell reference in the synthesized
formula refers to the rule's own anchor cell. -/
theorem condformat_lastMonth_fixed_a1_c9 :
    condFormatFormula (("timePeriod").data) (("lastMonth").data) []
        (("B3").data) =
      some (("AND(MONTH(B3)=MONTH(TODAY())-1,OR(YEAR(B3)=YEAR(TODAY()),AND(MONTH(B3)=1,YEAR(A1)=YEAR(TODAY())-1)))").data) ∧
    pyContains (("AND(MONTH(B3)=MONTH(TODAY())-1,OR(YEAR(B3)=YEAR(TODAY()),AND(MONTH(B3)=1,YEAR(A1)=YEAR(TODAY())-1)))").data)
      (("YEAR(A1)").data) = true := by
  refine ⟨?_, ?_⟩ <;> decide

/-- Claim C10: `write_blank` with no format returns success (0) for every
coordinate, including out-of-bounds ones, and performs no mutation at all —
the call returns before the bounds check; a Blank cell is stored only when a
format is supplied (then, in bounds and buffered, the formatted blank is
stored at the coordinate). -/
theorem write_blank_none_noop_c10 :
    ∀ (ws : Worksheet) (row col : Nat),
      write_blank ws row col none = (0, ws) ∧
      (∀ f : Nat, ws.optimization = false → row < xls_rowmax → col < xls_colmax →
        cellAt (write_blank ws row col (some f)).2 row col =
          some (.CBlank (some f))) := by
  intro ws row col
  constructor
  · rfl
  · intro f hopt hr hc
    simp only [write_blank, check_dimensions_ok ws row col hr hc (Or.inl hopt)]
    norm_num
    simp [hopt, cellAt, cellAt_set_self]

/-- Witness for C10 at a concrete out-of-bounds coordinate and a concrete
in-bounds formatted blank. -/
theorem write_blank_none_noop_c10_witness :
    write_blank (initWorksheet false false []) 1048576 3 none =
        (0, initWorksheet false false []) ∧
      cellAt (write_blank (initWorksheet false false []) 2 3 (some 7)).2 2 3 =
        some (.CBlank (some 7)) := by
  refine ⟨(write_blank_none_noop_c10 (initWorksheet false false []) 1048576 3).1, ?_⟩
  exact (write_blank_none_noop_c10 (initWorksheet false false []) 2 3).2 7 rfl
    (by decide) (by decide)
/-- Claim C2 (amended): every typed write call aimed at a coordinate with
row ≥ 1,048,576 or col ≥ 16,384 returns the Out-of-Bounds result (-1) and
leaves the worksheet exactly as it was — except `write_blank` without a
format, which returns success (0) before the bounds check and also mutates
nothing. -/
theorem write_oob_frame_c2 :
    ∀ (ws : Worksheet) (op : WriteOp),
      xls_rowmax ≤ op.row ∨ xls_colmax ≤ op.col →
      (op.isBlankNone = false → applyWrite ws op = (-1, ws)) ∧
      (op.isBlankNone = true → applyWrite ws op = (0, ws)) := by
  intro ws op h
  cases op with
  | wstring r c s f =>
    refine ⟨fun _ => ?_, by simp [WriteOp.isBlankNone]⟩
    simp only [applyWrite, write_string,
      check_dimensions_oob ws r c false false (by simpa [WriteOp.row, WriteOp.col] using h)]
    norm_num
  | wnumber r c n f =>
    refine ⟨fun _ => ?_, by simp [WriteOp.isBlankNone]⟩
    simp only [applyWrite, write_number,
      check_dimensions_oob ws r c false false (by simpa [WriteOp.row, WriteOp.col] using h)]
    norm_num
  | wblank r c f =>
    cases f with
    | none =>
      refine ⟨by simp [WriteOp.isBlankNone], fun _ => rfl⟩
    | some f0 =>
      refine ⟨fun _ => ?_, by simp [WriteOp.isBlankNone]⟩
      simp only [applyWrite, write_blank,
        check_dimensions_oob ws r c false false (by simpa [WriteOp.row, WriteOp.col] using h)]
      norm_num
  | wformula r c fl f v =>
    refine ⟨fun _ => ?_, by simp [WriteOp.isBlankNone]⟩
    simp only [applyWrite, write_formula,
      check_dimensions_oob ws r c false false (by simpa [WriteOp.row, WriteOp.col] using h)]
    norm_num
  | wdatetime r c d f =>
    refine ⟨fun _ => ?_, by simp [WriteOp.isBlankNone]⟩
    simp only [applyWrite, write_datetime,
      check_dimensions_oob ws r c false false (by simpa [WriteOp.row, WriteOp.col] using h)]
    norm_num
  | wurl r c u f s t =>
    refine ⟨fun _ => ?_, by simp [WriteOp.isBlankNone]⟩
    simp only [applyWrite, write_url,
      check_dimensions_oob ws r c false false (by simpa [WriteOp.row, WriteOp.col] using h)]
    norm_num

/-- Witness for C2 at concrete out-of-bounds calls (a string write one row
past the row bound and a blank write sixteen thousand columns past the
column bound). -/
theorem write_oob_frame_c2_witness :
    xls_rowmax ≤ (WriteOp.wstring 1048576 0 (("a").data) none).row ∧
    applyWrite (initWorksheet false false [])
        (WriteOp.wstring 1048576 0 (("a").data) none) =
      (-1, initWorksheet false false []) := by
  refine ⟨by decide, ?_⟩
  exact ((write_oob_frame_c2 (initWorksheet false false [])
    (WriteOp.wstring 1048576 0 (("a").data) none) (Or.inl (by decide))).1 rfl)

/-- Counterexample to C2 as stated: `write_blank` with no format at an
out-of-bounds coordinate returns 0, not the Out-of-Bounds result -1 (it
mutates nothing, but the claimed return value is wrong for this typed write). -/
theorem write_oob_frame_c2_counterexample :
    xls_rowmax ≤ (WriteOp.wblank 1048576 3 none).row ∧
    (applyWrite (initWorksheet false false []) (WriteOp.wblank 1048576 3 none)).1 = 0 ∧
    ((0 : Int) = -1 → False) := by
  refine ⟨by decide, rfl, by decide⟩
theorem check_dimensions_fst (ws : Worksheet) (row col : Nat) :
    (_check_dimensions ws row col false false).1 = 0 ∨
      (_check_dimensions ws row col false false).1 = -1 := by
  unfold _check_dimensions
  split
  · right; rfl
  · split
    · right; rfl
    · left; rfl

theorem check_dimensions_zero_iff (ws : Worksheet) (row col : Nat) :
    (_check_dimensions ws row col false false).1 = 0 ↔
      (row < xls_rowmax ∧ col < xls_colmax ∧
        (ws.optimization = true → ws.previous_row ≤ row)) := by
  constructor
  · intro h
    by_cases hb : row ≥ xls_rowmax ∨ col ≥ xls_colmax
    · rw [check_dimensions_oob ws row col false false hb] at h
      norm_num at h
    · push_neg at hb
      refine ⟨hb.1, hb.2, ?_⟩
      intro hopt
      by_contra hlt
      push_neg at hlt
      rw [check_dimensions_out_of_order ws row col hb.1 hb.2 hopt hlt] at h
      norm_num at h
  · intro ⟨hr, hc, hp⟩
    by_cases hopt : ws.optimization = true
    · rw [check_dimensions_ok ws row col hr hc (Or.inr (hp hopt))]
    · rw [check_dimensions_ok ws row col hr hc
        (Or.inl (by revert hopt; cases ws.optimization <;> simp))]

theorem check_dimensions_preserves (ws : Worksheet) (row col : Nat)
    (ir ic : Bool) :
    (_check_dimensions ws row col ir ic).2.optimization = ws.optimization ∧
    (_check_dimensions ws row col ir ic).2.previous_row = ws.previous_row ∧
    (_check_dimensions ws row col ir ic).2.table = ws.table ∧
    (_check_dimensions ws row col ir ic).2.strTable = ws.strTable ∧
    (_check_dimensions ws row col ir ic).2.streamOut = ws.streamOut ∧
    (_check_dimensions ws row col ir ic).2.set_rows = ws.set_rows ∧
    (_check_dimensions ws row col ir ic).2.comments = ws.comments ∧
    (_check_dimensions ws row col ir ic).2.col_formats = ws.col_formats ∧
    (_check_dimensions ws row col ir ic).2.hlink_count = ws.hlink_count ∧
    (_check_dimensions ws row col ir ic).2.merge = ws.merge ∧
    (_check_dimensions ws row col ir ic).2.hyperlinks = ws.hyperlinks ∧
    (_check_dimensions ws row col ir ic).2.date_1904 = ws.date_1904 := by
  unfold _check_dimensions
  split
  · simp
  · split
    · simp
    · cases ir <;> cases ic <;> simp

theorem write_array_formula_single_code (ws : Worksheet) (r c : Nat)
    (fl : PyStr) (f : Option Nat) (v : PyVal)
    (hz : (_check_dimensions ws r c false false).1 = 0) :
    (write_array_formula ws r c r c fl f v).1 = 0 := by
  unfold write_array_formula
  simp only [gt_iff_lt, lt_self_iff_false, if_false]
  rw [if_neg (by simp [hz])]

/-- Claim C4 (amended): every call that returns the Out-of-Bounds error (-1)
leaves the worksheet exactly as it was. -/
theorem error_result_frame_c4 :
    ∀ (ws : Worksheet) (op : WriteOp) (ws' : Worksheet),
      applyWrite ws op = (-1, ws') → ws' = ws := by
  intro ws op ws' h
  cases op with
  | wstring r c s f =>
    simp only [applyWrite, write_string] at h
    split at h
    · exact (Prod.mk.injEq _ _ _ _ ▸ h).2.symm
    · have h1 := congrArg Prod.fst h
      simp only at h1
      split at h1 <;> norm_num at h1
  | wnumber r c n f =>
    simp only [applyWrite, write_number] at h
    split at h
    · exact (Prod.mk.injEq _ _ _ _ ▸ h).2.symm
    · have h1 := congrArg Prod.fst h
      norm_num at h1
  | wblank r c f =>
    cases f with
    | none =>
      simp only [applyWrite, write_blank] at h
      have h1 := congrArg Prod.fst h
      norm_num at h1
    | some f0 =>
      simp only [applyWrite, write_blank] at h
      split at h
      · exact (Prod.mk.injEq _ _ _ _ ▸ h).2.symm
      · have h1 := congrArg Prod.fst h
        norm_num at h1
  | wdatetime r c d f =>
    simp only [applyWrite, write_datetime] at h
    split at h
    · exact (Prod.mk.injEq _ _ _ _ ▸ h).2.symm
    · have h1 := congrArg Prod.fst h
      norm_num at h1
  | wformula r c fl f v =>
    simp only [applyWrite, write_formula] at h
    split at h
    · exact (Prod.mk.injEq _ _ _ _ ▸ h).2.symm
    · rename_i hchk
      have hz : (_check_dimensions ws r c false false).1 = 0 := not_not.mp hchk
      rcases (check_dimensions_zero_iff ws r c).mp hz with ⟨hr, hc, hp⟩
      split at h
      · -- brace-delimited: hand-off to write_array_formula on the same cell
        have hpres := check_dimensions_preserves ws r c false false
        have hz2 : (_check_dimensions (_check_dimensions ws r c false false).2
            r c false false).1 = 0 := by
          rw [check_dimensions_zero_iff]
          exact ⟨hr, hc, by rw [hpres.1, hpres.2.1]; exact hp⟩
        have hcode := write_array_formula_single_code
          (_check_dimensions ws r c false false).2 r c fl f v hz2
        have h1 := congrArg Prod.fst h
        simp only at h1
        rw [hcode] at h1
        norm_num at h1
      · have h1 := congrArg Prod.fst h
        norm_num at h1
  | wurl r c u f s t =>
    simp only [applyWrite, write_url] at h
    split at h
    · exact (Prod.mk.injEq _ _ _ _ ▸ h).2.symm
    · have h1 := congrArg Prod.fst h
      simp only at h1
      split at h1
      · norm_num at h1
      · split at h1
        · norm_num at h1
        · split at h1
          · norm_num at h1
          · norm_num at h1
/-- Witness for C4: a concrete out-of-bounds number write returns -1 and the
theorem yields that the state is untouched. -/
theorem error_result_frame_c4_witness :
    applyWrite (initWorksheet false false []) (WriteOp.wnumber 1048576 0 3 none) =
      (-1, initWorksheet false false []) ∧
    (applyWrite (initWorksheet false false [])
        (WriteOp.wnumber 1048576 0 3 none)).2 = initWorksheet false false [] := by
  have h : applyWrite (initWorksheet false false [])
      (WriteOp.wnumber 1048576 0 3 none) = (-1, initWorksheet false false []) := by
    rfl
  refine ⟨h, error_result_frame_c4 (initWorksheet false false [])
    (WriteOp.wnumber 1048576 0 3 none) _ (by rw [h])⟩

theorem longA_length (n : Nat) : (longA n).length = n := by
  simp [longA]

theorem mailto_longA (n : Nat) :
    pyReplace (("mailto:").data) [] (longA n) = longA n := by
  refine pyReplace_no_head _ _ _ 'm' rfl ?_
  intro ch hch
  have := List.eq_of_mem_replicate (by simpa [longA] using hch)
  subst this
  decide

theorem urlMunge_http_longA :
    urlMunge (['h', 't', 't', 'p', ':', '/', '/', 'e']) (some (longA 32768)) =
      (['h', 't', 't', 'p', ':', '/', '/', 'e'], 1, longA 32768) := by
  unfold urlMunge
  simp [show (("internal:").data.isPrefixOf (("http://e").data)) = false from by decide,
    show (("external:").data.isPrefixOf (("http://e").data)) = false from by decide]
  exact mailto_longA 32768

/-- Counterexample to C4 as stated: a `write_url` call whose display string
exceeds the string limit returns the error result -2, yet the worksheet
state is not exactly as before the call — the bounds check that ran first
already widened the dimension bounds (dim_rowmax was None and is now 5). -/
theorem error_result_frame_c4_counterexample :
    (write_url (initWorksheet false false []) 5 3 (("http://e").data) none
        (some (longA 32768)) none).1 = -2 ∧
    (write_url (initWorksheet false false []) 5 3 (("http://e").data) none
        (some (longA 32768)) none).2.dim_rowmax = some 5 ∧
    (initWorksheet false false []).dim_rowmax = none := by
  have hchk : _check_dimensions (initWorksheet false false []) 5 3 false false =
      (0, { initWorksheet false false [] with
              dim_rowmin := some 5
              dim_rowmax := some 5
              dim_colmin := some 3
              dim_colmax := some 3 }) := by
    rw [check_dimensions_ok _ _ _ (by decide) (by decide) (Or.inl rfl)]
    rfl
  refine ⟨?_, ?_, rfl⟩ <;>
  · simp only [write_url, urlMunge_http_longA, hchk, longA_length]
    norm_num [xls_strmax]
theorem findIdx_beq_get (tbl : List PyStr) (s : PyStr) :
    ∀ i, tbl.findIdx? (fun t => t == s) = some i → tbl[i]? = some s := by
  induction tbl with
  | nil => intro i h; simp [List.findIdx?] at h
  | cons a rest ih =>
    intro i h
    rw [List.findIdx?_cons] at h
    by_cases hb : a == s
    · rw [if_pos hb] at h
      cases h
      have ha : a = s := beq_iff_eq.mp hb
      subst ha
      simp
    · rw [if_neg hb, List.findIdx?_succ] at h
      cases hfj : List.findIdx? (fun t => t == s) rest with
      | none =>
        rw [hfj] at h
        simp at h
      | some j =>
        rw [hfj] at h
        simp only [Option.map_some'] at h
        cases h
        simpa using ih j hfj

theorem getSharedStringIndex_get (tbl : List PyStr) (s : PyStr) :
    (getSharedStringIndex tbl s).2[(getSharedStringIndex tbl s).1]? = some s := by
  unfold getSharedStringIndex
  cases hfi : tbl.findIdx? (fun t => t == s) with
  | none => simp [List.getElem?_concat_length]
  | some i => simpa using findIdx_beq_get tbl s i hfi
/-- Claim C6 (amended): a cell string write (`write_string`) whose text
exceeds 32,767 characters truncates the text to 32,767 characters, still
stores the truncated value (interned into the shared string table in
buffered mode) and reports Truncation (-2); a hyperlink write (`write_url`)
whose display string exceeds the limit instead rejects the whole call with
-2, storing no cell, no hyperlink record and no counter increment (only the
already-performed dimension widening remains). -/
theorem string_truncation_c6 :
    ∀ (ws : Worksheet) (row col : Nat) (s : PyStr) (fmt : Option Nat),
      ws.optimization = false → row < xls_rowmax → col < xls_colmax →
      xls_strmax < s.length →
      ((write_string ws row col s fmt).1 = -2 ∧
        cellAt (write_string ws row col s fmt).2 row col =
          some (.CString
            (.shared (getSharedStringIndex ws.strTable (s.take xls_strmax)).1) fmt) ∧
        ((write_string ws row col s fmt).2.strTable)[
            (getSharedStringIndex ws.strTable (s.take xls_strmax)).1]? =
          some (s.take xls_strmax)) ∧
      (∀ (u : PyStr) (tip : Option PyStr),
        (urlMunge u (some s)).2.2 = s →
        (write_url ws row col u fmt (some s) tip).1 = -2 ∧
        (write_url ws row col u fmt (some s) tip).2.table = ws.table ∧
        (write_url ws row col u fmt (some s) tip).2.hlink_count = ws.hlink_count ∧
        (write_url ws row col u fmt (some s) tip).2.hyperlinks = ws.hyperlinks) := by
  intro ws row col s fmt hopt hr hc hlen
  have hchk := check_dimensions_ok ws row col hr hc (Or.inl hopt)
  constructor
  · have hmain : write_string ws row col s fmt =
        (-2,
          { ws with
            dim_rowmin := dimLower ws.dim_rowmin row
            dim_rowmax := dimUpper ws.dim_rowmax row
            dim_colmin := dimLower ws.dim_colmin col
            dim_colmax := dimUpper ws.dim_colmax col
            strTable := (getSharedStringIndex ws.strTable (s.take xls_strmax)).2
            table := tableSet ws.table row col
              (Cell.CString
                (.shared (getSharedStringIndex ws.strTable (s.take xls_strmax)).1)
                fmt) }) := by
      simp only [write_string, hchk]
      rw [if_neg (by norm_num)]
      simp [hopt, if_pos hlen]
    rw [hmain]
    refine ⟨rfl, ?_, getSharedStringIndex_get _ _⟩
    simpa [cellAt] using cellAt_set_self ws.table row col _
  · intro u tip hdisp
    have hmain : write_url ws row col u fmt (some s) tip =
        (-2,
          { ws with
            dim_rowmin := dimLower ws.dim_rowmin row
            dim_rowmax := dimUpper ws.dim_rowmax row
            dim_colmin := dimLower ws.dim_colmin col
            dim_colmax := dimUpper ws.dim_colmax col }) := by
      simp only [write_url, hdisp, hchk]
      rw [if_neg (by norm_num)]
      simp [if_pos hlen]
    rw [hmain]
    exact ⟨rfl, rfl, rfl, rfl⟩
/-- Witness for C6 at a string of 32,768 characters: the cell write reports
-2 (and stores), the hyperlink write reports -2. -/
theorem string_truncation_c6_witness :
    (write_string (initWorksheet false false []) 0 0 (longA 32768) none).1 = -2 ∧
    (write_url (initWorksheet false false []) 0 0
        (['h', 't', 't', 'p', ':', '/', '/', 'e']) none
        (some (longA 32768)) none).1 = -2 := by
  have h := string_truncation_c6 (initWorksheet false false []) 0 0 (longA 32768)
    none rfl (by decide) (by decide) (by rw [longA_length]; decide)
  exact ⟨h.1.1, (h.2 (['h', 't', 't', 'p', ':', '/', '/', 'e']) none
    (by rw [urlMunge_http_longA])).1⟩

/-- Counterexample to C6 as stated: the string-accepting `write_url` call
with a 32,768-character display string reports Truncation (-2) but does not
store any (truncated) value — the target cell stays empty. -/
theorem string_truncation_c6_counterexample :
    (write_url (initWorksheet false false []) 0 0
        (['h', 't', 't', 'p', ':', '/', '/', 'e']) none
        (some (longA 32768)) none).1 = -2 ∧
    cellAt (write_url (initWorksheet false false []) 0 0
        (['h', 't', 't', 'p', ':', '/', '/', 'e']) none
        (some (longA 32768)) none).2 0 0 = none := by
  have hchk := check_dimensions_ok (initWorksheet false false []) 0 0
    (by decide) (by decide) (Or.inl rfl)
  have hmain : write_url (initWorksheet false false []) 0 0
      (['h', 't', 't', 'p', ':', '/', '/', 'e']) none
      (some (longA 32768)) none =
      (-2, { initWorksheet false false [] with
              dim_rowmin := some 0
              dim_rowmax := some 0
              dim_colmin := some 0
              dim_colmax := some 0 }) := by
    simp only [write_url, urlMunge_http_longA, hchk, longA_length]
    rw [if_neg (by norm_num)]
    simp [xls_strmax, dimLower, dimUpper, initWorksheet]
  rw [hmain]
  exact ⟨rfl, rfl⟩
theorem convert_ddate_eq (y m d : Nat) :
    convert_date_time false (.ddate y m d) =
      (if ((if y = 1900 ∧ m = 1 ∧ d = 1
              then ((dateOrdinal y m d - dateOrdinal 1899 12 31 : Int) : ℚ) - 1
              else ((dateOrdinal y m d - dateOrdinal 1899 12 31 : Int) : ℚ)) > 59)
        then (if y = 1900 ∧ m = 1 ∧ d = 1
              then ((dateOrdinal y m d - dateOrdinal 1899 12 31 : Int) : ℚ) - 1
              else ((dateOrdinal y m d - dateOrdinal 1899 12 31 : Int) : ℚ)) + 1
        else (if y = 1900 ∧ m = 1 ∧ d = 1
              then ((dateOrdinal y m d - dateOrdinal 1899 12 31 : Int) : ℚ) - 1
              else ((dateOrdinal y m d - dateOrdinal 1899 12 31 : Int) : ℚ))) := by
  simp only [convert_date_time, normalizeDT, epochDate]
  norm_num

theorem convert_ddate_1904_eq (y m d : Nat) :
    convert_date_time true (.ddate y m d) =
      (if y = 1900 ∧ m = 1 ∧ d = 1
        then ((dateOrdinal y m d - dateOrdinal 1904 1 1 : Int) : ℚ) - 1
        else ((dateOrdinal y m d - dateOrdinal 1904 1 1 : Int) : ℚ)) := by
  simp only [convert_date_time, normalizeDT, epochDate]
  norm_num

theorem convert_dclock_eq (h mi s us : Nat) :
    convert_date_time false (.dclock h mi s us) =
      (if ((((h * 3600 + mi * 60 + s : Nat) : ℚ) + (us : ℚ) / 1000000) / 86400 > 59)
        then (((h * 3600 + mi * 60 + s : Nat) : ℚ) + (us : ℚ) / 1000000) / 86400 + 1
        else (((h * 3600 + mi * 60 + s : Nat) : ℚ) + (us : ℚ) / 1000000) / 86400) := by
  simp only [convert_date_time, normalizeDT, epochDate]
  norm_num

/-- Claim C5 (amended): under the default epoch (1899-12-31), a pure date
strictly before the fictitious 1900 leap day — other than exactly
1900-01-01 — converts to its day count since the epoch with no correction
(1900-02-28 gives 59); a date on or after the fictitious day gets the +1
leap correction (1900-03-01 gives 61); under the 1904 epoch the reference
date 1904-01-01 gives serial 0; the extra one-day subtraction applies to
values whose date part is exactly 1900-01-01 (the day after the epoch),
giving serial 0 for that date, while a time-only value — which normalizes
onto the epoch date 1899-12-31 itself — receives no subtraction and converts
to the plain fraction of the day. -/
theorem convert_date_time_profile_c5 :
    (∀ y m d : Nat, ¬(y = 1900 ∧ m = 1 ∧ d = 1) →
      (0 : Int) ≤ dateOrdinal y m d - dateOrdinal 1899 12 31 →
      dateOrdinal y m d - dateOrdinal 1899 12 31 ≤ 59 →
      convert_date_time false (.ddate y m d) =
        ((dateOrdinal y m d - dateOrdinal 1899 12 31 : Int) : ℚ)) ∧
    (∀ y m d : Nat, 60 ≤ dateOrdinal y m d - dateOrdinal 1899 12 31 →
      convert_date_time false (.ddate y m d) =
        ((dateOrdinal y m d - dateOrdinal 1899 12 31 : Int) : ℚ) + 1) ∧
    convert_date_time false (.ddate 1900 2 28) = 59 ∧
    convert_date_time false (.ddate 1900 3 1) = 61 ∧
    convert_date_time true (.ddate 1904 1 1) = 0 ∧
    convert_date_time false (.ddate 1900 1 1) = 0 ∧
    (∀ h mi s us : Nat, h < 24 → mi < 60 → s < 60 → us < 1000000 →
      convert_date_time false (.dclock h mi s us) =
        (((h * 3600 + mi * 60 + s : Nat) : ℚ) + (us : ℚ) / 1000000) / 86400) := by
  refine ⟨?_, ?_, ?_, ?_, ?_, ?_, ?_⟩
  · intro y m d hne h0 h59
    rw [convert_ddate_eq]
    rw [if_neg hne]
    rw [if_neg]
    intro hgt
    have h59q : ((dateOrdinal y m d - dateOrdinal 1899 12 31 : Int) : ℚ) ≤ 59 := by
      exact_mod_cast h59
    linarith
  · intro y m d h60
    have hne : ¬(y = 1900 ∧ m = 1 ∧ d = 1) := by
      rintro ⟨rfl, rfl, rfl⟩
      have hval : dateOrdinal 1900 1 1 - dateOrdinal 1899 12 31 = 1 := by decide
      omega
    rw [convert_ddate_eq]
    rw [if_neg hne]
    rw [if_pos]
    have h60q : (60 : ℚ) ≤ ((dateOrdinal y m d - dateOrdinal 1899 12 31 : Int) : ℚ) := by
      exact_mod_cast h60
    linarith
  · rw [convert_ddate_eq]
    have hval : dateOrdinal 1900 2 28 - dateOrdinal 1899 12 31 = 59 := by decide
    rw [hval]
    norm_num
  · rw [convert_ddate_eq]
    have hval : dateOrdinal 1900 3 1 - dateOrdinal 1899 12 31 = 60 := by decide
    rw [hval]
    norm_num
  · rw [convert_ddate_1904_eq]
    have hval : dateOrdinal 1904 1 1 - dateOrdinal 1904 1 1 = 0 := by decide
    rw [hval]
    norm_num
  · rw [convert_ddate_eq]
    have hval : dateOrdinal 1900 1 1 - dateOrdinal 1899 12 31 = 1 := by decide
    rw [hval]
    norm_num
  · intro h mi s us hh hmi hs hus
    rw [convert_dclock_eq]
    rw [if_neg]
    intro hgt
    have hsec : ((h * 3600 + mi * 60 + s : Nat) : ℚ) ≤ 86399 := by
      have hb : h * 3600 + mi * 60 + s ≤ 86399 := by omega
      exact_mod_cast hb
    have husq : (us : ℚ) / 1000000 < 1 := by
      rw [div_lt_one (by norm_num)]
      exact_mod_cast hus
    have hfr : (((h * 3600 + mi * 60 + s : Nat) : ℚ) + (us : ℚ) / 1000000) / 86400 < 1 := by
      rw [div_lt_one (by norm_num)]
      linarith
    linarith

/-- Witness for C5: the general clauses applied at 1900-02-27 (serial 58)
and 1900-03-02 (serial 62), and the time-only clause at 06:00:00 (serial
one quarter). -/
theorem convert_date_time_profile_c5_witness :
    convert_date_time false (.ddate 1900 2 27) = 58 ∧
    convert_date_time false (.ddate 1900 3 2) = 62 ∧
    convert_date_time false (.dclock 6 0 0 0) = 1 / 4 := by
  have h1 := convert_date_time_profile_c5.1 1900 2 27 (by norm_num)
    (by decide) (by decide)
  have h2 := convert_date_time_profile_c5.2.1 1900 3 2 (by decide)
  have h3 := convert_date_time_profile_c5.2.2.2.2.2.2 6 0 0 0 (by norm_num)
    (by norm_num) (by norm_num) (by norm_num)
  refine ⟨?_, ?_, ?_⟩
  · rw [h1]
    have hval : dateOrdinal 1900 2 27 - dateOrdinal 1899 12 31 = 58 := by decide
    rw [hval]
    norm_num
  · rw [h2]
    have hval : dateOrdinal 1900 3 2 - dateOrdinal 1899 12 31 = 61 := by decide
    rw [hval]
    norm_num
  · rw [h3]
    norm_num
theorem check_dimensions_neg_of_out_of_order (ws : Worksheet) (row col : Nat)
    (hopt : ws.optimization = true) (hlt : row < ws.previous_row) :
    (_check_dimensions ws row col false false).1 = -1 := by
  rcases check_dimensions_fst ws row col with h | h
  · exfalso
    rcases (check_dimensions_zero_iff ws row col).mp h with ⟨_, _, hp⟩
    have := hp hopt
    omega
  · exact h

theorem check_dimensions_neg_eq (ws : Worksheet) (row col : Nat)
    (h : (_check_dimensions ws row col false false).1 = -1) :
    _check_dimensions ws row col false false = (-1, ws) := by
  by_cases h1 : row ≥ xls_rowmax ∨ col ≥ xls_colmax
  · exact check_dimensions_oob ws row col false false h1
  · push_neg at h1
    by_cases h2 : ws.optimization = true ∧ row < ws.previous_row
    · exact check_dimensions_out_of_order ws row col h1.1 h1.2 h2.1 h2.2
    · exfalso
      have hprev : ws.optimization = false ∨ ws.previous_row ≤ row := by
        by_cases ho : ws.optimization = true
        · right
          by_contra hx
          exact h2 ⟨ho, by omega⟩
        · left
          revert ho
          cases ws.optimization <;> simp
      rw [check_dimensions_ok ws row col h1.1 h1.2 hprev] at h
      norm_num at h

theorem write_out_of_order_rejected (ws : Worksheet) (op : WriteOp)
    (hopt : ws.optimization = true) (hlt : op.row < ws.previous_row)
    (hbn : op.isBlankNone = false) : applyWrite ws op = (-1, ws) := by
  cases op with
  | wstring r c s f =>
    have hneg := check_dimensions_neg_eq ws r c
      (check_dimensions_neg_of_out_of_order ws r c hopt hlt)
    simp only [applyWrite, write_string, hneg]
    norm_num
  | wnumber r c n f =>
    have hneg := check_dimensions_neg_eq ws r c
      (check_dimensions_neg_of_out_of_order ws r c hopt hlt)
    simp only [applyWrite, write_number, hneg]
    norm_num
  | wblank r c f =>
    cases f with
    | none => simp [WriteOp.isBlankNone] at hbn
    | some f0 =>
      have hneg := check_dimensions_neg_eq ws r c
        (check_dimensions_neg_of_out_of_order ws r c hopt hlt)
      simp only [applyWrite, write_blank, hneg]
      norm_num
  | wformula r c fl f v =>
    have hneg := check_dimensions_neg_eq ws r c
      (check_dimensions_neg_of_out_of_order ws r c hopt hlt)
    simp only [applyWrite, write_formula, hneg]
    norm_num
  | wdatetime r c d f =>
    have hneg := check_dimensions_neg_eq ws r c
      (check_dimensions_neg_of_out_of_order ws r c hopt hlt)
    simp only [applyWrite, write_datetime, hneg]
    norm_num
  | wurl r c u f s t =>
    have hneg := check_dimensions_neg_eq ws r c
      (check_dimensions_neg_of_out_of_order ws r c hopt hlt)
    simp only [applyWrite, write_url, hneg]
    norm_num

theorem dimLower_idem (cur : Option Nat) (v : Nat) :
    dimLower (dimLower cur v) v = dimLower cur v := by
  unfold dimLower
  cases cur with
  | none => simp
  | some w =>
    by_cases h : v < w
    · simp [h]
    · simp [h]

theorem dimUpper_idem (cur : Option Nat) (v : Nat) :
    dimUpper (dimUpper cur v) v = dimUpper cur v := by
  unfold dimUpper
  cases cur with
  | none => simp
  | some w =>
    by_cases h : v > w
    · simp [h]
    · simp [h]

theorem write_blank_ok_buffered (w : Worksheet) (r c f0 : Nat)
    (hopt : w.optimization = false) (hr : r < xls_rowmax) (hc : c < xls_colmax) :
    write_blank w r c (some f0) =
      (0, { w with dim_rowmin := dimLower w.dim_rowmin r
                   dim_rowmax := dimUpper w.dim_rowmax r
                   dim_colmin := dimLower w.dim_colmin c
                   dim_colmax := dimUpper w.dim_colmax c
                   table := tableSet w.table r c (Cell.CBlank (some f0)) }) := by
  simp only [write_blank, check_dimensions_ok w r c hr hc (Or.inl hopt)]
  rw [if_neg (by norm_num)]
  simp [hopt]

theorem mem_rangePairs (fr fc lr lc r c : Nat) :
    (r, c) ∈ rangePairs fr fc lr lc ↔
      (fr ≤ r ∧ r ≤ lr ∧ fc ≤ c ∧ c ≤ lc) := by
  unfold rangePairs
  rw [List.mem_flatten]
  constructor
  · rintro ⟨s, hs, hmem⟩
    rw [List.mem_map] at hs
    obtain ⟨rr, hrr, rfl⟩ := hs
    rw [List.mem_map] at hmem
    obtain ⟨cc, hcc, hpair⟩ := hmem
    injection hpair with he1 he2
    subst he1
    subst he2
    rw [List.mem_range'_1] at hrr hcc
    omega
  · rintro ⟨h1, h2, h3, h4⟩
    refine ⟨(List.range' fc (lc + 1 - fc)).map (fun cc => (r, cc)), ?_, ?_⟩
    · rw [List.mem_map]
      refine ⟨r, ?_, rfl⟩
      rw [List.mem_range'_1]
      omega
    · rw [List.mem_map]
      refine ⟨c, ?_, rfl⟩
      rw [List.mem_range'_1]
      omega

theorem cellAt_tableSet (t : Table) (rr cc r c : Nat) (v : Cell) :
    colGet (tableGet (tableSet t rr cc v) r) c =
      if r = rr ∧ c = cc then some v else colGet (tableGet t r) c := by
  by_cases h1 : r = rr
  · subst h1
    rw [tableGet_set_self]
    by_cases h2 : c = cc
    · subst h2
      rw [colGet_set_self]
      simp
    · rw [colGet_set_ne _ _ _ _ h2]
      simp [h2]
  · rw [tableGet_set_ne _ _ _ _ _ h1]
    simp [h1]

theorem mergeBlankLoop_spec (a b f0 : Nat) :
    ∀ (L : List (Nat × Nat)) (w : Worksheet),
      w.optimization = false →
      (∀ p ∈ L, p.1 < xls_rowmax ∧ p.2 < xls_colmax) →
      (mergeBlankLoop a b (some f0) L w).optimization = false ∧
      (mergeBlankLoop a b (some f0) L w).merge = w.merge ∧
      ∀ r c, cellAt (mergeBlankLoop a b (some f0) L w) r c =
        (if (r, c) ∈ L ∧ ¬(r = a ∧ c = b) then some (Cell.CBlank (some f0))
         else cellAt w r c) := by
  intro L
  induction L with
  | nil =>
    intro w hopt _
    exact ⟨hopt, rfl, fun r c => by simp [mergeBlankLoop]⟩
  | cons p L ih =>
    intro w hopt hb
    obtain ⟨pr, pc⟩ := p
    by_cases hanch : pr = a ∧ pc = b
    · have hstep : mergeBlankLoop a b (some f0) ((pr, pc) :: L) w =
          mergeBlankLoop a b (some f0) L w := by
        simp [mergeBlankLoop, hanch]
      rw [hstep]
      obtain ⟨h1, h2, h3⟩ := ih w hopt (fun q hq => hb q (List.mem_cons_of_mem _ hq))
      refine ⟨h1, h2, ?_⟩
      intro r c
      rw [h3 r c]
      by_cases hin : (r, c) ∈ L ∧ ¬(r = a ∧ c = b)
      · rw [if_pos hin, if_pos ⟨List.mem_cons_of_mem _ hin.1, hin.2⟩]
      · rw [if_neg hin, if_neg ?_]
        rintro ⟨hmem, hne⟩
        rcases List.mem_cons.mp hmem with hq | hq
        · injection hq with he1 he2
          subst he1
          subst he2
          exact hne hanch
        · exact hin ⟨hq, hne⟩
    · have hbp := hb (pr, pc) (List.mem_cons_self _ _)
      have hw' := write_blank_ok_buffered w pr pc f0 hopt hbp.1 hbp.2
      have hstep : mergeBlankLoop a b (some f0) ((pr, pc) :: L) w =
          mergeBlankLoop a b (some f0) L (write_blank w pr pc (some f0)).2 := by
        simp [mergeBlankLoop, hanch]
      rw [hstep, hw']
      obtain ⟨h1, h2, h3⟩ := ih
        { w with dim_rowmin := dimLower w.dim_rowmin pr
                 dim_rowmax := dimUpper w.dim_rowmax pr
                 dim_colmin := dimLower w.dim_colmin pc
                 dim_colmax := dimUpper w.dim_colmax pc
                 table := tableSet w.table pr pc (Cell.CBlank (some f0)) }
        (by simpa using hopt) (fun q hq => hb q (List.mem_cons_of_mem _ hq))
      refine ⟨h1, by rw [h2], ?_⟩
      intro r c
      rw [h3 r c]
      by_cases hin : (r, c) ∈ L ∧ ¬(r = a ∧ c = b)
      · rw [if_pos hin, if_pos ⟨List.mem_cons_of_mem _ hin.1, hin.2⟩]
      · rw [if_neg hin]
        have hcell : cellAt
            { w with dim_rowmin := dimLower w.dim_rowmin pr
                     dim_rowmax := dimUpper w.dim_rowmax pr
                     dim_colmin := dimLower w.dim_colmin pc
                     dim_colmax := dimUpper w.dim_colmax pc
                     table := tableSet w.table pr pc (Cell.CBlank (some f0)) } r c =
            (if r = pr ∧ c = pc then some (Cell.CBlank (some f0))
             else cellAt w r c) := by
          simpa [cellAt] using cellAt_tableSet w.table pr pc r c (Cell.CBlank (some f0))
        rw [hcell]
        by_cases hpq : r = pr ∧ c = pc
        · obtain ⟨rfl, rfl⟩ := hpq
          rw [if_pos ⟨rfl, rfl⟩, if_pos ?_]
          exact ⟨List.mem_cons_self _ _, fun hab => hanch hab⟩
        · rw [if_neg hpq, if_neg ?_]
          rintro ⟨hmem, hne⟩
          rcases List.mem_cons.mp hmem with hq | hq
          · injection hq with he1 he2
            exact hpq ⟨he1, he2⟩
          · exact hin ⟨hq, hne⟩

theorem write_number_ok_buffered (w : Worksheet) (r c : Nat) (n : ℚ)
    (fmt : Option Nat) (hopt : w.optimization = false)
    (hr : r < xls_rowmax) (hc : c < xls_colmax) :
    write_number w r c n fmt =
      (0, { w with dim_rowmin := dimLower w.dim_rowmin r
                   dim_rowmax := dimUpper w.dim_rowmax r
                   dim_colmin := dimLower w.dim_colmin c
                   dim_colmax := dimUpper w.dim_colmax c
                   table := tableSet w.table r c (Cell.CNumber n fmt) }) := by
  simp only [write_number, check_dimensions_ok w r c hr hc (Or.inl hopt)]
  rw [if_neg (by norm_num)]
  simp [hopt]

/-- Claim C7: a `merge_range` call over a range of at least two cells, with
all coordinates in bounds and a format attached, records exactly one new
merge region, writes the payload at the anchor (first) cell and overwrites
every other cell of the range with a blank cell carrying the call's format
(exercised with a numeric payload, which the generic `write` dispatcher
stores as a number cell); and a single-cell merge request is rejected,
recording no region and writing no cells. -/
theorem merge_range_c7 :
    (∀ (ws : Worksheet) (fr fc lr lc : Nat) (q : ℚ) (f0 : Nat),
      ws.optimization = false → fr ≤ lr → fc ≤ lc → ¬(fr = lr ∧ fc = lc) →
      lr < xls_rowmax → lc < xls_colmax →
      ((merge_range ws fr fc lr lc (.tnum q) (some f0)).merge =
          ws.merge ++ [(fr, fc, lr, lc)] ∧
        cellAt (merge_range ws fr fc lr lc (.tnum q) (some f0)) fr fc =
          some (.CNumber q (some f0)) ∧
        (∀ r c, fr ≤ r → r ≤ lr → fc ≤ c → c ≤ lc → ¬(r = fr ∧ c = fc) →
          cellAt (merge_range ws fr fc lr lc (.tnum q) (some f0)) r c =
            some (.CBlank (some f0))))) ∧
    (∀ (ws : Worksheet) (r c : Nat) (data : Token) (fmt : Option Nat),
      merge_range ws r c r c data fmt = ws) := by
  constructor
  · intro ws fr fc lr lc q f0 hopt hrl hcl hne hlr hlc
    have hfc : fc < xls_colmax := lt_of_le_of_lt hcl hlc
    have hfr : fr < xls_rowmax := lt_of_le_of_lt hrl hlr
    have hchk := check_dimensions_ok ws lr fc hlr hfc (Or.inl hopt)
    have hmg : merge_range ws fr fc lr lc (.tnum q) (some f0) =
        mergeBlankLoop fr fc (some f0) (rangePairs fr fc lr lc)
          (write_number
            { ws with dim_rowmin := dimLower ws.dim_rowmin lr
                      dim_rowmax := dimUpper ws.dim_rowmax lr
                      dim_colmin := dimLower ws.dim_colmin fc
                      dim_colmax := dimUpper ws.dim_colmax fc
                      merge := ws.merge ++ [(fr, fc, lr, lc)] }
            fr fc q (some f0)).2 := by
      have h1 : (if fr > lr then (lr, fr) else (fr, lr)) = (fr, lr) :=
        if_neg (by omega)
      have h2 : (if fc > lc then (lc, fc) else (fc, lc)) = (fc, lc) :=
        if_neg (by omega)
      simp only [merge_range, h1, h2]
      rw [if_neg hne]
      simp only [hchk]
      rw [if_neg (by norm_num)]
      simp [write]
    have hwn := write_number_ok_buffered
      { ws with dim_rowmin := dimLower ws.dim_rowmin lr
                dim_rowmax := dimUpper ws.dim_rowmax lr
                dim_colmin := dimLower ws.dim_colmin fc
                dim_colmax := dimUpper ws.dim_colmax fc
                merge := ws.merge ++ [(fr, fc, lr, lc)] }
      fr fc q (some f0) (by simpa using hopt) hfr hfc
    obtain ⟨hl1, hl2, hl3⟩ := mergeBlankLoop_spec fr fc f0
      (rangePairs fr fc lr lc)
      (write_number
        { ws with dim_rowmin := dimLower ws.dim_rowmin lr
                  dim_rowmax := dimUpper ws.dim_rowmax lr
                  dim_colmin := dimLower ws.dim_colmin fc
                  dim_colmax := dimUpper ws.dim_colmax fc
                  merge := ws.merge ++ [(fr, fc, lr, lc)] }
        fr fc q (some f0)).2
      (by rw [hwn]; exact hopt)
      (by
        intro p hp
        obtain ⟨p1, p2⟩ := p
        have hb := (mem_rangePairs fr fc lr lc p1 p2).mp hp
        exact ⟨by omega, by omega⟩)
    refine ⟨?_, ?_, ?_⟩
    · rw [hmg, hl2, hwn]
    · rw [hmg, hl3 fr fc]
      rw [if_neg (by rintro ⟨_, hx⟩; exact hx ⟨rfl, rfl⟩)]
      rw [hwn]
      simpa [cellAt] using cellAt_tableSet _ fr fc fr fc (Cell.CNumber q (some f0))
    · intro r c h1 h2 h3 h4 hnanch
      rw [hmg, hl3 r c]
      rw [if_pos ⟨(mem_rangePairs fr fc lr lc r c).mpr ⟨h1, h2, h3, h4⟩, hnanch⟩]
  · intro ws r c data fmt
    simp [merge_range]

theorem merge_range_c7_witness :
    (merge_range (initWorksheet false false []) 0 0 1 1 (.tnum 5) (some 1)).merge =
      (initWorksheet false false []).merge ++ [(0, 0, 1, 1)] ∧
    cellAt (merge_range (initWorksheet false false []) 0 0 1 1 (.tnum 5) (some 1)) 0 0 =
      some (.CNumber 5 (some 1)) ∧
    cellAt (merge_range (initWorksheet false false []) 0 0 1 1 (.tnum 5) (some 1)) 1 1 =
      some (.CBlank (some 1)) ∧
    merge_range (initWorksheet false false []) 2 3 2 3 (.tnum 7) none =
      initWorksheet false false [] := by
  obtain ⟨h1, h2⟩ := merge_range_c7
  obtain ⟨ha, hb, hc⟩ := h1 (initWorksheet false false []) 0 0 1 1 5 1 rfl
    (by decide) (by decide) (by decide) (by decide) (by decide)
  exact ⟨ha, hb, hc 1 1 (by decide) (by decide) (by decide) (by decide) (by decide),
    h2 (initWorksheet false false []) 2 3 (.tnum 7) none⟩
/-- Counterexample to C5 as stated: the claim says a time-only value that
normalizes onto the default epoch date has one further day subtracted, and
that any date before the fictitious leap day converts without correction.
In the code the default epoch is 1899-12-31, so a time-only value such as
12:00:00 normalizes onto 1899-12-31 and receives no subtraction (it
converts to 1/2, not 1/2 - 1); the subtraction instead fires for the date
1900-01-01, the day after the epoch, which therefore converts to 0 rather
than to its uncorrected day count 1. -/
theorem convert_date_time_c5_counterexample :
    convert_date_time false (.dclock 12 0 0 0) = 1 / 2 ∧
    (1 / 2 : ℚ) ≠ 1 / 2 - 1 ∧
    convert_date_time false (.ddate 1900 1 1) = 0 ∧
    (0 : ℚ) ≠ ((dateOrdinal 1900 1 1 - dateOrdinal 1899 12 31 : Int) : ℚ) := by
  refine ⟨?_, by norm_num, ?_, ?_⟩
  · rw [convert_dclock_eq]
    rw [if_neg (by norm_num)]
    norm_num
  · rw [convert_ddate_eq]
    have hval : dateOrdinal 1900 1 1 - dateOrdinal 1899 12 31 = 1 := by decide
    rw [hval]
    norm_num
  · have hval : dateOrdinal 1900 1 1 - dateOrdinal 1899 12 31 = 1 := by decide
    rw [hval]
    norm_num
theorem dimLower_none (v : Nat) : dimLower none v = some v := rfl

theorem dimLower_le (w v : Nat) (h : w ≤ v) : dimLower (some w) v = some w := by
  simp [dimLower]
  omega

theorem dimUpper_le (w v : Nat) (h : w ≤ v) : dimUpper (some w) v = some v := by
  simp [dimUpper]
  omega

theorem dimLower_spec (cur : Option Nat) (v : Nat) :
    ∃ y, dimLower cur v = some y ∧ y ≤ v ∧ (∀ w, cur = some w → y ≤ w) ∧
      (cur = none → y = v) := by
  cases cur with
  | none => exact ⟨v, rfl, le_refl v, (fun w h => by cases h), (fun _ => rfl)⟩
  | some w =>
    by_cases h : v < w
    · exact ⟨v, by simp [dimLower, h], le_refl v,
        (fun w2 hw => by injection hw with hw; omega), (fun h2 => by cases h2)⟩
    · exact ⟨w, by simp [dimLower, h], by omega,
        (fun w2 hw => by injection hw with hw; omega), (fun h2 => by cases h2)⟩

theorem dimUpper_spec (cur : Option Nat) (v : Nat) :
    ∃ y, dimUpper cur v = some y ∧ v ≤ y ∧ (∀ w, cur = some w → w ≤ y) ∧
      (∀ b, v ≤ b → (∀ w, cur = some w → w ≤ b) → y ≤ b) := by
  cases cur with
  | none =>
    exact ⟨v, rfl, le_refl v, (fun w h => by cases h), (fun b hb _ => hb)⟩
  | some w =>
    by_cases h : v > w
    · exact ⟨v, by simp [dimUpper, h], le_refl v,
        (fun w2 hw => by injection hw with hw; omega),
        (fun b hb _ => hb)⟩
    · exact ⟨w, by simp [dimUpper, h], by omega,
        (fun w2 hw => by injection hw with hw; omega),
        (fun b _ hw => hw w rfl)⟩

theorem eventsEquivB_nil_iff (tbl : List PyStr) (z : List XmlEvent) :
    eventsEquivB tbl [] z = true ↔ z = [] := by
  cases z with
  | nil => simp [eventsEquivB]
  | cons y ys => simp [eventsEquivB]

theorem eventsEquivB_append (tbl : List PyStr) (A C : List XmlEvent) :
    ∀ B D, eventsEquivB tbl A B = true → eventsEquivB tbl C D = true →
      eventsEquivB tbl (A ++ C) (B ++ D) = true := by
  induction A with
  | nil =>
    intro B D h1 h2
    rw [(eventsEquivB_nil_iff tbl B).mp h1]
    simpa using h2
  | cons x xs ih =>
    intro B D h1 h2
    cases B with
    | nil => simp [eventsEquivB] at h1
    | cons y ys =>
      simp only [eventsEquivB, Bool.and_eq_true] at h1
      simp only [List.cons_append, eventsEquivB, Bool.and_eq_true]
      exact ⟨h1.1, ih ys D h1.2 h2⟩

theorem getElem_append_mono (tbl ext : List PyStr) (i : Nat) (s : PyStr)
    (h : tbl[i]? = some s) : (tbl ++ ext)[i]? = some s := by
  have hi : i < tbl.length := by
    by_contra hn
    rw [List.getElem?_eq_none (by omega)] at h
    cases h
  rw [List.getElem?_append_left hi]
  exact h

theorem cellXmlEquivB_mono (tbl ext : List PyStr) (x y : CellXml)
    (h : cellXmlEquivB tbl x y = true) :
    cellXmlEquivB (tbl ++ ext) x y = true := by
  cases x with
  | xmlSharedString i =>
    simp only [cellXmlEquivB] at h ⊢
    cases hl : tbl[i]? with
    | none => rw [hl] at h; cases h
    | some s =>
      rw [hl] at h
      rw [getElem_append_mono tbl ext i s hl]
      exact h
  | xmlNumber n => exact h
  | xmlInlineString t p => exact h
  | xmlRichInline t => exact h
  | xmlFormula f v st => exact h
  | xmlArrayFormula f rng v st => exact h
  | xmlBlank => exact h

theorem eventEquivB_mono (tbl ext : List PyStr) (x y : XmlEvent)
    (h : eventEquivB tbl x y = true) :
    eventEquivB (tbl ++ ext) x y = true := by
  cases x <;> cases y <;> simp only [eventEquivB] at h ⊢ <;>
    first
    | exact h
    | (simp only [Bool.and_eq_true] at h ⊢
       exact ⟨h.1, cellXmlEquivB_mono tbl ext _ _ h.2⟩)

theorem eventsEquivB_mono (tbl ext : List PyStr) :
    ∀ A Z, eventsEquivB tbl A Z = true →
      eventsEquivB (tbl ++ ext) A Z = true := by
  intro A
  induction A with
  | nil =>
    intro Z h
    have hz := (eventsEquivB_nil_iff tbl Z).mp h
    subst hz
    rfl
  | cons x xs ih =>
    intro Z h
    cases Z with
    | nil => simp [eventsEquivB] at h
    | cons y ys =>
      simp only [eventsEquivB, Bool.and_eq_true] at h ⊢
      exact ⟨eventEquivB_mono tbl ext x y h.1, ih ys h.2⟩

theorem cellRel_mono (tbl ext : List PyStr) (cb ct : Cell)
    (h : cellRel tbl cb ct) : cellRel (tbl ++ ext) cb ct := by
  cases cb with
  | CString si f =>
    cases si with
    | shared i =>
      cases ct with
      | CString ti f2 =>
        cases ti with
        | inline s =>
          obtain ⟨h1, h2⟩ := h
          exact ⟨getElem_append_mono tbl ext i s h1, h2⟩
        | shared j => exact h.elim
      | CNumber n f2 => exact h
      | CBlank f2 => exact h
      | CFormula fl f2 v => exact h
      | CArrayFormula fl f2 v rng => exact h
    | inline s =>
      cases ct with
      | CString ti f2 => exact h.elim
      | CNumber n f2 => exact h
      | CBlank f2 => exact h
      | CFormula fl f2 v => exact h
      | CArrayFormula fl f2 v rng => exact h
  | CNumber n f => exact h
  | CBlank f => exact h
  | CFormula fl f v => exact h
  | CArrayFormula fl f v rng => exact h

theorem entryRel_mono (tbl ext : List PyStr) (p q : Nat × Cell)
    (h : entryRel tbl p q) : entryRel (tbl ++ ext) p q :=
  ⟨h.1, cellRel_mono tbl ext p.2 q.2 h.2⟩

theorem forall2_entryRel_mono (tbl ext : List PyStr) (m1 m2 : ColMap)
    (h : List.Forall₂ (entryRel tbl) m1 m2) :
    List.Forall₂ (entryRel (tbl ++ ext)) m1 m2 :=
  List.Forall₂.imp (fun a b hab => entryRel_mono tbl ext a b hab) h

theorem forall2_alistGet (tbl : List PyStr) (m1 m2 : ColMap)
    (h : List.Forall₂ (entryRel tbl) m1 m2) (c : Nat) :
    cellOptRel tbl (alistGet m1 c) (alistGet m2 c) := by
  induction h with
  | nil => exact trivial
  | cons hpq hrest ih =>
    rename_i p q m1' m2'
    obtain ⟨hk, hc⟩ := hpq
    obtain ⟨k1, x⟩ := p
    obtain ⟨k2, y⟩ := q
    simp only at hk
    subst hk
    by_cases hkc : k1 = c
    · subst hkc
      simpa [alistGet_cons] using hc
    · simpa [alistGet_cons, hkc] using ih

theorem forall2_colSet (tbl : List PyStr) (m1 m2 : ColMap) (k : Nat)
    (cb ct : Cell) (hrel : cellRel tbl cb ct)
    (h : List.Forall₂ (entryRel tbl) m1 m2) :
    List.Forall₂ (entryRel tbl) (colSet m1 k cb) (colSet m2 k ct) := by
  induction h with
  | nil => exact List.Forall₂.cons ⟨rfl, hrel⟩ List.Forall₂.nil
  | cons hpq hrest ih =>
    rename_i p q m1' m2'
    obtain ⟨k1, x⟩ := p
    obtain ⟨k2, y⟩ := q
    obtain ⟨hk, hc⟩ := hpq
    simp only at hk
    subst hk
    by_cases hkc : k1 = k
    · subst hkc
      simp only [colSet, alistSet, if_pos rfl]
      exact List.Forall₂.cons ⟨rfl, hrel⟩ hrest
    · simp only [colSet, alistSet, if_neg hkc]
      exact List.Forall₂.cons ⟨rfl, hc⟩ ih

theorem alistSet_ne_nil {α : Type} (l : List (Nat × α)) (k : Nat) (v : α) :
    alistSet l k v ≠ [] := by
  cases l with
  | nil => simp [alistSet]
  | cons p rest =>
    obtain ⟨k0, v0⟩ := p
    by_cases h : k0 = k <;> simp [alistSet, h]

theorem colMap_ne_nil_isSome (m : ColMap) (h : m ≠ []) :
    ∃ c, (colGet m c).isSome := by
  cases m with
  | nil => exact absurd rfl h
  | cons p rest =>
    obtain ⟨c0, v0⟩ := p
    exact ⟨c0, by simp [colGet, alistGet_cons]⟩

theorem forall2_ne_nil (tbl : List PyStr) (m1 m2 : ColMap)
    (h : List.Forall₂ (entryRel tbl) m1 m2) : (m1 ≠ []) ↔ (m2 ≠ []) := by
  cases h with
  | nil => simp
  | cons hpq hrest => simp

theorem cellRel_format (tbl : List PyStr) (cb ct : Cell)
    (h : cellRel tbl cb ct) : cellFormat cb = cellFormat ct := by
  cases cb with
  | CString si f =>
    cases si with
    | shared i =>
      cases ct with
      | CString ti f2 =>
        cases ti with
        | inline s => exact h.2
        | shared j => exact h.elim
      | CNumber n f2 => exact absurd h (by simp [cellRel])
      | CBlank f2 => exact absurd h (by simp [cellRel])
      | CFormula fl f2 v => exact absurd h (by simp [cellRel])
      | CArrayFormula fl f2 v rng => exact absurd h (by simp [cellRel])
    | inline s =>
      cases ct with
      | CString ti f2 => exact h.elim
      | CNumber n f2 => exact absurd h (by simp [cellRel])
      | CBlank f2 => exact absurd h (by simp [cellRel])
      | CFormula fl f2 v => exact absurd h (by simp [cellRel])
      | CArrayFormula fl f2 v rng => exact absurd h (by simp [cellRel])
  | CNumber n f => rw [h]
  | CBlank f => rw [h]
  | CFormula fl f v => rw [h]
  | CArrayFormula fl f v rng => rw [h]

theorem cellRel_payload (tbl : List PyStr) (cb ct : Cell)
    (h : cellRel tbl cb ct) :
    cellXmlEquivB tbl (cellPayloadXml cb) (cellPayloadXml ct) = true := by
  cases cb with
  | CString si f =>
    cases si with
    | shared i =>
      cases ct with
      | CString ti f2 =>
        cases ti with
        | inline s =>
          obtain ⟨h1, _⟩ := h
          simp [cellPayloadXml, cellXmlEquivB, h1]
        | shared j => exact h.elim
      | CNumber n f2 => exact absurd h (by simp [cellRel])
      | CBlank f2 => exact absurd h (by simp [cellRel])
      | CFormula fl f2 v => exact absurd h (by simp [cellRel])
      | CArrayFormula fl f2 v rng => exact absurd h (by simp [cellRel])
    | inline s =>
      cases ct with
      | CString ti f2 => exact h.elim
      | CNumber n f2 => exact absurd h (by simp [cellRel])
      | CBlank f2 => exact absurd h (by simp [cellRel])
      | CFormula fl f2 v => exact absurd h (by simp [cellRel])
      | CArrayFormula fl f2 v rng => exact absurd h (by simp [cellRel])
  | CNumber n f => subst h; simp [cellXmlEquivB, cellPayloadXml]
  | CBlank f => subst h; simp [cellXmlEquivB, cellPayloadXml]
  | CFormula fl f v => subst h; simp [cellXmlEquivB, cellPayloadXml]
  | CArrayFormula fl f v rng => subst h; simp [cellXmlEquivB, cellPayloadXml]

theorem range1_split (a b n : Nat) (h1 : a ≤ b) (h2 : b ≤ a + n) :
    List.range' a n = List.range' a (b - a) ++ List.range' b (a + n - b) := by
  have h := List.range'_append a (b - a) (a + n - b) 1
  rw [one_mul, (by omega : a + (b - a) = b),
    (by omega : (a + n - b) + (b - a) = n)] at h
  exact h.symm

theorem filterMap_range_sub {α : Type} (f : Nat → Option α) (a n A N : Nat)
    (hA : A ≤ a) (hN : a + n ≤ A + N)
    (hsupp : ∀ c, (f c).isSome → a ≤ c ∧ c < a + n) :
    (List.range' A N).filterMap f = (List.range' a n).filterMap f := by
  have hs1 : List.range' A N =
      List.range' A (a - A) ++ List.range' a (A + N - a) := by
    exact range1_split A a N hA (by omega)
  have hs2 : List.range' a (A + N - a) =
      List.range' a n ++ List.range' (a + n) (A + N - (a + n)) := by
    have := range1_split a (a + n) (A + N - a) (by omega) (by omega)
    rw [(by omega : a + n - a = n)] at this
    rw [(by omega : a + (A + N - a) - (a + n) = A + N - (a + n))] at this
    exact this
  rw [hs1, hs2, List.filterMap_append, List.filterMap_append]
  have hnil1 : (List.range' A (a - A)).filterMap f = [] := by
    rw [List.filterMap_eq_nil_iff]
    intro x hx
    rw [List.mem_range'_1] at hx
    cases hfx : f x with
    | none => rfl
    | some y =>
      have := hsupp x (by rw [hfx]; rfl)
      omega
  have hnil2 : (List.range' (a + n) (A + N - (a + n))).filterMap f = [] := by
    rw [List.filterMap_eq_nil_iff]
    intro x hx
    rw [List.mem_range'_1] at hx
    cases hfx : f x with
    | none => rfl
    | some y =>
      have := hsupp x (by rw [hfx]; rfl)
      omega
  rw [hnil1, hnil2]
  simp

theorem filterMap_range_congr {α : Type} (f : Nat → Option α) (a n A N : Nat)
    (hsupp1 : ∀ c, (f c).isSome → a ≤ c ∧ c < a + n)
    (hsupp2 : ∀ c, (f c).isSome → A ≤ c ∧ c < A + N) :
    (List.range' A N).filterMap f = (List.range' a n).filterMap f := by
  have hull1 := filterMap_range_sub f a n (min a A) (max (a + n) (A + N) - min a A)
    (by omega) (by omega) hsupp1
  have hull2 := filterMap_range_sub f A N (min a A) (max (a + n) (A + N) - min a A)
    (by omega) (by omega) hsupp2
  rw [← hull1, ← hull2]

theorem write_cell_congr (B B' : Worksheet) (r c : Nat) (cell : Cell)
    (hsr : B'.set_rows = B.set_rows) (hcf : B'.col_formats = B.col_formats) :
    _write_cell B' r c cell = _write_cell B r c cell := by
  unfold _write_cell
  rw [hsr, hcf]

theorem write_cell_no_overrides (ws : Worksheet) (r c : Nat) (cell : Cell)
    (hsr : ws.set_rows = []) (hcf : ws.col_formats = []) :
    _write_cell ws r c cell =
      .cellEvent (xl_rowcol_to_cell r c) (cellFormat cell) (cellPayloadXml cell) := by
  unfold _write_cell
  rw [hsr, hcf]
  cases cell with
  | CString si f =>
    cases si with
    | shared i => cases f <;> simp [alistGet_nil, cellFormat, cellPayloadXml]
    | inline s =>
      cases f <;>
        simp [alistGet_nil, cellFormat, cellPayloadXml, inlineEncodingOf]
  | CNumber n f => cases f <;> simp [alistGet_nil, cellFormat, cellPayloadXml]
  | CBlank f => cases f <;> simp [alistGet_nil, cellFormat, cellPayloadXml]
  | CFormula fl f v => cases f <;> simp [alistGet_nil, cellFormat, cellPayloadXml]
  | CArrayFormula fl f v rng =>
    cases f <;> simp [alistGet_nil, cellFormat, cellPayloadXml]

theorem emitRowCells_stable (B B' : Worksheet) (row cmin cmax cmin' cmax' : Nat)
    (h1 : B.dim_colmin = some cmin) (h2 : B.dim_colmax = some cmax)
    (h1' : B'.dim_colmin = some cmin') (h2' : B'.dim_colmax = some cmax')
    (htab : tableGet B'.table row = tableGet B.table row)
    (hsr : B'.set_rows = B.set_rows) (hcf : B'.col_formats = B.col_formats)
    (hsupp : ∀ c, (colGet (tableGet B.table row) c).isSome → cmin ≤ c ∧ c ≤ cmax)
    (hsupp' : ∀ c, (colGet (tableGet B.table row) c).isSome →
      cmin' ≤ c ∧ c ≤ cmax') :
    emitRowCells B' row = emitRowCells B row := by
  have hf : (fun c => (colGet (tableGet B'.table row) c).map
        (fun cell => _write_cell B' row c cell)) =
      (fun c => (colGet (tableGet B.table row) c).map
        (fun cell => _write_cell B row c cell)) := by
    funext c
    rw [htab]
    cases hc : colGet (tableGet B.table row) c with
    | none => rfl
    | some cell => simp [write_cell_congr B B' row c cell hsr hcf]
  simp only [emitRowCells, h1, h2, h1', h2']
  rw [hf]
  apply filterMap_range_congr
  · intro c hcs
    have hcs2 : (colGet (tableGet B.table row) c).isSome := by
      cases hc : colGet (tableGet B.table row) c with
      | none => rw [hc] at hcs; cases hcs
      | some cell => rfl
    have := hsupp c hcs2
    omega
  · intro c hcs
    have hcs2 : (colGet (tableGet B.table row) c).isSome := by
      cases hc : colGet (tableGet B.table row) c with
      | none => rw [hc] at hcs; cases hcs
      | some cell => rfl
    have := hsupp' c hcs2
    omega

theorem flushRowEvents_simple (ws : Worksheet) (row : Nat)
    (hsr : ws.set_rows = []) (hcm : ws.comments = []) :
    flushRowEvents ws row =
      if tableGet ws.table row ≠ [] then
        XmlEvent.rowStart row none none :: emitRowCells ws row ++ [XmlEvent.rowEnd]
      else [] := by
  unfold flushRowEvents
  rw [hsr, hcm]
  by_cases ht : tableGet ws.table row = [] <;>
    simp [alistGet_nil, _write_row_event, ht]

theorem flushRowEvents_empty (ws : Worksheet) (row : Nat)
    (hsr : ws.set_rows = []) (hcm : ws.comments = [])
    (htab : tableGet ws.table row = []) : flushRowEvents ws row = [] := by
  rw [flushRowEvents_simple ws row hsr hcm, htab]
  simp

theorem flushRowEvents_stable (B B' : Worksheet)
    (row cmin cmax cmin' cmax' : Nat)
    (h1 : B.dim_colmin = some cmin) (h2 : B.dim_colmax = some cmax)
    (h1' : B'.dim_colmin = some cmin') (h2' : B'.dim_colmax = some cmax')
    (htab : tableGet B'.table row = tableGet B.table row)
    (hsr : B'.set_rows = B.set_rows) (hcm : B'.comments = B.comments)
    (hcf : B'.col_formats = B.col_formats)
    (hsupp : ∀ c, (colGet (tableGet B.table row) c).isSome → cmin ≤ c ∧ c ≤ cmax)
    (hsupp' : ∀ c, (colGet (tableGet B.table row) c).isSome →
      cmin' ≤ c ∧ c ≤ cmax') :
    flushRowEvents B' row = flushRowEvents B row := by
  unfold flushRowEvents
  rw [htab, hsr, hcm,
    emitRowCells_stable B B' row cmin cmax cmin' cmax' h1 h2 h1' h2' htab hsr hcf
      hsupp hsupp']

theorem flushedEvents_stable (B B' : Worksheet)
    (P rmin cmin cmax cmin' cmax' : Nat)
    (hr : B.dim_rowmin = some rmin) (hr' : B'.dim_rowmin = some rmin)
    (h1 : B.dim_colmin = some cmin) (h2 : B.dim_colmax = some cmax)
    (h1' : B'.dim_colmin = some cmin') (h2' : B'.dim_colmax = some cmax')
    (htab : ∀ r, r < P → tableGet B'.table r = tableGet B.table r)
    (hsr : B'.set_rows = B.set_rows) (hcm : B'.comments = B.comments)
    (hcf : B'.col_formats = B.col_formats)
    (hsupp : ∀ r c, r < P → (colGet (tableGet B.table r) c).isSome →
      cmin ≤ c ∧ c ≤ cmax)
    (hsupp' : ∀ r c, r < P → (colGet (tableGet B.table r) c).isSome →
      cmin' ≤ c ∧ c ≤ cmax') :
    flushedEvents B' P = flushedEvents B P := by
  have hfe : ∀ ws : Worksheet, ws.dim_rowmin = some rmin →
      flushedEvents ws P =
        ((List.range' rmin (P - rmin)).map (flushRowEvents ws)).flatten := by
    intro ws h
    unfold flushedEvents
    rw [h]
  rw [hfe B hr, hfe B' hr']
  congr 1
  apply List.map_congr_left
  intro r hrm
  rw [List.mem_range'_1] at hrm
  have hrP : r < P := by omega
  exact flushRowEvents_stable B B' r cmin cmax cmin' cmax' h1 h2 h1' h2'
    (htab r hrP) hsr hcm hcf (fun c => hsupp r c hrP) (fun c => hsupp' r c hrP)

theorem forall2_colGet (tbl : List PyStr) (m1 m2 : ColMap)
    (h : List.Forall₂ (entryRel tbl) m1 m2) (c : Nat) :
    cellOptRel tbl (colGet m1 c) (colGet m2 c) :=
  forall2_alistGet tbl m1 m2 h c

theorem filterMapCells_equiv (tbl : List PyStr) (B T : Worksheet) (row : Nat)
    (mB mT : ColMap) (hrel : List.Forall₂ (entryRel tbl) mB mT)
    (hsrB : B.set_rows = []) (hcfB : B.col_formats = [])
    (hsrT : T.set_rows = []) (hcfT : T.col_formats = []) :
    ∀ (cols : List Nat) (A Z : List XmlEvent),
      eventsEquivB tbl A Z = true →
      eventsEquivB tbl
        (cols.filterMap (fun c => (colGet mB c).map
          (fun cell => _write_cell B row c cell)) ++ A)
        (cols.filterMap (fun c => (colGet mT c).map
          (fun cell => _write_cell T row c cell)) ++ Z) = true := by
  intro cols
  induction cols with
  | nil => intro A Z hAZ; simpa using hAZ
  | cons c cs ih =>
    intro A Z hAZ
    have hopt := forall2_colGet tbl mB mT hrel c
    cases hB : colGet mB c with
    | none =>
      cases hT : colGet mT c with
      | none =>
        simp only [List.filterMap_cons, hB, hT]
        exact ih A Z hAZ
      | some ct =>
        rw [hB, hT] at hopt
        exact hopt.elim
    | some cb =>
      cases hT : colGet mT c with
      | none =>
        rw [hB, hT] at hopt
        exact hopt.elim
      | some ct =>
        rw [hB, hT] at hopt
        simp only [List.filterMap_cons, hB, hT, Option.map_some']
        rw [write_cell_no_overrides B row c cb hsrB hcfB,
          write_cell_no_overrides T row c ct hsrT hcfT]
        simp only [List.cons_append, eventsEquivB, Bool.and_eq_true]
        refine ⟨?_, ih A Z hAZ⟩
        simp only [eventEquivB, Bool.and_eq_true]
        refine ⟨⟨by simp, ?_⟩, cellRel_payload tbl cb ct hopt⟩
        rw [cellRel_format tbl cb ct hopt]
        simp

theorem forall2_nil_right (tbl : List PyStr) (m2 : ColMap)
    (h : List.Forall₂ (entryRel tbl) [] m2) : m2 = [] := by
  cases h
  rfl

theorem flushRowEvents_equiv (tbl : List PyStr) (B T : Worksheet) (row : Nat)
    (hsrB : B.set_rows = []) (hcmB : B.comments = [])
    (hcfB : B.col_formats = [])
    (hsrT : T.set_rows = []) (hcmT : T.comments = [])
    (hcfT : T.col_formats = [])
    (hdc1 : B.dim_colmin = T.dim_colmin) (hdc2 : B.dim_colmax = T.dim_colmax)
    (hrel : List.Forall₂ (entryRel tbl)
      (tableGet B.table row) (tableGet T.table row)) :
    ∀ A Z, eventsEquivB tbl A Z = true →
      eventsEquivB tbl (flushRowEvents B row ++ A)
        (flushRowEvents T row ++ Z) = true := by
  intro A Z hAZ
  rw [flushRowEvents_simple B row hsrB hcmB,
    flushRowEvents_simple T row hsrT hcmT]
  by_cases ht : tableGet B.table row = []
  · have ht2 : tableGet T.table row = [] := by
      rw [ht] at hrel
      exact forall2_nil_right tbl _ hrel
    rw [ht, ht2]
    simpa using hAZ
  · have ht2 : tableGet T.table row ≠ [] :=
      (forall2_ne_nil tbl _ _ hrel).mp ht
    rw [if_pos ht, if_pos ht2]
    simp only [List.cons_append, List.append_assoc, eventsEquivB,
      Bool.and_eq_true]
    refine ⟨by simp [eventEquivB], ?_⟩
    have hAZ2 : eventsEquivB tbl (XmlEvent.rowEnd :: A)
        (XmlEvent.rowEnd :: Z) = true := by
      simpa [eventsEquivB, eventEquivB] using hAZ
    cases hc1 : B.dim_colmin with
    | none =>
      have hc1' : T.dim_colmin = none := by rw [← hdc1, hc1]
      simp only [emitRowCells, hc1, hc1']
      simpa [eventsEquivB, eventEquivB] using hAZ
    | some cmin =>
      have hc1' : T.dim_colmin = some cmin := by rw [← hdc1, hc1]
      cases hc2 : B.dim_colmax with
      | none =>
        have hc2' : T.dim_colmax = none := by rw [← hdc2, hc2]
        simp only [emitRowCells, hc1, hc1', hc2, hc2']
        simpa [eventsEquivB, eventEquivB] using hAZ
      | some cmax =>
        have hc2' : T.dim_colmax = some cmax := by rw [← hdc2, hc2]
        simp only [emitRowCells, hc1, hc1', hc2, hc2']
        have := filterMapCells_equiv tbl B T row _ _ hrel hsrB hcfB hsrT hcfT
          (List.range' cmin (cmax + 1 - cmin)) (XmlEvent.rowEnd :: A)
          (XmlEvent.rowEnd :: Z) hAZ2
        simpa using this

theorem eventsEquivB_wre_span (tbl : List PyStr) (r : Nat)
    (sp : Option (Nat × Nat)) (pr : Option RowProps) (b : Bool)
    (A Z : List XmlEvent) :
    eventsEquivB tbl (_write_row_event r sp pr b :: A) Z =
      eventsEquivB tbl (_write_row_event r none pr b :: A) Z := by
  cases b with
  | false =>
    cases Z with
    | nil => rfl
    | cons y ys =>
      have h : eventEquivB tbl (XmlEvent.rowStart r sp pr) y =
          eventEquivB tbl (XmlEvent.rowStart r none pr) y := by
        cases y <;> rfl
      show (eventEquivB tbl (XmlEvent.rowStart r sp pr) y &&
          eventsEquivB tbl A ys) =
        (eventEquivB tbl (XmlEvent.rowStart r none pr) y &&
          eventsEquivB tbl A ys)
      rw [h]
  | true =>
    cases Z with
    | nil => rfl
    | cons y ys =>
      have h : eventEquivB tbl (XmlEvent.emptyRow r sp pr) y =
          eventEquivB tbl (XmlEvent.emptyRow r none pr) y := by
        cases y <;> rfl
      show (eventEquivB tbl (XmlEvent.emptyRow r sp pr) y &&
          eventsEquivB tbl A ys) =
        (eventEquivB tbl (XmlEvent.emptyRow r none pr) y &&
          eventsEquivB tbl A ys)
      rw [h]

theorem eventsEquivB_rowEvents (tbl : List PyStr) (ws : Worksheet)
    (spans : List (Nat × (Nat × Nat))) (r : Nat) (A Z : List XmlEvent) :
    eventsEquivB tbl (rowEventsBuffered ws spans r ++ A) Z =
      eventsEquivB tbl (flushRowEvents ws r ++ A) Z := by
  unfold rowEventsBuffered flushRowEvents
  by_cases hcond : ((alistGet ws.set_rows r).isSome ∨
      (alistGet ws.comments r).isSome ∨ tableGet ws.table r ≠ [])
  · rw [if_pos hcond, if_pos hcond]
    by_cases ht : tableGet ws.table r ≠ []
    · rw [if_pos ht, if_pos ht]
      simp only [List.cons_append]
      exact eventsEquivB_wre_span tbl r _ _ false _ Z
    · rw [if_neg ht, if_neg ht]
      simp only [List.singleton_append]
      exact eventsEquivB_wre_span tbl r _ _ true A Z
  · rw [if_neg hcond, if_neg hcond]

theorem eventsEquivB_append_congr (tbl : List PyStr) (X : List XmlEvent) :
    ∀ (A A' : List XmlEvent), (∀ Z', eventsEquivB tbl A Z' =
      eventsEquivB tbl A' Z') →
      ∀ Z, eventsEquivB tbl (X ++ A) Z = eventsEquivB tbl (X ++ A') Z := by
  induction X with
  | nil => intro A A' h Z; simpa using h Z
  | cons x xs ih =>
    intro A A' h Z
    cases Z with
    | nil => rfl
    | cons y ys =>
      simp only [List.cons_append, eventsEquivB]
      congr 1
      exact ih A A' h ys

theorem eventsEquivB_rowsLoop (tbl : List PyStr) (ws : Worksheet)
    (spans : List (Nat × (Nat × Nat))) :
    ∀ (rows : List Nat) (A Z : List XmlEvent),
      eventsEquivB tbl ((rows.map (rowEventsBuffered ws spans)).flatten ++ A) Z =
        eventsEquivB tbl ((rows.map (flushRowEvents ws)).flatten ++ A) Z := by
  intro rows
  induction rows with
  | nil => intro A Z; rfl
  | cons r rs ih =>
    intro A Z
    simp only [List.map_cons, List.flatten_cons, List.append_assoc]
    rw [eventsEquivB_rowEvents tbl ws spans r _ Z]
    exact eventsEquivB_append_congr tbl (flushRowEvents ws r) _ _
      (fun Z' => ih A Z') Z
theorem check_dimensions_ok_w (ws : Worksheet) (row col : Nat)
    (hr : row < xls_rowmax) (hc : col < xls_colmax)
    (hprev : ws.optimization = false ∨ ws.previous_row ≤ row) :
    _check_dimensions ws row col false false = (0, widenW ws row col) := by
  rw [check_dimensions_ok ws row col hr hc hprev]
  rfl

theorem write_number_buff (w : Worksheet) (r c : Nat) (n : ℚ) (f : Option Nat)
    (hopt : w.optimization = false) (hr : r < xls_rowmax) (hc : c < xls_colmax) :
    write_number w r c n f = (0, buffStore w r c [] (.CNumber n f)) := by
  simp only [write_number, check_dimensions_ok_w w r c hr hc (Or.inl hopt)]
  rw [if_neg (by norm_num)]
  simp only [widenW, hopt, Bool.false_eq_true, false_and, if_false, buffStore]
  simp

theorem write_number_stream (w : Worksheet) (r c : Nat) (n : ℚ) (f : Option Nat)
    (hopt : w.optimization = true) (hp : w.previous_row ≤ r)
    (hr : r < xls_rowmax) (hc : c < xls_colmax) :
    write_number w r c n f = (0, streamStore w r c (.CNumber n f)) := by
  simp only [write_number, check_dimensions_ok_w w r c hr hc (Or.inr hp)]
  rw [if_neg (by norm_num)]
  simp only [streamStore, widenW, hopt, true_and, gt_iff_lt]

theorem write_blank_buff (w : Worksheet) (r c : Nat) (f0 : Nat)
    (hopt : w.optimization = false) (hr : r < xls_rowmax) (hc : c < xls_colmax) :
    write_blank w r c (some f0) = (0, buffStore w r c [] (.CBlank (some f0))) := by
  simp only [write_blank, check_dimensions_ok_w w r c hr hc (Or.inl hopt)]
  rw [if_neg (by norm_num)]
  simp only [widenW, hopt, Bool.false_eq_true, false_and, if_false, buffStore]
  simp

theorem write_blank_stream (w : Worksheet) (r c : Nat) (f0 : Nat)
    (hopt : w.optimization = true) (hp : w.previous_row ≤ r)
    (hr : r < xls_rowmax) (hc : c < xls_colmax) :
    write_blank w r c (some f0) = (0, streamStore w r c (.CBlank (some f0))) := by
  simp only [write_blank, check_dimensions_ok_w w r c hr hc (Or.inr hp)]
  rw [if_neg (by norm_num)]
  simp only [streamStore, widenW, hopt, true_and, gt_iff_lt]

theorem write_datetime_buff (w : Worksheet) (r c : Nat) (d : DTObj)
    (f : Option Nat) (hopt : w.optimization = false)
    (hr : r < xls_rowmax) (hc : c < xls_colmax) :
    write_datetime w r c d f =
      (0, buffStore w r c [] (.CNumber (convert_date_time w.date_1904 d) f)) := by
  simp only [write_datetime, check_dimensions_ok_w w r c hr hc (Or.inl hopt)]
  rw [if_neg (by norm_num)]
  simp only [widenW, hopt, Bool.false_eq_true, false_and, if_false, buffStore]
  simp

theorem write_datetime_stream (w : Worksheet) (r c : Nat) (d : DTObj)
    (f : Option Nat) (hopt : w.optimization = true) (hp : w.previous_row ≤ r)
    (hr : r < xls_rowmax) (hc : c < xls_colmax) :
    write_datetime w r c d f =
      (0, streamStore w r c (.CNumber (convert_date_time w.date_1904 d) f)) := by
  simp only [write_datetime, check_dimensions_ok_w w r c hr hc (Or.inr hp)]
  rw [if_neg (by norm_num)]
  simp only [streamStore, widenW, hopt, true_and, gt_iff_lt]
  by_cases hlt : w.previous_row < r
  · simp only [if_pos hlt]
    rfl
  · simp only [if_neg hlt]

theorem write_string_buff (w : Worksheet) (r c : Nat) (s : PyStr)
    (f : Option Nat) (hopt : w.optimization = false)
    (hr : r < xls_rowmax) (hc : c < xls_colmax) :
    ∃ ext, (getSharedStringIndex w.strTable
        (if s.length > xls_strmax then s.take xls_strmax else s)).2 =
          w.strTable ++ ext ∧
      write_string w r c s f =
        ((if s.length > xls_strmax then -2 else 0 : Int),
          buffStore w r c ext (.CString (.shared (getSharedStringIndex w.strTable
            (if s.length > xls_strmax then s.take xls_strmax else s)).1) f)) := by
  obtain ⟨ext, hext⟩ : ∃ ext, (getSharedStringIndex w.strTable
      (if s.length > xls_strmax then s.take xls_strmax else s)).2 =
        w.strTable ++ ext := by
    unfold getSharedStringIndex
    cases w.strTable.findIdx? (fun t => t ==
        (if s.length > xls_strmax then s.take xls_strmax else s)) with
    | some i => exact ⟨[], by simp⟩
    | none => exact ⟨[(if s.length > xls_strmax then s.take xls_strmax else s)], rfl⟩
  refine ⟨ext, hext, ?_⟩
  simp only [write_string, check_dimensions_ok_w w r c hr hc (Or.inl hopt)]
  rw [if_neg (by norm_num)]
  simp only [widenW, hopt, Bool.false_eq_true, false_and, if_false,
    eq_self_iff_true, if_true, buffStore]
  rw [hext]

theorem write_string_stream (w : Worksheet) (r c : Nat) (s : PyStr)
    (f : Option Nat) (hopt : w.optimization = true) (hp : w.previous_row ≤ r)
    (hr : r < xls_rowmax) (hc : c < xls_colmax) :
    write_string w r c s f =
      ((if s.length > xls_strmax then -2 else 0 : Int),
        streamStore w r c (.CString (.inline
          (if s.length > xls_strmax then s.take xls_strmax else s)) f)) := by
  simp only [write_string, check_dimensions_ok_w w r c hr hc (Or.inr hp)]
  rw [if_neg (by norm_num)]
  simp only [streamStore, widenW, hopt, Bool.true_eq_false, if_false,
    true_and, gt_iff_lt]

theorem rangePairs_single (r c : Nat) : rangePairs r c r c = [(r, c)] := by
  simp [rangePairs, List.range']

theorem write_formula_plain_buff (w : Worksheet) (r c : Nat) (fl : PyStr)
    (f : Option Nat) (v : PyVal) (hopt : w.optimization = false)
    (hr : r < xls_rowmax) (hc : c < xls_colmax)
    (hnb : ¬(fl.head? = some '\x7b' ∧ fl.getLast? = some '\x7d')) :
    write_formula w r c fl f v =
      (0, buffStore w r c [] (.CFormula
        (if fl.head? = some '=' then fl.dropWhile (fun ch => ch == '=') else fl)
        f v)) := by
  simp only [write_formula, check_dimensions_ok_w w r c hr hc (Or.inl hopt)]
  rw [if_neg (by norm_num)]
  rw [if_neg hnb]
  simp only [widenW, hopt, Bool.false_eq_true, false_and, if_false, buffStore]
  simp

theorem write_formula_plain_stream (w : Worksheet) (r c : Nat) (fl : PyStr)
    (f : Option Nat) (v : PyVal) (hopt : w.optimization = true)
    (hp : w.previous_row ≤ r) (hr : r < xls_rowmax) (hc : c < xls_colmax)
    (hnb : ¬(fl.head? = some '\x7b' ∧ fl.getLast? = some '\x7d')) :
    write_formula w r c fl f v =
      (0, streamStore w r c (.CFormula
        (if fl.head? = some '=' then fl.dropWhile (fun ch => ch == '=') else fl)
        f v)) := by
  simp only [write_formula, check_dimensions_ok_w w r c hr hc (Or.inr hp)]
  rw [if_neg (by norm_num)]
  rw [if_neg hnb]
  simp only [streamStore, widenW, hopt, true_and, gt_iff_lt]

theorem write_formula_brace_buff (w : Worksheet) (r c : Nat) (fl : PyStr)
    (f : Option Nat) (v : PyVal) (hopt : w.optimization = false)
    (hr : r < xls_rowmax) (hc : c < xls_colmax)
    (hbr : fl.head? = some '\x7b' ∧ fl.getLast? = some '\x7d') :
    write_formula w r c fl f v =
      (0, buffStore w r c [] (.CArrayFormula
        (let f1 := if fl.head? = some '\x7b' then fl.drop 1 else fl
         let f2 := if f1.head? = some '=' then f1.drop 1 else f1
         if f2.getLast? = some '\x7d' then f2.dropLast else f2)
        f v (xl_rowcol_to_cell r c))) := by
  simp only [write_formula, check_dimensions_ok_w w r c hr hc (Or.inl hopt)]
  rw [if_neg (by norm_num)]
  rw [if_pos hbr]
  rw [write_array_formula]
  simp only [gt_iff_lt, lt_self_iff_false, if_false]
  have hchk2 : _check_dimensions (widenW w r c) r c false false =
      (0, widenW w r c) := by
    rw [check_dimensions_ok_w (widenW w r c) r c hr hc (Or.inl (by simpa [widenW] using hopt))]
    simp [widenW, dimLower_idem, dimUpper_idem]
  simp only [hchk2]
  rw [if_neg (by norm_num)]
  simp only [true_and, if_true]
  simp only [widenW, hopt, Bool.false_eq_true, false_and, if_false,
    eq_self_iff_true, if_true, rangePairs_single, buffStore]
  simp [List.foldl]

theorem write_formula_brace_stream (w : Worksheet) (r c : Nat) (fl : PyStr)
    (f : Option Nat) (v : PyVal) (hopt : w.optimization = true)
    (hp : w.previous_row ≤ r) (hr : r < xls_rowmax) (hc : c < xls_colmax)
    (hbr : fl.head? = some '\x7b' ∧ fl.getLast? = some '\x7d') :
    write_formula w r c fl f v =
      (0, streamStore w r c (.CArrayFormula
        (let f1 := if fl.head? = some '\x7b' then fl.drop 1 else fl
         let f2 := if f1.head? = some '=' then f1.drop 1 else f1
         if f2.getLast? = some '\x7d' then f2.dropLast else f2)
        f v (xl_rowcol_to_cell r c))) := by
  simp only [write_formula, check_dimensions_ok_w w r c hr hc (Or.inr hp)]
  rw [if_neg (by norm_num)]
  rw [if_pos hbr]
  rw [write_array_formula]
  simp only [gt_iff_lt, lt_self_iff_false, if_false]
  have hchk2 : _check_dimensions (widenW w r c) r c false false =
      (0, widenW w r c) := by
    rw [check_dimensions_ok_w (widenW w r c) r c hr hc
      (Or.inr (by simpa [widenW] using hp))]
    simp [widenW, dimLower_idem, dimUpper_idem]
  simp only [hchk2]
  rw [if_neg (by norm_num)]
  simp only [true_and, if_true]
  simp only [streamStore, widenW, hopt, Bool.true_eq_false, if_false,
    true_and, gt_iff_lt]
  by_cases hlt : w.previous_row < r
  · simp only [if_pos hlt]
    rfl
  · simp only [if_neg hlt]
    rfl

theorem write_url_err2 (w : Worksheet) (r c : Nat) (u : PyStr) (f : Option Nat)
    (s0 t : Option PyStr) (hr : r < xls_rowmax) (hc : c < xls_colmax)
    (hpass : w.optimization = false ∨ w.previous_row ≤ r)
    (h2 : (urlMunge u s0).2.2.length > xls_strmax) :
    write_url w r c u f s0 t = (-2, widenW w r c) := by
  simp only [write_url, check_dimensions_ok_w w r c hr hc hpass]
  rw [if_neg (by norm_num)]
  rw [if_pos h2]

theorem write_url_err3 (w : Worksheet) (r c : Nat) (u : PyStr) (f : Option Nat)
    (s0 t : Option PyStr) (hr : r < xls_rowmax) (hc : c < xls_colmax)
    (hpass : w.optimization = false ∨ w.previous_row ≤ r)
    (h2 : ¬(urlMunge u s0).2.2.length > xls_strmax)
    (h3 : (urlFinalize (urlMunge u s0).2.1 (urlMunge u s0).1
      (urlMunge u s0).2.2).1.length > 255) :
    write_url w r c u f s0 t = (-3, widenW w r c) := by
  simp only [write_url, check_dimensions_ok_w w r c hr hc hpass]
  rw [if_neg (by norm_num)]
  rw [if_neg h2]
  rw [if_pos h3]

theorem write_url_err5 (w : Worksheet) (r c : Nat) (u : PyStr) (f : Option Nat)
    (s0 t : Option PyStr) (hr : r < xls_rowmax) (hc : c < xls_colmax)
    (hpass : w.optimization = false ∨ w.previous_row ≤ r)
    (h2 : ¬(urlMunge u s0).2.2.length > xls_strmax)
    (h3 : ¬(urlFinalize (urlMunge u s0).2.1 (urlMunge u s0).1
      (urlMunge u s0).2.2).1.length > 255)
    (h5 : w.hlink_count + 1 > 65530) :
    write_url w r c u f s0 t =
      (-5, { widenW w r c with hlink_count := w.hlink_count + 1 }) := by
  simp only [write_url, check_dimensions_ok_w w r c hr hc hpass]
  rw [if_neg (by norm_num)]
  rw [if_neg h2]
  rw [if_neg h3]
  split
  · rfl
  · rename_i hcond
    exact absurd h5 hcond

theorem write_url_success (w : Worksheet) (r c : Nat) (u : PyStr)
    (f : Option Nat) (s0 t : Option PyStr)
    (hr : r < xls_rowmax) (hc : c < xls_colmax)
    (hpass : w.optimization = false ∨ w.previous_row ≤ r)
    (h2 : ¬(urlMunge u s0).2.2.length > xls_strmax)
    (h3 : ¬(urlFinalize (urlMunge u s0).2.1 (urlMunge u s0).1
      (urlMunge u s0).2.2).1.length > 255)
    (h5 : ¬w.hlink_count + 1 > 65530) :
    write_url w r c u f s0 t =
      (0,
       { (write_string
           (if w.optimization = true ∧ w.previous_row < r then
             _write_single_row
               { widenW w r c with hlink_count := w.hlink_count + 1 } r
            else { widenW w r c with hlink_count := w.hlink_count + 1 })
           r c (urlMunge u s0).2.2 f).2 with
         hyperlinks :=
           ((write_string
               (if w.optimization = true ∧ w.previous_row < r then
                 _write_single_row
                   { widenW w r c with hlink_count := w.hlink_count + 1 } r
                else { widenW w r c with hlink_count := w.hlink_count + 1 })
               r c (urlMunge u s0).2.2 f).2.hyperlinks.filter
             (fun e => e.1 ≠ (r, c))) ++
           [((r, c),
             ⟨(urlFinalize (urlMunge u s0).2.1 (urlMunge u s0).1
                 (urlMunge u s0).2.2).2.2,
              (urlFinalize (urlMunge u s0).2.1 (urlMunge u s0).1
                 (urlMunge u s0).2.2).1,
              (urlFinalize (urlMunge u s0).2.1 (urlMunge u s0).1
                 (urlMunge u s0).2.2).2.1,
              t⟩)] }) := by
  simp only [write_url, check_dimensions_ok_w w r c hr hc hpass]
  rw [if_neg (by norm_num)]
  rw [if_neg h2]
  rw [if_neg h3]
  split
  · rename_i hcond
    exact absurd hcond h5
  · rfl

theorem applyWrite_oob (ws : Worksheet) (op : WriteOp)
    (hoob : xls_rowmax ≤ op.row ∨ xls_colmax ≤ op.col) :
    (applyWrite ws op).2 = ws := by
  cases op with
  | wstring r c s f =>
    simp only [WriteOp.row, WriteOp.col] at hoob
    simp only [applyWrite, write_string,
      check_dimensions_oob ws r c false false hoob]
    rw [if_pos (by norm_num)]
  | wnumber r c n f =>
    simp only [WriteOp.row, WriteOp.col] at hoob
    simp only [applyWrite, write_number,
      check_dimensions_oob ws r c false false hoob]
    rw [if_pos (by norm_num)]
  | wblank r c f =>
    cases f with
    | none => rfl
    | some f0 =>
      simp only [WriteOp.row, WriteOp.col] at hoob
      simp only [applyWrite, write_blank,
        check_dimensions_oob ws r c false false hoob]
      rw [if_pos (by norm_num)]
  | wformula r c fl f v =>
    simp only [WriteOp.row, WriteOp.col] at hoob
    simp only [applyWrite, write_formula,
      check_dimensions_oob ws r c false false hoob]
    rw [if_pos (by norm_num)]
  | wdatetime r c d f =>
    simp only [WriteOp.row, WriteOp.col] at hoob
    simp only [applyWrite, write_datetime,
      check_dimensions_oob ws r c false false hoob]
    rw [if_pos (by norm_num)]
  | wurl r c u f s t =>
    simp only [WriteOp.row, WriteOp.col] at hoob
    simp only [applyWrite, write_url,
      check_dimensions_oob ws r c false false hoob]
    rw [if_pos (by norm_num)]
theorem flushRowEvents_prev (w : Worksheet) (x row : Nat) :
    flushRowEvents { w with previous_row := x } row = flushRowEvents w row := rfl

theorem flatten_of_all_nil {α : Type} (L : List (List α))
    (h : ∀ l ∈ L, l = []) : L.flatten = [] := by
  induction L with
  | nil => rfl
  | cons l ls ih =>
    rw [List.flatten_cons, h l (by simp), ih (fun l2 hl2 => h l2 (by simp [hl2]))]
    rfl

theorem flushedEvents_of_empty (ws : Worksheet) (P : Nat)
    (htab : ∀ r, tableGet ws.table r = [])
    (hsr : ws.set_rows = []) (hcm : ws.comments = []) :
    flushedEvents ws P = [] := by
  unfold flushedEvents
  cases hd : ws.dim_rowmin with
  | none => rfl
  | some rmin =>
    apply flatten_of_all_nil
    intro l hl
    rw [List.mem_map] at hl
    obtain ⟨r, _, hr⟩ := hl
    rw [← hr]
    exact flushRowEvents_empty ws r hsr hcm (htab r)

theorem flushedEvents_some (ws : Worksheet) (P rmin : Nat)
    (h : ws.dim_rowmin = some rmin) :
    flushedEvents ws P =
      ((List.range' rmin (P - rmin)).map (flushRowEvents ws)).flatten := by
  unfold flushedEvents
  rw [h]

theorem tableGet_nil (r : Nat) : tableGet ([] : Table) r = [] := rfl

theorem dimsCover_degenerate (ws : Worksheet) (hcov : dimsCover ws)
    (hnot : ws.dim_rowmin = none ∨ ws.dim_rowmax = none ∨
      ws.dim_colmin = none ∨ ws.dim_colmax = none) : ws.table = [] := by
  unfold dimsCover at hcov
  cases h1 : ws.dim_rowmin with
  | none => rw [h1] at hcov; exact hcov
  | some a =>
    cases h2 : ws.dim_rowmax with
    | none => rw [h1, h2] at hcov; exact hcov
    | some b =>
      cases h3 : ws.dim_colmin with
      | none => rw [h1, h2, h3] at hcov; exact hcov
      | some d =>
        cases h4 : ws.dim_colmax with
        | none => rw [h1, h2, h3, h4] at hcov; exact hcov
        | some e => simp [h1, h2, h3, h4] at hnot

theorem dimsCover_bounds (ws : Worksheet) (rmin rmax cmin cmax : Nat)
    (hcov : dimsCover ws)
    (h1 : ws.dim_rowmin = some rmin) (h2 : ws.dim_rowmax = some rmax)
    (h3 : ws.dim_colmin = some cmin) (h4 : ws.dim_colmax = some cmax) :
    ∀ r c, (colGet (tableGet ws.table r) c).isSome →
      rmin ≤ r ∧ r ≤ rmax ∧ cmin ≤ c ∧ c ≤ cmax := by
  unfold dimsCover at hcov
  rw [h1, h2, h3, h4] at hcov
  exact hcov

theorem simInv_mono_M (B T : Worksheet) (P M M' : Nat) (h : SimInv B T P M)
    (hM : M ≤ M') : SimInv B T P M' :=
  { h with
    pm := le_trans h.pm hM
    rminM := fun x hx => le_trans (h.rminM x hx) hM
    rmaxM := fun x hx => le_trans (h.rmaxM x hx) hM }

theorem widen_step (B T : Worksheet) (P M rw cw : Nat) (h : SimInv B T P M)
    (hM : M ≤ rw) :
    SimInv (widenW B rw cw) (widenW T rw cw) P rw := by
  obtain ⟨y1, hy1, hy1a, hy1b, hy1c⟩ := dimLower_spec B.dim_rowmin rw
  obtain ⟨y2, hy2, hy2a, hy2b, hy2c⟩ := dimUpper_spec B.dim_rowmax rw
  obtain ⟨z1, hz1, hz1a, hz1b, hz1c⟩ := dimLower_spec B.dim_colmin cw
  obtain ⟨z2, hz2, hz2a, hz2b, hz2c⟩ := dimUpper_spec B.dim_colmax cw
  have hpm := h.pm
  refine
    { bopt := by simpa [widenW] using h.bopt
      topt := by simpa [widenW] using h.topt
      d19 := by simpa [widenW] using h.d19
      drmin := by simp [widenW, h.drmin]
      drmax := by simp [widenW, h.drmax]
      dcmin := by simp [widenW, h.dcmin]
      dcmax := by simp [widenW, h.dcmax]
      bsr := by simpa [widenW] using h.bsr
      tsr := by simpa [widenW] using h.tsr
      bcm := by simpa [widenW] using h.bcm
      tcm := by simpa [widenW] using h.tcm
      bcf := by simpa [widenW] using h.bcf
      tcf := by simpa [widenW] using h.tcf
      hcnt := by simpa [widenW] using h.hcnt
      bso := by simpa [widenW] using h.bso
      prev := by simpa [widenW] using h.prev
      pm := le_trans h.pm hM
      rminM := ?_
      rmaxM := ?_
      live := by simpa [widenW] using h.live
      tflushed := by simpa [widenW] using h.tflushed
      bfuture := by simpa [widenW] using h.bfuture
      cover := ?_
      flux := ?_ }
  · intro x hx
    simp only [widenW] at hx
    rw [hy1] at hx
    injection hx with hx
    omega
  · intro x hx
    simp only [widenW] at hx
    rw [hy2] at hx
    injection hx with hx
    subst hx
    exact hy2c rw (le_refl rw) (fun z hz => le_trans (h.rmaxM z hz) hM)
  · -- cover
    have hallsome : ∀ r c,
        (colGet (tableGet (widenW B rw cw).table r) c).isSome →
        y1 ≤ r ∧ r ≤ y2 ∧ z1 ≤ c ∧ c ≤ z2 := by
      intro r c hrc
      simp only [widenW] at hrc
      by_cases hdall : B.dim_rowmin = none ∨ B.dim_rowmax = none ∨
          B.dim_colmin = none ∨ B.dim_colmax = none
      · have htab := dimsCover_degenerate B h.cover hdall
        rw [htab] at hrc
        simp [tableGet_nil, colGet, alistGet_nil] at hrc
      · push_neg at hdall
        obtain ⟨hn1, hn2, hn3, hn4⟩ := hdall
        obtain ⟨rmin, hd1⟩ := Option.ne_none_iff_exists'.mp hn1
        obtain ⟨rmax, hd2⟩ := Option.ne_none_iff_exists'.mp hn2
        obtain ⟨cmin, hd3⟩ := Option.ne_none_iff_exists'.mp hn3
        obtain ⟨cmax, hd4⟩ := Option.ne_none_iff_exists'.mp hn4
        have hb := dimsCover_bounds B rmin rmax cmin cmax h.cover hd1 hd2 hd3 hd4
          r c hrc
        have e1 := hy1b rmin hd1
        have e2 := hy2b rmax hd2
        have e3 := hz1b cmin hd3
        have e4 := hz2b cmax hd4
        omega
    unfold dimsCover
    simp only [widenW, hy1, hy2, hz1, hz2]
    exact hallsome
  · -- flux
    have hfx := h.flux
    have hsoW : (widenW T rw cw).streamOut = T.streamOut := by simp [widenW]
    have hstW : (widenW B rw cw).strTable = B.strTable := by simp [widenW]
    cases hd1 : B.dim_rowmin with
    | none =>
      have hfe : flushedEvents B P = [] := by
        unfold flushedEvents
        rw [hd1]
      rw [hfe] at hfx
      have hso : T.streamOut = [] := (eventsEquivB_nil_iff _ _).mp hfx
      have hd1' : (widenW B rw cw).dim_rowmin = some y1 := by
        simp only [widenW]
        exact hy1
      rw [flushedEvents_some _ P y1 hd1']
      have hy1v : y1 = rw := hy1c hd1
      have hz : P - y1 = 0 := by omega
      rw [hz, hsoW, hso]
      rfl
    | some rmin =>
      have hrmle : rmin ≤ rw := le_trans (h.rminM rmin hd1) hM
      have hd1' : (widenW B rw cw).dim_rowmin = some rmin := by
        simp only [widenW]
        rw [hd1, dimLower_le rmin rw hrmle]
      by_cases hdall : B.dim_rowmax = none ∨ B.dim_colmin = none ∨
          B.dim_colmax = none
      · have htab := dimsCover_degenerate B h.cover (Or.inr hdall)
        have hfe : flushedEvents B P = [] :=
          flushedEvents_of_empty B P (fun r => by rw [htab]; rfl) h.bsr h.bcm
        rw [hfe] at hfx
        have hso : T.streamOut = [] := (eventsEquivB_nil_iff _ _).mp hfx
        have hfe2 : flushedEvents (widenW B rw cw) P = [] :=
          flushedEvents_of_empty _ P
            (fun r => by simp only [widenW]; rw [htab]; rfl)
            (by simpa [widenW] using h.bsr) (by simpa [widenW] using h.bcm)
        rw [hfe2, hsoW, hso, hstW]
        rfl
      · push_neg at hdall
        obtain ⟨hn2, hn3, hn4⟩ := hdall
        obtain ⟨rmax, hd2⟩ := Option.ne_none_iff_exists'.mp hn2
        obtain ⟨cmin, hd3⟩ := Option.ne_none_iff_exists'.mp hn3
        obtain ⟨cmax, hd4⟩ := Option.ne_none_iff_exists'.mp hn4
        have hcovS : ∀ r c, r < P →
            (colGet (tableGet B.table r) c).isSome →
              cmin ≤ c ∧ c ≤ cmax := by
          intro r c _ hrc
          have := dimsCover_bounds B rmin rmax cmin cmax h.cover
            hd1 hd2 hd3 hd4 r c hrc
          omega
        have hstable := flushedEvents_stable B (widenW B rw cw) P rmin
          cmin cmax z1 z2 hd1 hd1' hd3 hd4
          (by simp only [widenW]; exact hz1)
          (by simp only [widenW]; exact hz2)
          (fun r _ => by simp only [widenW])
          (by simp only [widenW]) (by simp only [widenW])
          (by simp only [widenW])
          hcovS
          (by
            intro r c hrP hrc
            have := hcovS r c hrP hrc
            have e3 := hz1b cmin hd3
            have e4 := hz2b cmax hd4
            omega)
        rw [hstable, hsoW, hstW]
        exact hfx

theorem flushedEvents_split (ws : Worksheet) (rmin P Q : Nat)
    (h : ws.dim_rowmin = some rmin) (h1 : rmin ≤ P) (h2 : P ≤ Q) :
    flushedEvents ws Q =
      flushedEvents ws P ++
        ((List.range' P (Q - P)).map (flushRowEvents ws)).flatten := by
  rw [flushedEvents_some ws Q rmin h, flushedEvents_some ws P rmin h]
  rw [range1_split rmin P (Q - rmin) h1 (by omega)]
  rw [(by omega : rmin + (Q - rmin) - P = Q - P)]
  rw [List.map_append, List.flatten_append]

theorem store_after_widen (B T : Worksheet) (P rw cw : Nat) (ext : List PyStr)
    (cb ct : Cell) (h : SimInv B T P rw)
    (hrel : cellRel (B.strTable ++ ext) cb ct)
    (hr1 : ∃ a, B.dim_rowmin = some a ∧ a ≤ rw)
    (hr2 : ∃ a, B.dim_rowmax = some a ∧ rw ≤ a)
    (hc1 : ∃ a, B.dim_colmin = some a ∧ a ≤ cw)
    (hc2 : ∃ a, B.dim_colmax = some a ∧ cw ≤ a) :
    SimInv
      { B with strTable := B.strTable ++ ext,
               table := tableSet B.table rw cw cb }
      (if T.previous_row < rw then
        { _write_single_row T rw with
          table := tableSet (_write_single_row T rw).table rw cw ct }
       else { T with table := tableSet T.table rw cw ct })
      rw rw := by
  obtain ⟨rmin, hd1, hle1⟩ := hr1
  obtain ⟨rmax, hd2, hle2⟩ := hr2
  obtain ⟨cmin, hd3, hle3⟩ := hc1
  obtain ⟨cmax, hd4, hle4⟩ := hc2
  have hprev := h.prev
  have hpm := h.pm
  have hcovB := dimsCover_bounds B rmin rmax cmin cmax h.cover hd1 hd2 hd3 hd4
  have hcover2 : dimsCover
      { B with strTable := B.strTable ++ ext,
               table := tableSet B.table rw cw cb } := by
    unfold dimsCover
    dsimp only
    rw [hd1, hd2, hd3, hd4]
    intro r c hrc
    by_cases hrrw : r = rw
    · rw [hrrw] at hrc ⊢
      rw [tableGet_set_self] at hrc
      by_cases hccw : c = cw
      · rw [hccw]
        exact ⟨hle1, hle2, hle3, hle4⟩
      · rw [colGet_set_ne _ _ _ _ hccw] at hrc
        exact hcovB rw c hrc
    · rw [tableGet_set_ne _ _ _ _ _ hrrw] at hrc
      exact hcovB r c hrc
  have hlive2 : ∀ r, rw ≤ r →
      List.Forall₂ (entryRel (B.strTable ++ ext))
        (tableGet (tableSet B.table rw cw cb) r)
        (tableGet (tableSet T.table rw cw ct) r) := by
    intro r hr
    by_cases hrrw : r = rw
    · rw [hrrw]
      rw [tableGet_set_self, tableGet_set_self]
      exact forall2_colSet _ _ _ cw cb ct hrel
        (forall2_entryRel_mono B.strTable ext _ _ (h.live rw hpm))
    · rw [tableGet_set_ne _ _ _ _ _ hrrw, tableGet_set_ne _ _ _ _ _ hrrw]
      have hb : tableGet B.table r = [] := h.bfuture r (by omega)
      have ht : tableGet T.table r = [] := by
        have := h.live r (by omega)
        rw [hb] at this
        exact forall2_nil_right _ _ this
      rw [hb, ht]
      exact List.Forall₂.nil
  have hstableP : ∀ Q, Q ≤ rw → flushedEvents
      { B with strTable := B.strTable ++ ext,
               table := tableSet B.table rw cw cb } Q =
      flushedEvents B Q := by
    intro Q hQ
    refine flushedEvents_stable B _ Q rmin cmin cmax cmin cmax
      hd1 ?_ hd3 hd4 ?_ ?_ ?_ ?_ ?_ ?_ ?_ ?_
    · dsimp only
      exact hd1
    · dsimp only
      exact hd3
    · dsimp only
      exact hd4
    · intro r hrQ
      dsimp only
      by_cases hrw2 : r = rw
      · omega
      · rw [tableGet_set_ne _ _ _ _ _ hrw2]
    · rfl
    · rfl
    · rfl
    · intro r c _ hrc
      have := hcovB r c hrc
      omega
    · intro r c _ hrc
      have := hcovB r c hrc
      omega
  by_cases hflush : T.previous_row < rw
  · -- the streaming side flushes its buffered row first
    rw [if_pos hflush]
    have hPrw : P < rw := by rw [hprev] at hflush; exact hflush
    have hT2so : (_write_single_row T rw).streamOut =
        T.streamOut ++ flushRowEvents T P := by
      simp only [_write_single_row]
      rw [flushRowEvents_prev]
      rw [hprev]
    have hT2tab : (_write_single_row T rw).table = [] := rfl
    refine
      { bopt := by simpa using h.bopt
        topt := by simpa [_write_single_row] using h.topt
        d19 := by simpa [_write_single_row] using h.d19
        drmin := by simpa [_write_single_row] using h.drmin
        drmax := by simpa [_write_single_row] using h.drmax
        dcmin := by simpa [_write_single_row] using h.dcmin
        dcmax := by simpa [_write_single_row] using h.dcmax
        bsr := by simpa using h.bsr
        tsr := by simpa [_write_single_row] using h.tsr
        bcm := by simpa using h.bcm
        tcm := by simpa [_write_single_row] using h.tcm
        bcf := by simpa using h.bcf
        tcf := by simpa [_write_single_row] using h.tcf
        hcnt := by simpa [_write_single_row] using h.hcnt
        bso := by simpa using h.bso
        prev := by simp [_write_single_row]
        pm := le_refl rw
        rminM := ?_
        rmaxM := ?_
        live := ?_
        tflushed := ?_
        bfuture := ?_
        cover := hcover2
        flux := ?_ }
    · intro x hx
      dsimp only at hx
      exact h.rminM x hx
    · intro x hx
      dsimp only at hx
      exact h.rmaxM x hx
    · -- live
      intro r hr
      dsimp only
      simp only [hT2tab]
      by_cases hrrw : r = rw
      · rw [hrrw]
        rw [tableGet_set_self, tableGet_set_self, tableGet_nil]
        have hb : tableGet B.table rw = [] := h.bfuture rw hPrw
        rw [hb]
        exact List.Forall₂.cons ⟨rfl, hrel⟩ List.Forall₂.nil
      · rw [tableGet_set_ne _ _ _ _ _ hrrw, tableGet_set_ne _ _ _ _ _ hrrw,
          tableGet_nil]
        have hb : tableGet B.table r = [] := h.bfuture r (by omega)
        rw [hb]
        exact List.Forall₂.nil
    · -- tflushed
      intro r hr
      dsimp only
      simp only [hT2tab]
      rw [tableGet_set_ne _ _ _ _ _ (by omega : r ≠ rw)]
      exact tableGet_nil r
    · -- bfuture
      intro r hr
      dsimp only
      rw [tableGet_set_ne _ _ _ _ _ (by omega : r ≠ rw)]
      exact h.bfuture r (by omega)
    · -- flux
      dsimp only
      rw [hT2so]
      by_cases hrmP : rmin ≤ P
      · -- main case: split the buffered rows at P
        rw [flushedEvents_split
          { B with strTable := B.strTable ++ ext,
                   table := tableSet B.table rw cw cb }
          rmin P rw (by dsimp only; exact hd1) hrmP (by omega)]
        rw [hstableP P (by omega)]
        have hrest : ((List.range' P (rw - P)).map (flushRowEvents
            { B with strTable := B.strTable ++ ext,
                     table := tableSet B.table rw cw cb })).flatten =
            flushRowEvents
              { B with strTable := B.strTable ++ ext,
                       table := tableSet B.table rw cw cb } P ++ [] := by
          rw [(by omega : rw - P = (rw - P - 1) + 1), List.range'_succ]
          rw [List.map_cons, List.flatten_cons]
          congr 1
          apply flatten_of_all_nil
          intro l hl
          rw [List.mem_map] at hl
          obtain ⟨r, hrm, hr⟩ := hl
          rw [List.mem_range'_1] at hrm
          rw [← hr]
          refine flushRowEvents_empty _ _ ?_ ?_ ?_
          · dsimp only
            exact h.bsr
          · dsimp only
            exact h.bcm
          · dsimp only
            rw [tableGet_set_ne _ _ _ _ _ (by omega : r ≠ rw)]
            exact h.bfuture r (by omega)
        rw [hrest, List.append_nil]
        refine eventsEquivB_append _ _ _ _ _
          (eventsEquivB_mono B.strTable ext _ _ h.flux) ?_
        have hfre := flushRowEvents_equiv (B.strTable ++ ext)
            { B with strTable := B.strTable ++ ext,
                     table := tableSet B.table rw cw cb } T P
            (by dsimp only; exact h.bsr) (by dsimp only; exact h.bcm)
            (by dsimp only; exact h.bcf) h.tsr h.tcm h.tcf
            (by dsimp only; exact h.dcmin) (by dsimp only; exact h.dcmax)
            (by
              dsimp only
              rw [tableGet_set_ne _ _ _ _ _ (by omega : P ≠ rw)]
              exact forall2_entryRel_mono B.strTable ext _ _
                (h.live P (le_refl P)))
            [] [] rfl
        simpa using hfre
      · -- degenerate: the buffer pointer sits below the whole row range
        have hBP : tableGet B.table P = [] := by
          by_contra hne
          obtain ⟨c, hcs⟩ := colMap_ne_nil_isSome _ hne
          have := hcovB P c hcs
          omega
        have hTP : tableGet T.table P = [] := by
          have := h.live P (le_refl P)
          rw [hBP] at this
          exact forall2_nil_right _ _ this
        have hfTP : flushRowEvents T P = [] :=
          flushRowEvents_empty T P h.tsr h.tcm hTP
        rw [hfTP, List.append_nil]
        have hfx := h.flux
        rw [flushedEvents_some B P rmin hd1,
          (by omega : P - rmin = 0)] at hfx
        have hso : T.streamOut = [] := (eventsEquivB_nil_iff _ _).mp hfx
        rw [hso]
        have hnil : flushedEvents
            { B with strTable := B.strTable ++ ext,
                     table := tableSet B.table rw cw cb } rw = [] := by
          rw [flushedEvents_some _ rw rmin (by dsimp only; exact hd1)]
          apply flatten_of_all_nil
          intro l hl
          rw [List.mem_map] at hl
          obtain ⟨r, hrm, hr⟩ := hl
          rw [List.mem_range'_1] at hrm
          rw [← hr]
          refine flushRowEvents_empty _ _ ?_ ?_ ?_
          · dsimp only
            exact h.bsr
          · dsimp only
            exact h.bcm
          · dsimp only
            by_cases hrw2 : r = rw
            · omega
            · rw [tableGet_set_ne _ _ _ _ _ hrw2]
              by_cases hrP2 : P < r
              · exact h.bfuture r hrP2
              · have hrP3 : r < P := by omega
                by_contra hne
                obtain ⟨c, hcs⟩ := colMap_ne_nil_isSome _ hne
                have := hcovB r c hcs
                omega
        rw [hnil]
        rfl
  · -- no flush: the write targets the buffered row itself
    rw [if_neg hflush]
    have hPrw : P = rw := by omega
    refine
      { bopt := by simpa using h.bopt
        topt := by simpa using h.topt
        d19 := by simpa using h.d19
        drmin := by simpa using h.drmin
        drmax := by simpa using h.drmax
        dcmin := by simpa using h.dcmin
        dcmax := by simpa using h.dcmax
        bsr := by simpa using h.bsr
        tsr := by simpa using h.tsr
        bcm := by simpa using h.bcm
        tcm := by simpa using h.tcm
        bcf := by simpa using h.bcf
        tcf := by simpa using h.tcf
        hcnt := by simpa using h.hcnt
        bso := by simpa using h.bso
        prev := by dsimp only; omega
        pm := le_refl rw
        rminM := ?_
        rmaxM := ?_
        live := hlive2
        tflushed := ?_
        bfuture := ?_
        cover := hcover2
        flux := ?_ }
    · intro x hx
      dsimp only at hx
      exact h.rminM x hx
    · intro x hx
      dsimp only at hx
      exact h.rmaxM x hx
    · -- tflushed
      intro r hr
      dsimp only
      rw [tableGet_set_ne _ _ _ _ _ (by omega : r ≠ rw)]
      exact h.tflushed r (by omega)
    · -- bfuture
      intro r hr
      dsimp only
      rw [tableGet_set_ne _ _ _ _ _ (by omega : r ≠ rw)]
      exact h.bfuture r (by omega)
    · -- flux
      dsimp only
      rw [hstableP rw (le_refl rw), ← hPrw]
      exact eventsEquivB_mono B.strTable ext _ _ h.flux
theorem buffStore_widen (B : Worksheet) (rw cw : Nat) (ext : List PyStr)
    (cb : Cell) :
    buffStore B rw cw ext cb =
      { widenW B rw cw with
        strTable := (widenW B rw cw).strTable ++ ext,
        table := tableSet (widenW B rw cw).table rw cw cb } := rfl

theorem streamStore_if (T : Worksheet) (rw cw : Nat) (ct : Cell) :
    streamStore T rw cw ct =
      if T.previous_row < rw then
        { _write_single_row (widenW T rw cw) rw with
          table := tableSet (_write_single_row (widenW T rw cw) rw).table
            rw cw ct }
      else
        { widenW T rw cw with
          table := tableSet (widenW T rw cw).table rw cw ct } := by
  unfold streamStore
  by_cases hc : T.previous_row < rw
  · simp only [if_pos hc]
    rfl
  · simp only [if_neg hc]
    rfl

theorem widenW_idem (w : Worksheet) (r c : Nat) :
    widenW (widenW w r c) r c = widenW w r c := by
  simp [widenW, dimLower_idem, dimUpper_idem]

theorem simInv_hlink_bump (B T : Worksheet) (P M : Nat) (h : SimInv B T P M) :
    SimInv { B with hlink_count := B.hlink_count + 1 }
      { T with hlink_count := T.hlink_count + 1 } P M :=
  { bopt := h.bopt, topt := h.topt, d19 := h.d19, drmin := h.drmin,
    drmax := h.drmax, dcmin := h.dcmin, dcmax := h.dcmax, bsr := h.bsr,
    tsr := h.tsr, bcm := h.bcm, tcm := h.tcm, bcf := h.bcf, tcf := h.tcf,
    hcnt := by dsimp only; rw [h.hcnt],
    bso := h.bso, prev := h.prev, pm := h.pm, rminM := h.rminM,
    rmaxM := h.rmaxM, live := h.live, tflushed := h.tflushed,
    bfuture := h.bfuture, cover := h.cover, flux := h.flux }

theorem simInv_hyper (B T : Worksheet) (P M : Nat)
    (hB hT : List ((Nat × Nat) × Hyperlink)) (h : SimInv B T P M) :
    SimInv { B with hyperlinks := hB } { T with hyperlinks := hT } P M :=
  { bopt := h.bopt, topt := h.topt, d19 := h.d19, drmin := h.drmin,
    drmax := h.drmax, dcmin := h.dcmin, dcmax := h.dcmax, bsr := h.bsr,
    tsr := h.tsr, bcm := h.bcm, tcm := h.tcm, bcf := h.bcf, tcf := h.tcf,
    hcnt := h.hcnt, bso := h.bso, prev := h.prev, pm := h.pm,
    rminM := h.rminM, rmaxM := h.rmaxM, live := h.live,
    tflushed := h.tflushed, bfuture := h.bfuture,
    cover := h.cover, flux := h.flux }

theorem full_store_step (B T : Worksheet) (P M rw cw : Nat) (ext : List PyStr)
    (cb ct : Cell) (h : SimInv B T P M) (hM : M ≤ rw)
    (hrel : cellRel (B.strTable ++ ext) cb ct) :
    SimInv (buffStore B rw cw ext cb) (streamStore T rw cw ct) rw rw := by
  have hw := widen_step B T P M rw cw h hM
  obtain ⟨y1, hy1, hy1a, hy1b, hy1c⟩ := dimLower_spec B.dim_rowmin rw
  obtain ⟨y2, hy2, hy2a, hy2b, hy2c⟩ := dimUpper_spec B.dim_rowmax rw
  obtain ⟨z1, hz1, hz1a, hz1b, hz1c⟩ := dimLower_spec B.dim_colmin cw
  obtain ⟨z2, hz2, hz2a, hz2b, hz2c⟩ := dimUpper_spec B.dim_colmax cw
  have core := store_after_widen (widenW B rw cw) (widenW T rw cw) P rw cw
    ext cb ct hw (by exact hrel)
    ⟨y1, by exact hy1, hy1a⟩
    ⟨y2, by exact hy2, hy2a⟩
    ⟨z1, by exact hz1, hz1a⟩
    ⟨z2, by exact hz2, hz2a⟩
  rw [buffStore_widen, streamStore_if]
  exact core

theorem step_sim (B T : Worksheet) (P M : Nat) (op : WriteOp)
    (h : SimInv B T P M) (hM : M ≤ op.row) :
    ∃ P2, SimInv (applyWrite B op).2 (applyWrite T op).2 P2 op.row := by
  by_cases hoob : xls_rowmax ≤ op.row ∨ xls_colmax ≤ op.col
  · rw [applyWrite_oob B op hoob, applyWrite_oob T op hoob]
    exact ⟨P, simInv_mono_M B T P M op.row h hM⟩
  · push_neg at hoob
    obtain ⟨hrb, hcb⟩ := hoob
    have hp : T.previous_row ≤ op.row := by
      rw [h.prev]
      have := h.pm
      omega
    cases op with
    | wnumber r c n f =>
      simp only [WriteOp.row] at hM hrb hp
      simp only [WriteOp.col] at hcb
      simp only [applyWrite]
      rw [write_number_buff B r c n f h.bopt hrb hcb,
        write_number_stream T r c n f h.topt hp hrb hcb]
      exact ⟨r, full_store_step B T P M r c [] _ _ h hM rfl⟩
    | wblank r c f =>
      cases f with
      | none =>
        exact ⟨P, simInv_mono_M B T P M _ h hM⟩
      | some f0 =>
        simp only [WriteOp.row] at hM hrb hp
        simp only [WriteOp.col] at hcb
        simp only [applyWrite]
        rw [write_blank_buff B r c f0 h.bopt hrb hcb,
          write_blank_stream T r c f0 h.topt hp hrb hcb]
        exact ⟨r, full_store_step B T P M r c [] _ _ h hM rfl⟩
    | wdatetime r c d f =>
      simp only [WriteOp.row] at hM hrb hp
      simp only [WriteOp.col] at hcb
      simp only [applyWrite]
      rw [write_datetime_buff B r c d f h.bopt hrb hcb,
        write_datetime_stream T r c d f h.topt hp hrb hcb]
      rw [h.d19]
      exact ⟨r, full_store_step B T P M r c [] _ _ h hM rfl⟩
    | wformula r c fl f v =>
      simp only [WriteOp.row] at hM hrb hp
      simp only [WriteOp.col] at hcb
      simp only [applyWrite]
      by_cases hbr : fl.head? = some '\x7b' ∧ fl.getLast? = some '\x7d'
      · rw [write_formula_brace_buff B r c fl f v h.bopt hrb hcb hbr,
          write_formula_brace_stream T r c fl f v h.topt hp hrb hcb hbr]
        exact ⟨r, full_store_step B T P M r c [] _ _ h hM rfl⟩
      · rw [write_formula_plain_buff B r c fl f v h.bopt hrb hcb hbr,
          write_formula_plain_stream T r c fl f v h.topt hp hrb hcb hbr]
        exact ⟨r, full_store_step B T P M r c [] _ _ h hM rfl⟩
    | wstring r c s f =>
      simp only [WriteOp.row] at hM hrb hp
      simp only [WriteOp.col] at hcb
      simp only [applyWrite]
      obtain ⟨ext, hext, heqB⟩ := write_string_buff B r c s f h.bopt hrb hcb
      rw [heqB, write_string_stream T r c s f h.topt hp hrb hcb]
      refine ⟨r, full_store_step B T P M r c ext _ _ h hM ?_⟩
      refine ⟨?_, rfl⟩
      rw [← hext]
      exact getSharedStringIndex_get B.strTable _
    | wurl r c u f s t =>
      simp only [WriteOp.row] at hM hrb hp
      simp only [WriteOp.col] at hcb
      simp only [applyWrite]
      by_cases h2 : (urlMunge u s).2.2.length > xls_strmax
      · rw [write_url_err2 B r c u f s t hrb hcb (Or.inl h.bopt) h2,
          write_url_err2 T r c u f s t hrb hcb (Or.inr hp) h2]
        exact ⟨P, widen_step B T P M r c h hM⟩
      · by_cases h3 : (urlFinalize (urlMunge u s).2.1 (urlMunge u s).1
            (urlMunge u s).2.2).1.length > 255
        · rw [write_url_err3 B r c u f s t hrb hcb (Or.inl h.bopt) h2 h3,
            write_url_err3 T r c u f s t hrb hcb (Or.inr hp) h2 h3]
          exact ⟨P, widen_step B T P M r c h hM⟩
        · by_cases h5 : B.hlink_count + 1 > 65530
          · have h5' : T.hlink_count + 1 > 65530 := by rw [← h.hcnt]; exact h5
            rw [write_url_err5 B r c u f s t hrb hcb (Or.inl h.bopt) h2 h3 h5,
              write_url_err5 T r c u f s t hrb hcb (Or.inr hp) h2 h3 h5']
            exact ⟨P, simInv_hlink_bump _ _ P r
              (widen_step B T P M r c h hM)⟩
          · have h5' : ¬T.hlink_count + 1 > 65530 := by rw [← h.hcnt]; exact h5
            rw [write_url_success B r c u f s t hrb hcb (Or.inl h.bopt) h2 h3 h5,
              write_url_success T r c u f s t hrb hcb (Or.inr hp) h2 h3 h5']
            rw [if_neg (show ¬(B.optimization = true ∧ B.previous_row < r) from
              fun hx => by rw [h.bopt] at hx; exact absurd hx.1 (by simp))]
            obtain ⟨ext, hext, heqB⟩ := write_string_buff
              { widenW B r c with hlink_count := B.hlink_count + 1 }
              r c (urlMunge u s).2.2 f (by exact h.bopt) hrb hcb
            rw [if_neg h2] at hext
            simp only [if_neg h2] at heqB
            rw [heqB]
            obtain ⟨y1, hy1, hy1a, hy1b, hy1c⟩ := dimLower_spec B.dim_rowmin r
            obtain ⟨y2, hy2, hy2a, hy2b, hy2c⟩ := dimUpper_spec B.dim_rowmax r
            obtain ⟨z1, hz1, hz1a, hz1b, hz1c⟩ := dimLower_spec B.dim_colmin c
            obtain ⟨z2, hz2, hz2a, hz2b, hz2c⟩ := dimUpper_spec B.dim_colmax c
            have hmid : SimInv
                { widenW B r c with hlink_count := B.hlink_count + 1 }
                { widenW T r c with hlink_count := T.hlink_count + 1 } P r :=
              simInv_hlink_bump _ _ P r (widen_step B T P M r c h hM)
            have hrel2 : cellRel
                (({ widenW B r c with
                    hlink_count := B.hlink_count + 1 } : Worksheet).strTable ++
                  ext)
                (Cell.CString (.shared (getSharedStringIndex
                  (({ widenW B r c with
                      hlink_count := B.hlink_count + 1 } : Worksheet).strTable)
                  (urlMunge u s).2.2).1) f)
                (Cell.CString (.inline (urlMunge u s).2.2) f) := by
              refine ⟨?_, rfl⟩
              rw [← hext]
              exact getSharedStringIndex_get _ _
            have core := store_after_widen
              { widenW B r c with hlink_count := B.hlink_count + 1 }
              { widenW T r c with hlink_count := T.hlink_count + 1 }
              P r c ext _ _ hmid hrel2
              ⟨y1, by exact hy1, hy1a⟩
              ⟨y2, by exact hy2, hy2a⟩
              ⟨z1, by exact hz1, hz1a⟩
              ⟨z2, by exact hz2, hz2a⟩
            have hBeq : buffStore
                { widenW B r c with hlink_count := B.hlink_count + 1 }
                r c ext
                (Cell.CString (.shared (getSharedStringIndex
                  (({ widenW B r c with
                      hlink_count := B.hlink_count + 1 } : Worksheet).strTable)
                  (urlMunge u s).2.2).1) f) =
                { ({ widenW B r c with
                     hlink_count := B.hlink_count + 1 } : Worksheet) with
                  strTable := ({ widenW B r c with
                    hlink_count := B.hlink_count + 1 } : Worksheet).strTable ++
                    ext,
                  table := tableSet ({ widenW B r c with
                    hlink_count := B.hlink_count + 1 } : Worksheet).table r c
                    (Cell.CString (.shared (getSharedStringIndex
                      (({ widenW B r c with
                          hlink_count := B.hlink_count + 1 } :
                        Worksheet).strTable)
                      (urlMunge u s).2.2).1) f) } := by
              simp only [buffStore]
              congr 1
              · exact dimLower_idem B.dim_rowmin r
              · exact dimUpper_idem B.dim_rowmax r
              · exact dimLower_idem B.dim_colmin c
              · exact dimUpper_idem B.dim_colmax c
            rw [hBeq]
            by_cases hfl : T.previous_row < r
            · rw [if_pos (show T.optimization = true ∧ T.previous_row < r from
                ⟨h.topt, hfl⟩)]
              rw [write_string_stream _ r c (urlMunge u s).2.2 f
                (by exact h.topt) (by simp [_write_single_row]) hrb hcb]
              simp only [if_neg h2]
              have hTeq : streamStore
                  (_write_single_row
                    { widenW T r c with hlink_count := T.hlink_count + 1 } r)
                  r c (Cell.CString (.inline (urlMunge u s).2.2) f) =
                  { (_write_single_row
                      { widenW T r c with
                        hlink_count := T.hlink_count + 1 } r) with
                    table := tableSet (_write_single_row
                      { widenW T r c with
                        hlink_count := T.hlink_count + 1 } r).table r c
                      (Cell.CString (.inline (urlMunge u s).2.2) f) } := by
                simp only [streamStore]
                rw [if_neg (show ¬(_write_single_row
                    { widenW T r c with
                      hlink_count := T.hlink_count + 1 } r).previous_row < r
                  from by simp [_write_single_row])]
                congr 1
                · exact dimLower_idem T.dim_rowmin r
                · exact dimUpper_idem T.dim_rowmax r
                · exact dimLower_idem T.dim_colmin c
                · exact dimUpper_idem T.dim_colmax c
              rw [hTeq]
              rw [if_pos (show ({ widenW T r c with
                  hlink_count := T.hlink_count + 1 } :
                  Worksheet).previous_row < r from hfl)] at core
              exact ⟨r, simInv_hyper _ _ r r _ _ core⟩
            · rw [if_neg (show ¬(T.optimization = true ∧ T.previous_row < r)
                from fun hx => absurd hx.2 hfl)]
              rw [write_string_stream _ r c (urlMunge u s).2.2 f
                (by exact h.topt) (by exact hp) hrb hcb]
              simp only [if_neg h2]
              have hTeq : streamStore
                  ({ widenW T r c with
                     hlink_count := T.hlink_count + 1 } : Worksheet)
                  r c (Cell.CString (.inline (urlMunge u s).2.2) f) =
                  { ({ widenW T r c with
                       hlink_count := T.hlink_count + 1 } : Worksheet) with
                    table := tableSet ({ widenW T r c with
                      hlink_count := T.hlink_count + 1 } : Worksheet).table r c
                      (Cell.CString (.inline (urlMunge u s).2.2) f) } := by
                simp only [streamStore]
                rw [if_neg (show ¬({ widenW T r c with
                    hlink_count := T.hlink_count + 1 } :
                    Worksheet).previous_row < r from hfl)]
                congr 1
                · exact dimLower_idem T.dim_rowmin r
                · exact dimUpper_idem T.dim_rowmax r
                · exact dimLower_idem T.dim_colmin c
                · exact dimUpper_idem T.dim_colmax c
              rw [hTeq]
              rw [if_neg (show ¬({ widenW T r c with
                  hlink_count := T.hlink_count + 1 } :
                  Worksheet).previous_row < r from hfl)] at core
              exact ⟨r, simInv_hyper _ _ r r _ _ core⟩
theorem chain_to_rowsLB : ∀ (ops : List WriteOp) (M : Nat),
    List.Chain' (fun a b => a ≤ b) (ops.map WriteOp.row) →
    (∀ x, (ops.map WriteOp.row).head? = some x → M ≤ x) →
    rowsLB M ops := by
  intro ops
  induction ops with
  | nil => intro M _ _; exact trivial
  | cons op rest ih =>
    intro M hchain hhd
    rw [List.map_cons] at hchain hhd
    rw [List.chain'_cons'] at hchain
    refine ⟨hhd op.row rfl, ih op.row hchain.2 ?_⟩
    intro x hx
    exact hchain.1 x hx

theorem sim_init (d : Bool) (s0 : List PyStr) :
    SimInv (initWorksheet false d s0) (initWorksheet true d s0) 0 0 :=
  { bopt := rfl, topt := rfl, d19 := rfl, drmin := rfl, drmax := rfl,
    dcmin := rfl, dcmax := rfl, bsr := rfl, tsr := rfl, bcm := rfl,
    tcm := rfl, bcf := rfl, tcf := rfl, hcnt := rfl, bso := rfl,
    prev := rfl, pm := le_refl 0,
    rminM := fun x hx => Option.noConfusion hx,
    rmaxM := fun x hx => Option.noConfusion hx,
    live := fun r _ => List.Forall₂.nil,
    tflushed := fun r hr => rfl,
    bfuture := fun r _ => rfl,
    cover := rfl,
    flux := rfl }

theorem sim_run : ∀ (ops : List WriteOp) (B T : Worksheet) (P M : Nat),
    SimInv B T P M → rowsLB M ops →
    ∃ P2 M2, SimInv (runOps B ops) (runOps T ops) P2 M2 := by
  intro ops
  induction ops with
  | nil => intro B T P M h _; exact ⟨P, M, h⟩
  | cons op rest ih =>
    intro B T P M h hlb
    obtain ⟨hM, hrest⟩ := hlb
    obtain ⟨P2, h2⟩ := step_sim B T P M op h hM
    have hB : runOps B (op :: rest) = runOps (applyWrite B op).2 rest := rfl
    have hT : runOps T (op :: rest) = runOps (applyWrite T op).2 rest := rfl
    rw [hB, hT]
    exact ih _ _ P2 op.row h2 hrest

theorem closeStreamEvents_eq (T : Worksheet) :
    closeStreamEvents T = T.streamOut ++ flushRowEvents T T.previous_row := by
  simp only [closeStreamEvents, _write_single_row]
  rw [flushRowEvents_prev]

theorem rowEventsBuffered_empty (ws : Worksheet)
    (spans : List (Nat × (Nat × Nat))) (r : Nat)
    (hsr : ws.set_rows = []) (hcm : ws.comments = [])
    (htab : tableGet ws.table r = []) :
    rowEventsBuffered ws spans r = [] := by
  unfold rowEventsBuffered
  rw [hsr, hcm, htab]
  simp [alistGet_nil]

theorem write_rows_some (ws : Worksheet) (rmin rmax : Nat)
    (h1 : ws.dim_rowmin = some rmin) (h2 : ws.dim_rowmax = some rmax) :
    _write_rows ws = ((List.range' rmin (rmax + 1 - rmin)).map
      (rowEventsBuffered ws (_calculate_spans ws))).flatten := by
  unfold _write_rows
  rw [h1, h2]

theorem sim_final (B T : Worksheet) (P M : Nat) (h : SimInv B T P M) :
    eventsEquivB B.strTable (sheetDataEvents B) (closeStreamEvents T) = true := by
  rw [closeStreamEvents_eq, h.prev]
  cases hd1 : B.dim_rowmin with
  | none =>
    have hsd : sheetDataEvents B = [] := by
      unfold sheetDataEvents
      rw [hd1]
      rfl
    have htab := dimsCover_degenerate B h.cover (Or.inl hd1)
    have hfe : flushedEvents B P = [] := by
      unfold flushedEvents
      rw [hd1]
    have hfx := h.flux
    rw [hfe] at hfx
    have hso : T.streamOut = [] := (eventsEquivB_nil_iff _ _).mp hfx
    have hTP : tableGet T.table P = [] := by
      have := h.live P (le_refl P)
      rw [(by rw [htab]; rfl : tableGet B.table P = [])] at this
      exact forall2_nil_right _ _ this
    rw [hsd, hso, flushRowEvents_empty T P h.tsr h.tcm hTP]
    rfl
  | some rmin =>
    by_cases hdall : B.dim_rowmax = none ∨ B.dim_colmin = none ∨
        B.dim_colmax = none
    · -- degenerate: empty table
      have htab := dimsCover_degenerate B h.cover (Or.inr hdall)
      have hBall : ∀ r, tableGet B.table r = [] := fun r => by rw [htab]; rfl
      have hfe : flushedEvents B P = [] :=
        flushedEvents_of_empty B P hBall h.bsr h.bcm
      have hfx := h.flux
      rw [hfe] at hfx
      have hso : T.streamOut = [] := (eventsEquivB_nil_iff _ _).mp hfx
      have hTP : tableGet T.table P = [] := by
        have := h.live P (le_refl P)
        rw [hBall P] at this
        exact forall2_nil_right _ _ this
      have hsd : sheetDataEvents B = [] := by
        unfold sheetDataEvents
        rw [hd1]
        simp only [Option.isNone_some, Bool.false_eq_true, if_false]
        cases hd2 : B.dim_rowmax with
        | none =>
          unfold _write_rows
          rw [hd1, hd2]
        | some rmax =>
          rw [write_rows_some B rmin rmax hd1 hd2]
          apply flatten_of_all_nil
          intro l hl
          rw [List.mem_map] at hl
          obtain ⟨r, _, hr⟩ := hl
          rw [← hr]
          exact rowEventsBuffered_empty B _ r h.bsr h.bcm (hBall r)
      rw [hsd, hso, flushRowEvents_empty T P h.tsr h.tcm hTP]
      rfl
    · push_neg at hdall
      obtain ⟨hn2, hn3, hn4⟩ := hdall
      obtain ⟨rmax, hd2⟩ := Option.ne_none_iff_exists'.mp hn2
      obtain ⟨cmin, hd3⟩ := Option.ne_none_iff_exists'.mp hn3
      obtain ⟨cmax, hd4⟩ := Option.ne_none_iff_exists'.mp hn4
      have hcovB := dimsCover_bounds B rmin rmax cmin cmax h.cover
        hd1 hd2 hd3 hd4
      have hsd : sheetDataEvents B = ((List.range' rmin (rmax + 1 - rmin)).map
          (rowEventsBuffered B (_calculate_spans B))).flatten := by
        unfold sheetDataEvents
        rw [hd1]
        simp only [Option.isNone_some, Bool.false_eq_true, if_false]
        exact write_rows_some B rmin rmax hd1 hd2
      rw [hsd]
      -- convert spans-carrying row events to the canonical spans-free form
      rw [← List.append_nil (((List.range' rmin (rmax + 1 - rmin)).map
        (rowEventsBuffered B (_calculate_spans B))).flatten)]
      rw [eventsEquivB_rowsLoop B.strTable B (_calculate_spans B)
        (List.range' rmin (rmax + 1 - rmin)) [] _]
      rw [List.append_nil]
      by_cases haP : P < rmin
      · -- every sheet row lies above the buffer pointer: both sides empty
        have hfx := h.flux
        rw [flushedEvents_some B P rmin hd1, (by omega : P - rmin = 0)] at hfx
        have hso : T.streamOut = [] := (eventsEquivB_nil_iff _ _).mp hfx
        have hBP : tableGet B.table P = [] := by
          by_contra hne
          obtain ⟨c, hcs⟩ := colMap_ne_nil_isSome _ hne
          have := hcovB P c hcs
          omega
        have hTP : tableGet T.table P = [] := by
          have := h.live P (le_refl P)
          rw [hBP] at this
          exact forall2_nil_right _ _ this
        have hLHS : ((List.range' rmin (rmax + 1 - rmin)).map
            (flushRowEvents B)).flatten = [] := by
          apply flatten_of_all_nil
          intro l hl
          rw [List.mem_map] at hl
          obtain ⟨r, hrm, hr⟩ := hl
          rw [List.mem_range'_1] at hrm
          rw [← hr]
          exact flushRowEvents_empty B r h.bsr h.bcm
            (h.bfuture r (by omega))
        rw [hLHS, hso, flushRowEvents_empty T P h.tsr h.tcm hTP]
        rfl
      · by_cases hbP : P ≤ rmax
        · -- the buffer pointer lies inside the sheet row range
          rw [range1_split rmin P (rmax + 1 - rmin) (by omega) (by omega)]
          rw [(by omega : rmin + (rmax + 1 - rmin) - P = (rmax - P) + 1)]
          rw [List.range'_succ]
          rw [List.map_append, List.flatten_append, List.map_cons,
            List.flatten_cons]
          have hrest : ((List.range' (P + 1) (rmax - P)).map
              (flushRowEvents B)).flatten = [] := by
            apply flatten_of_all_nil
            intro l hl
            rw [List.mem_map] at hl
            obtain ⟨r, hrm, hr⟩ := hl
            rw [List.mem_range'_1] at hrm
            rw [← hr]
            exact flushRowEvents_empty B r h.bsr h.bcm
              (h.bfuture r (by omega))
          rw [hrest, List.append_nil]
          refine eventsEquivB_append _ _ _ _ _ ?_ ?_
          · have hfx := h.flux
            rw [flushedEvents_some B P rmin hd1] at hfx
            exact hfx
          · have hfre := flushRowEvents_equiv B.strTable B T P
              h.bsr h.bcm h.bcf h.tsr h.tcm h.tcf h.dcmin h.dcmax
              (h.live P (le_refl P)) [] [] rfl
            simpa using hfre
        · -- the buffer pointer lies beyond the sheet row range
          have hBP : tableGet B.table P = [] := by
            by_contra hne
            obtain ⟨c, hcs⟩ := colMap_ne_nil_isSome _ hne
            have := hcovB P c hcs
            omega
          have hTP : tableGet T.table P = [] := by
            have := h.live P (le_refl P)
            rw [hBP] at this
            exact forall2_nil_right _ _ this
          rw [flushRowEvents_empty T P h.tsr h.tcm hTP, List.append_nil]
          have hfx := h.flux
          rw [flushedEvents_some B P rmin hd1] at hfx
          by_cases hrr : rmin ≤ rmax + 1
          case neg =>
            have hfe0 : ((List.range' rmin (P - rmin)).map
                (flushRowEvents B)).flatten = [] := by
              apply flatten_of_all_nil
              intro l hl
              rw [List.mem_map] at hl
              obtain ⟨r, hrm, hr⟩ := hl
              rw [List.mem_range'_1] at hrm
              rw [← hr]
              apply flushRowEvents_empty B r h.bsr h.bcm
              by_contra hne
              obtain ⟨c, hcs⟩ := colMap_ne_nil_isSome _ hne
              have := hcovB r c hcs
              omega
            rw [hfe0] at hfx
            have hso : T.streamOut = [] := (eventsEquivB_nil_iff _ _).mp hfx
            rw [hso, (by omega : rmax + 1 - rmin = 0)]
            rfl
          rw [range1_split rmin (rmax + 1) (P - rmin) hrr
            (by omega)] at hfx
          rw [(by omega : rmax + 1 - rmin = rmax + 1 - rmin)] at hfx
          rw [List.map_append, List.flatten_append] at hfx
          have htail : ((List.range' (rmax + 1)
              (rmin + (P - rmin) - (rmax + 1))).map
              (flushRowEvents B)).flatten = [] := by
            apply flatten_of_all_nil
            intro l hl
            rw [List.mem_map] at hl
            obtain ⟨r, hrm, hr⟩ := hl
            rw [List.mem_range'_1] at hrm
            rw [← hr]
            apply flushRowEvents_empty B r h.bsr h.bcm
            by_contra hne
            obtain ⟨c, hcs⟩ := colMap_ne_nil_isSome _ hne
            have := hcovB r c hcs
            omega
          rw [htail, List.append_nil] at hfx
          exact hfx

/-- Claim C1: for every sequence of cell-level writes with non-decreasing
target rows, applied from a fresh worksheet in buffered mode and in
streaming (bounded-memory) mode over the same initial shared string table,
the buffered `<sheetData>` row/cell events and the streaming spill —
completed by the close-time flush of the still-buffered row — are
structurally equivalent: the same rows in the same order, the same cells
with the same references, values, types and resolved style indices,
differing only in string encoding (a shared-string index on the buffered
side standing for the escaped inline string of the streaming side, as
interned in the buffered run's shared string table). -/
theorem buffered_streaming_equiv_c1 (d : Bool) (s0 : List PyStr)
    (ops : List WriteOp) (h : rowsMonotone ops) :
    eventsEquivB (runOps (initWorksheet false d s0) ops).strTable
      (sheetDataEvents (runOps (initWorksheet false d s0) ops))
      (closeStreamEvents (runOps (initWorksheet true d s0) ops)) = true := by
  have hlb := chain_to_rowsLB ops 0 h (fun x _ => Nat.zero_le x)
  obtain ⟨P2, M2, h2⟩ := sim_run ops _ _ 0 0 (sim_init d s0) hlb
  exact sim_final _ _ P2 M2 h2

/-- Witness for C1: a concrete row-ordered mixed write sequence — two
interned strings (one repeated), a number, a formula, a blank and an
out-of-order-free row advance — checked equivalent under both serializers. -/
theorem buffered_streaming_equiv_c1_witness :
    rowsMonotone
      [WriteOp.wstring 0 0 (("hi").data) none,
       WriteOp.wnumber 0 1 5 (some 2),
       WriteOp.wstring 1 0 (("hi").data) (some 1),
       WriteOp.wformula 1 1 (("=A1").data) none (.num 0),
       WriteOp.wblank 2 3 (some 4)] ∧
    eventsEquivB (runOps (initWorksheet false false [])
        [WriteOp.wstring 0 0 (("hi").data) none,
         WriteOp.wnumber 0 1 5 (some 2),
         WriteOp.wstring 1 0 (("hi").data) (some 1),
         WriteOp.wformula 1 1 (("=A1").data) none (.num 0),
         WriteOp.wblank 2 3 (some 4)]).strTable
      (sheetDataEvents (runOps (initWorksheet false false [])
        [WriteOp.wstring 0 0 (("hi").data) none,
         WriteOp.wnumber 0 1 5 (some 2),
         WriteOp.wstring 1 0 (("hi").data) (some 1),
         WriteOp.wformula 1 1 (("=A1").data) none (.num 0),
         WriteOp.wblank 2 3 (some 4)]))
      (closeStreamEvents (runOps (initWorksheet true false [])
        [WriteOp.wstring 0 0 (("hi").data) none,
         WriteOp.wnumber 0 1 5 (some 2),
         WriteOp.wstring 1 0 (("hi").data) (some 1),
         WriteOp.wformula 1 1 (("=A1").data) none (.num 0),
         WriteOp.wblank 2 3 (some 4)])) = true :=
  ⟨by unfold rowsMonotone; simp [List.chain'_cons, WriteOp.row], buffered_streaming_equiv_c1 false []
    [WriteOp.wstring 0 0 (("hi").data) none,
     WriteOp.wnumber 0 1 5 (some 2),
     WriteOp.wstring 1 0 (("hi").data) (some 1),
     WriteOp.wformula 1 1 (("=A1").data) none (.num 0),
     WriteOp.wblank 2 3 (some 4)] (by unfold rowsMonotone; simp [List.chain'_cons, WriteOp.row])⟩

/-- Claim C3 (amended): in streaming mode (i) every write other than
`write_blank` without a format targeting a row strictly below the buffered
row — in particular any row at or below a previously flushed row, since a
flush always raises the buffer pointer above the flushed row, see (ii) —
fails with -1 and mutates nothing (`write_blank` with no format instead
returns 0 and also mutates nothing, see the counterexample); (ii)
`_write_single_row` flushes the buffered row and leaves the cell table
empty, with the buffer pointer at the triggering row; (iii) every accepted
cell write to a row strictly greater than the buffered row first serializes
that buffered row — its spill is exactly the `_write_single_row` flush of
the bounds-checked state, which emits the row only if it has content — and
clears the cell table before storing, so only the new row's cells are
retained.  Clause (iii) covers the hyperlink write as well: on its success
path (result 0) it performs the same flush before its inner string store,
and the counter bump it interposes does not change the spilled events. -/
theorem streaming_one_row_buffer_c3 :
    (∀ (ws : Worksheet) (op : WriteOp),
      ws.optimization = true → op.isBlankNone = false →
      op.row < ws.previous_row → applyWrite ws op = (-1, ws)) ∧
    (∀ (ws : Worksheet) (cur : Nat),
      (_write_single_row ws cur).previous_row = cur ∧
      (_write_single_row ws cur).table = []) ∧
    (∀ (ws : Worksheet) (op : WriteOp),
      ws.optimization = true → op.isBlankNone = false →
      (op.isUrl = false ∨ (applyWrite ws op).1 = 0) →
      op.row < xls_rowmax → op.col < xls_colmax → ws.previous_row < op.row →
      ((applyWrite ws op).2.streamOut =
          (_write_single_row
            (_check_dimensions ws op.row op.col false false).2 op.row).streamOut ∧
        (∀ rr, rr ≠ op.row → tableGet (applyWrite ws op).2.table rr = []) ∧
        (applyWrite ws op).2.previous_row = op.row)) := by
  refine ⟨fun ws op h1 h2 h3 => write_out_of_order_rejected ws op h1 h3 h2,
    fun ws cur => ⟨rfl, rfl⟩, ?_⟩
  intro ws op hopt hbn hurl hr hc hgt
  cases op with
  | wstring r c s f =>
    have hchk := check_dimensions_ok ws r c hr hc (Or.inr (le_of_lt hgt))
    simp only [applyWrite, WriteOp.row, WriteOp.col, write_string, hchk]
    rw [if_neg (by norm_num)]
    simp only [hopt, Bool.true_eq_false, if_false, eq_self_iff_true, true_and]
    rw [if_pos (show ws.previous_row < r from hgt)]
    refine ⟨by trivial, ?_, by trivial⟩
    intro rr hrr
    rw [tableGet_set_ne _ _ _ _ _ hrr]
    rfl
  | wnumber r c n f =>
    have hchk := check_dimensions_ok ws r c hr hc (Or.inr (le_of_lt hgt))
    simp only [applyWrite, WriteOp.row, WriteOp.col, write_number, hchk]
    rw [if_neg (by norm_num)]
    simp only [hopt, Bool.true_eq_false, if_false, eq_self_iff_true, true_and]
    rw [if_pos (show ws.previous_row < r from hgt)]
    refine ⟨by trivial, ?_, by trivial⟩
    intro rr hrr
    rw [tableGet_set_ne _ _ _ _ _ hrr]
    rfl
  | wblank r c f =>
    cases f with
    | none => simp [WriteOp.isBlankNone] at hbn
    | some f0 =>
      have hchk := check_dimensions_ok ws r c hr hc (Or.inr (le_of_lt hgt))
      simp only [applyWrite, WriteOp.row, WriteOp.col, write_blank, hchk]
      rw [if_neg (by norm_num)]
      simp only [hopt, Bool.true_eq_false, if_false, eq_self_iff_true, true_and]
      rw [if_pos (show ws.previous_row < r from hgt)]
      refine ⟨by trivial, ?_, by trivial⟩
      intro rr hrr
      rw [tableGet_set_ne _ _ _ _ _ hrr]
      rfl
  | wdatetime r c d f =>
    have hchk := check_dimensions_ok ws r c hr hc (Or.inr (le_of_lt hgt))
    simp only [applyWrite, WriteOp.row, WriteOp.col, write_datetime, hchk]
    rw [if_neg (by norm_num)]
    simp only [hopt, Bool.true_eq_false, if_false, eq_self_iff_true, true_and]
    rw [if_pos (show ws.previous_row < r from hgt)]
    refine ⟨by trivial, ?_, by trivial⟩
    intro rr hrr
    rw [tableGet_set_ne _ _ _ _ _ hrr]
    rfl
  | wurl r c u f s t =>
    cases hurl with
    | inl hfalse => simp [WriteOp.isUrl] at hfalse
    | inr hres =>
      simp only [applyWrite, WriteOp.row, WriteOp.col] at hres ⊢
      by_cases h2 : (urlMunge u s).2.2.length > xls_strmax
      · rw [write_url_err2 ws r c u f s t hr hc
          (Or.inr (le_of_lt hgt)) h2] at hres
        norm_num at hres
      · by_cases h3 : (urlFinalize (urlMunge u s).2.1 (urlMunge u s).1
            (urlMunge u s).2.2).1.length > 255
        · rw [write_url_err3 ws r c u f s t hr hc
            (Or.inr (le_of_lt hgt)) h2 h3] at hres
          norm_num at hres
        · by_cases h5 : ws.hlink_count + 1 > 65530
          · rw [write_url_err5 ws r c u f s t hr hc
              (Or.inr (le_of_lt hgt)) h2 h3 h5] at hres
            norm_num at hres
          · rw [write_url_success ws r c u f s t hr hc
              (Or.inr (le_of_lt hgt)) h2 h3 h5]
            rw [if_pos (⟨hopt, hgt⟩ :
              ws.optimization = true ∧ ws.previous_row < r)]
            rw [write_string_stream
              (_write_single_row
                { widenW ws r c with hlink_count := ws.hlink_count + 1 } r)
              r c (urlMunge u s).2.2 f
              (by exact hopt) (by exact le_refl r) hr hc]
            rw [check_dimensions_ok_w ws r c hr hc (Or.inr (le_of_lt hgt))]
            have hTeq : streamStore
                (_write_single_row
                  { widenW ws r c with
                    hlink_count := ws.hlink_count + 1 } r)
                r c (Cell.CString (.inline (if (urlMunge u s).2.2.length >
                  xls_strmax then (urlMunge u s).2.2.take xls_strmax
                  else (urlMunge u s).2.2)) f) =
                { (_write_single_row
                    { widenW ws r c with
                      hlink_count := ws.hlink_count + 1 } r) with
                  table := tableSet (_write_single_row
                    { widenW ws r c with
                      hlink_count := ws.hlink_count + 1 } r).table r c
                    (Cell.CString (.inline (if (urlMunge u s).2.2.length >
                      xls_strmax then (urlMunge u s).2.2.take xls_strmax
                      else (urlMunge u s).2.2)) f) } := by
              simp only [streamStore]
              rw [if_neg (show ¬(_write_single_row
                  { widenW ws r c with
                    hlink_count := ws.hlink_count + 1 } r).previous_row < r
                from by simp [_write_single_row])]
              congr 1
              · exact dimLower_idem ws.dim_rowmin r
              · exact dimUpper_idem ws.dim_rowmax r
              · exact dimLower_idem ws.dim_colmin c
              · exact dimUpper_idem ws.dim_colmax c
            rw [hTeq]
            refine ⟨rfl, ?_, rfl⟩
            intro rr hrr
            dsimp only
            rw [tableGet_set_ne _ _ _ _ _ hrr]
            rfl
  | wformula r c fl f v =>
    have hchk := check_dimensions_ok ws r c hr hc (Or.inr (le_of_lt hgt))
    simp only [applyWrite, WriteOp.row, WriteOp.col, write_formula, hchk]
    rw [if_neg (by norm_num)]
    by_cases hbr : fl.head? = some '\x7b' ∧ fl.getLast? = some '\x7d'
    · rw [if_pos hbr]
      rw [write_array_formula]
      simp only [gt_iff_lt, lt_self_iff_false, if_false]
      have hchk2 : _check_dimensions
          { ws with dim_rowmin := dimLower ws.dim_rowmin r
                    dim_rowmax := dimUpper ws.dim_rowmax r
                    dim_colmin := dimLower ws.dim_colmin c
                    dim_colmax := dimUpper ws.dim_colmax c } r c false false =
          (0, { ws with dim_rowmin := dimLower ws.dim_rowmin r
                        dim_rowmax := dimUpper ws.dim_rowmax r
                        dim_colmin := dimLower ws.dim_colmin c
                        dim_colmax := dimUpper ws.dim_colmax c }) := by
        rw [check_dimensions_ok
          { ws with dim_rowmin := dimLower ws.dim_rowmin r
                    dim_rowmax := dimUpper ws.dim_rowmax r
                    dim_colmin := dimLower ws.dim_colmin c
                    dim_colmax := dimUpper ws.dim_colmax c } r c hr hc
          (Or.inr (le_of_lt hgt))]
        simp [dimLower_idem, dimUpper_idem]
      simp only [hchk2]
      rw [if_neg (by norm_num)]
      simp only [hopt]
      have hcond : (True ∧ ws.previous_row < r) = True := eq_true ⟨trivial, hgt⟩
      simp only [hcond, if_true]
      rw [if_neg (by exact fun hx => Bool.noConfusion hx)]
      refine ⟨by trivial, ?_, by trivial⟩
      intro rr hrr
      rw [tableGet_set_ne _ _ _ _ _ hrr]
      rfl
    · rw [if_neg hbr]
      simp only [hopt, Bool.true_eq_false, if_false, eq_self_iff_true, true_and]
      rw [if_pos (show ws.previous_row < r from hgt)]
      refine ⟨by trivial, ?_, by trivial⟩
      intro rr hrr
      rw [tableGet_set_ne _ _ _ _ _ hrr]
      rfl

/-- Witness for C3: after a streaming write to row 2 (which flushed the
empty row 0 and left the buffer pointer at 2), a write to row 1 is rejected
leaving the state unchanged; an accepted number write to row 3 clears every
other row and moves the buffer pointer to 3; and an accepted hyperlink
write to row 4 does the same. -/
theorem streaming_one_row_buffer_c3_witness :
    applyWrite (runOps (initWorksheet true false [])
        [WriteOp.wstring 2 0 (("a").data) none]) (WriteOp.wnumber 1 0 5 none) =
      (-1, runOps (initWorksheet true false [])
        [WriteOp.wstring 2 0 (("a").data) none]) ∧
    tableGet (applyWrite (runOps (initWorksheet true false [])
        [WriteOp.wstring 2 0 (("a").data) none])
        (WriteOp.wnumber 3 1 7 none)).2.table 2 = [] ∧
    (applyWrite (runOps (initWorksheet true false [])
        [WriteOp.wstring 2 0 (("a").data) none])
        (WriteOp.wnumber 3 1 7 none)).2.previous_row = 3 ∧
    tableGet (applyWrite (runOps (initWorksheet true false [])
        [WriteOp.wstring 2 0 (("a").data) none])
        (WriteOp.wurl 4 1 (("http://x").data) none none none)).2.table 2 =
      [] ∧
    (applyWrite (runOps (initWorksheet true false [])
        [WriteOp.wstring 2 0 (("a").data) none])
        (WriteOp.wurl 4 1 (("http://x").data)
          none none none)).2.previous_row = 4 := by
  refine ⟨streaming_one_row_buffer_c3.1 _ _ rfl rfl (by decide),
    ?_, ?_, ?_, ?_⟩
  · exact (streaming_one_row_buffer_c3.2.2 _ (WriteOp.wnumber 3 1 7 none)
      rfl rfl (Or.inl rfl) (by decide) (by decide) (by decide)).2.1 2
      (by decide)
  · exact (streaming_one_row_buffer_c3.2.2 _ (WriteOp.wnumber 3 1 7 none)
      rfl rfl (Or.inl rfl) (by decide) (by decide) (by decide)).2.2
  · exact (streaming_one_row_buffer_c3.2.2 _
      (WriteOp.wurl 4 1 (("http://x").data) none none none)
      rfl rfl (Or.inr (by decide)) (by decide) (by decide) (by decide)).2.1 2
      (by decide)
  · exact (streaming_one_row_buffer_c3.2.2 _
      (WriteOp.wurl 4 1 (("http://x").data) none none none)
      rfl rfl (Or.inr (by decide)) (by decide) (by decide) (by decide)).2.2

/-- Counterexample to C3 as stated: after row 0 was flushed (the buffer
pointer is at row 1), a `write_blank` call without a format aimed at the
flushed row 0 returns 0, not the claimed failure result -1 (it still
mutates nothing). -/
theorem streaming_one_row_buffer_c3_counterexample :
    (runOps (initWorksheet true false [])
        [WriteOp.wstring 0 0 (("a").data) none,
         WriteOp.wstring 1 0 (("b").data) none]).previous_row = 1 ∧
    (applyWrite (runOps (initWorksheet true false [])
        [WriteOp.wstring 0 0 (("a").data) none,
         WriteOp.wstring 1 0 (("b").data) none])
      (WriteOp.wblank 0 5 none)).1 = 0 ∧
    ((0 : Int) = -1 → False) := by
  refine ⟨by decide, rfl, by decide⟩
